import Mathlib

/-!
Crash game: bet placement and cashout handlers, and the environment check.

A shallow embedding of `src/server/sockets/socketHandler.js`, followed by the validation of
`src/server/scripts/verify-env.js`.

* A JavaScript `Number` is idealised as an exact rational (`ℚ`) in the embedding of the
  handlers: rounding happens only where the source calls `toFixed`.  `NaN` appears only as the
  `none` outcome of `parseFloat` on the request payload; infinities are not represented.  The
  section "Double precision" gives the same handlers with the operations on numbers carried
  out on binary64 values; the properties that depend on the rounding of binary64 arithmetic
  are settled there.
* A MongoDB collection is a list of documents and a document's `_id` is its position in that
  list; `save` writes back at that position.  The handlers never insert or delete players or
  rounds, so positions are stable.
* One request is handled at a time: a handler is a function from the store to the new store
  and the list of emitted socket events.  An awaited operation that rejects is chosen by the
  `Env` (field `failure`); the handler's `catch` block then runs.
* A `Request` is a message whose argument is an object, after the handler's parameter pattern
  has taken its fields; `listen` is the listener as it is called with whatever the client
  sent, an object or not.
-/

namespace CrashGame

/-! ## Data model -/

/-- Status of a bet inside a round.  The handlers write `active` and `cashed_out`; `lost` is
the third value of the spec's data model (§3), written by the game engine, which is not part
of the sources. -/
inductive BetStatus where
  | active
  | cashed_out
  | lost
deriving DecidableEq, Repr

/-- Modelled from the spec: the phase of a Round (§3 of the specification). The GameRound schema
(`models/game.model.js`) is not part of the sources; the handlers never read a phase. -/
inductive Phase where
  | WAITING
  | BETTING
  | FLYING
  | CRASHED
deriving DecidableEq, Repr

/-- The `transaction_type` strings written by the handlers. -/
inductive TransactionType where
  | bet
  | cashout
deriving DecidableEq, Repr

/-- A wallet sub-document of a player, with the fields used by the handlers and `seed.js`. -/
structure Wallet where
  currency : String
  balance : ℚ
deriving DecidableEq, Repr

/-- A player document; its `_id` is its position in `Store.players`. -/
structure Player where
  username : String
  wallets : List Wallet
deriving DecidableEq, Repr

/-- A bet sub-document of a round; `player` is the player's `_id`. -/
structure Bet where
  player : Nat
  usd_amount : ℚ
  crypto_amount : ℚ
  currency : String
  status : BetStatus
  multiplier_at_cashout : Option ℚ
deriving DecidableEq, Repr

/-- Modelled from the spec: a game round document (the GameRound schema,
`models/game.model.js`, is not part of the sources).  The handlers use `round_id`,
`is_active` and `bets`; `phase` and `crash_point` are the further fields of the spec's Round
(§3).  The `_id` of a round is its position in `Store.rounds`. -/
structure GameRound where
  round_id : Nat
  is_active : Bool
  phase : Phase
  crash_point : ℚ
  bets : List Bet
deriving DecidableEq, Repr

/-- A ledger entry with the fields passed to `Transaction.create`. -/
structure Transaction where
  player : Nat
  usd_amount : ℚ
  crypto_amount : ℚ
  currency : String
  transaction_type : TransactionType
  transaction_hash : String
  price_at_time : ℚ
deriving DecidableEq, Repr

/-- The database collections together with the module variable `currentMultiplier`.
`rounds` is kept in descending `createdAt` order (newest first). -/
structure Store where
  players : List Player
  rounds : List GameRound
  transactions : List Transaction
  currentMultiplier : ℚ
deriving DecidableEq, Repr

/-- The awaited operations of the handlers, each of which may reject. -/
inductive Await where
  | findPlayer
  | findRound
  | getCryptoPrice
  | savePlayer
  | saveRound
  | createTransaction
deriving DecidableEq, Repr

/-- What the outside world supplies while one request is handled: the prices returned by
`getCryptoPrice`, the hash string built from `Date.now()` and `Math.random()`, the message of a
thrown error, and the first awaited operation that rejects (if any). -/
structure Env where
  bitcoin_usd : ℚ
  ethereum_usd : ℚ
  transaction_hash : String
  failure : Option Await
  errorMessage : String
deriving DecidableEq, Repr

/-- Payload of `place_bet`; `usd_amount` is the outcome of `parseFloat(usd_amount)`,
`none` standing for `NaN`. -/
structure PlaceBetPayload where
  username : String
  usd_amount : Option ℚ
  currency : String
deriving DecidableEq, Repr

/-- Payload of `cashout`; only `username` is destructured by the handler. -/
structure CashoutPayload where
  username : String
deriving DecidableEq, Repr

/-- A client request whose argument is an object: the fields bound by the parameter pattern of
the listener.  A message that carries no object does not get this far (see `listen`). -/
inductive Request where
  | place_bet (payload : PlaceBetPayload)
  | cashout (payload : CashoutPayload)
deriving DecidableEq, Repr

/-- Socket events emitted by the handlers, with their payloads. -/
inductive Event where
  | bet_error (msg : String) (error : Option String)
  | bet_placed (username : String) (usd_amount crypto_amount : ℚ) (currency : String)
      (round_id : Nat)
  | player_bet (username : String) (usd_amount : ℚ) (currency : String) (round_id : Nat)
  | error (msg : String) (error : Option String)
  | player_cashout (username : String) (currency : String) (payoutCrypto usd_equivalent : ℚ)
      (multiplier : ℚ)
deriving DecidableEq, Repr

/-- An emission: `socket.emit` (to the requester) or `io.emit` (to every client). -/
inductive Emitted where
  | unicast (e : Event)
  | broadcast (e : Event)
deriving DecidableEq, Repr

/-! ## Operations -/

/-- The value of `parseFloat(x.toFixed(digits))`: `x` rounded to `digits` decimals, ties away
from zero (`toFixed` takes the nearest decimal and, of two equally near, the larger in
magnitude). -/
def toFixed (digits : Nat) (x : ℚ) : ℚ :=
  if x < 0 then -((Rat.floor (-x * 10 ^ digits + 1 / 2) : ℤ) : ℚ) / 10 ^ digits
  else ((Rat.floor (x * 10 ^ digits + 1 / 2) : ℤ) : ℚ) / 10 ^ digits

/-- The first element satisfying `p`, with its position. -/
def findWithIndex {α : Type} (p : α → Bool) : List α → Option (Nat × α)
  | [] => none
  | x :: xs =>
    if p x then some (0, x)
    else match findWithIndex p xs with
      | none => none
      | some (i, y) => some (i + 1, y)

/-- The query `Player.findOne({ username })`. -/
def findOnePlayer (players : List Player) (username : String) : Option (Nat × Player) :=
  findWithIndex (fun p => p.username == username) players

/-- The query `GameRound.findOne({ is_active: true }).sort({ createdAt: -1 })`. -/
def findActiveRound (rounds : List GameRound) : Option (Nat × GameRound) :=
  findWithIndex (fun r => r.is_active) rounds

/-- The lookup `player.wallets.find((w) => w.currency === currency)`. -/
def findWallet (wallets : List Wallet) (currency : String) : Option Wallet :=
  wallets.find? (fun w => w.currency == currency)

/-- Assign `balance` on the wallet object returned by `findWallet`. -/
def setWalletBalance (currency : String) (balance : ℚ) : List Wallet → List Wallet
  | [] => []
  | w :: ws =>
    if w.currency == currency then { w with balance := balance } :: ws
    else w :: setWalletBalance currency balance ws

/-- The `round.bets.find(...)` of `cashout`: the player's first bet with status `active`. -/
def findActiveBet (bets : List Bet) (playerId : Nat) : Option (Nat × Bet) :=
  findWithIndex (fun b => b.player == playerId && b.status == BetStatus.active) bets

/-- The write `player.save()`: the player document goes back under its `_id`. -/
def savePlayer (s : Store) (playerId : Nat) (player : Player) : Store :=
  { s with players := s.players.set playerId player }

/-- The write `round.save()`: the round document goes back under its `_id`. -/
def saveRound (s : Store) (roundIdx : Nat) (round : GameRound) : Store :=
  { s with rounds := s.rounds.set roundIdx round }

/-- The write `Transaction.create(...)`: one entry is appended to the ledger. -/
def createTransaction (s : Store) (tx : Transaction) : Store :=
  { s with transactions := s.transactions ++ [tx] }

/-- The supported currencies `["BTC", "ETH"]`. -/
def supportedCurrencies : List String := ["BTC", "ETH"]

/-- The emission `socket.emit("bet_error", { msg })`. -/
def betError (msg : String) : List Emitted := [Emitted.unicast (Event.bet_error msg none)]

/-- The `catch` block of `place_bet`. -/
def betFailed (env : Env) : List Emitted :=
  [Emitted.unicast (Event.bet_error "Bet placement failed" (some env.errorMessage))]

/-- The emission `socket.emit("error", { msg })`. -/
def cashoutError (msg : String) : List Emitted := [Emitted.unicast (Event.error msg none)]

/-- The `catch` block of `cashout`. -/
def cashoutFailed (env : Env) : List Emitted :=
  [Emitted.unicast (Event.error "Cashout failed" (some env.errorMessage))]

/-- Line 46: `currency === "BTC" ? prices.bitcoin.usd : prices.ethereum.usd`. -/
def priceFor (env : Env) (currency : String) : ℚ :=
  if currency == "BTC" then env.bitcoin_usd else env.ethereum_usd

/-- Values bound by `place_bet` once every check of lines 19-63 has passed. -/
structure BetPlan where
  playerId : Nat
  player : Player
  roundIdx : Nat
  round : GameRound
  price : ℚ
  cleanUsdAmount : ℚ
  cryptoAmount : ℚ
  wallet : Wallet
deriving DecidableEq, Repr

/-- The checks of `place_bet` (socketHandler.js lines 19-63): either the events of an early
`return socket.emit(...)` (or of the `catch` block), or the values bound on the way. -/
def placeBetCheck (s : Store) (env : Env) (req : PlaceBetPayload) :
    Except (List Emitted) BetPlan :=
  if !(supportedCurrencies.contains req.currency) then
    Except.error (betError "Unsupported currency")
  else if env.failure = some Await.findPlayer then Except.error (betFailed env)
  else
    match findOnePlayer s.players req.username with
    | none => Except.error (betError "Player not found")
    | some (playerId, player) =>
      if env.failure = some Await.findRound then Except.error (betFailed env)
      else
        match findActiveRound s.rounds with
        | none => Except.error (betError "No active round available")
        | some (roundIdx, round) =>
          if round.bets.any (fun b => b.player == playerId) then
            Except.error (betError "You already have a bet in this round")
          else if env.failure = some Await.getCryptoPrice then Except.error (betFailed env)
          else
            let price := priceFor env req.currency
            match req.usd_amount with
            | none => Except.error (betError "Invalid bet amount or crypto price")
            | some cleanUsdAmount =>
              if price = 0 ∨ cleanUsdAmount ≤ 0 then
                Except.error (betError "Invalid bet amount or crypto price")
              else
                let cryptoAmount := toFixed 8 (cleanUsdAmount / price)
                if cryptoAmount = 0 then Except.error (betError "Invalid crypto conversion")
                else
                  match findWallet player.wallets req.currency with
                  | none => Except.error (betError "Insufficient balance")
                  | some wallet =>
                    if wallet.balance < cryptoAmount then
                      Except.error (betError "Insufficient balance")
                    else
                      Except.ok
                        { playerId := playerId, player := player, roundIdx := roundIdx,
                          round := round, price := price, cleanUsdAmount := cleanUsdAmount,
                          cryptoAmount := cryptoAmount, wallet := wallet }

/-- The player document after the debit of line 66. -/
def debitedPlayer (req : PlaceBetPayload) (plan : BetPlan) : Player :=
  { plan.player with
    wallets := setWalletBalance req.currency
      (toFixed 8 (plan.wallet.balance - plan.cryptoAmount)) plan.player.wallets }

/-- The bet pushed onto `round.bets` (lines 70-76). -/
def newBet (req : PlaceBetPayload) (plan : BetPlan) : Bet :=
  { player := plan.playerId, usd_amount := plan.cleanUsdAmount,
    crypto_amount := plan.cryptoAmount, currency := req.currency,
    status := BetStatus.active, multiplier_at_cashout := none }

/-- The transaction created for a bet (lines 80-88). -/
def betTransaction (env : Env) (req : PlaceBetPayload) (plan : BetPlan) : Transaction :=
  { player := plan.playerId, usd_amount := plan.cleanUsdAmount,
    crypto_amount := plan.cryptoAmount, currency := req.currency,
    transaction_type := TransactionType.bet, transaction_hash := env.transaction_hash,
    price_at_time := plan.price }

/-- The events of an accepted bet (lines 91-105). -/
def betPlacedEvents (req : PlaceBetPayload) (plan : BetPlan) : List Emitted :=
  [Emitted.unicast (Event.bet_placed req.username plan.cleanUsdAmount plan.cryptoAmount
      req.currency plan.round.round_id),
   Emitted.broadcast (Event.player_bet req.username plan.cleanUsdAmount req.currency
      plan.round.round_id)]

/-- The writes of `place_bet` (socketHandler.js lines 65-107): save the player, save the round,
create the transaction, emit; a rejecting write jumps to the `catch` block. -/
def placeBetCommit (s : Store) (env : Env) (req : PlaceBetPayload) (plan : BetPlan) :
    Store × List Emitted :=
  if env.failure = some Await.savePlayer then (s, betFailed env)
  else
    let s1 := savePlayer s plan.playerId (debitedPlayer req plan)
    if env.failure = some Await.saveRound then (s1, betFailed env)
    else
      let s2 := saveRound s1 plan.roundIdx
        { plan.round with bets := plan.round.bets ++ [newBet req plan] }
      if env.failure = some Await.createTransaction then (s2, betFailed env)
      else (createTransaction s2 (betTransaction env req plan), betPlacedEvents req plan)

/-- The `place_bet` handler (socketHandler.js lines 17-112). -/
def placeBet (s : Store) (env : Env) (req : PlaceBetPayload) : Store × List Emitted :=
  match placeBetCheck s env req with
  | Except.error events => (s, events)
  | Except.ok plan => placeBetCommit s env req plan

/-- Values bound by `cashout` once the lookups of lines 118-144 have succeeded. -/
structure CashoutPlan where
  playerId : Nat
  player : Player
  roundIdx : Nat
  round : GameRound
  betIdx : Nat
  bet : Bet
  wallet : Wallet
deriving DecidableEq, Repr

/-- The lookups of `cashout` (socketHandler.js lines 118-145).  A missing wallet makes
`wallet.balance += payoutCrypto` throw before anything is saved. -/
def cashoutCheck (s : Store) (env : Env) (req : CashoutPayload) :
    Except (List Emitted) CashoutPlan :=
  if env.failure = some Await.findPlayer then Except.error (cashoutFailed env)
  else
    match findOnePlayer s.players req.username with
    | none => Except.error (cashoutError "Player not found")
    | some (playerId, player) =>
      if env.failure = some Await.findRound then Except.error (cashoutFailed env)
      else
        match findActiveRound s.rounds with
        | none => Except.error (cashoutError "No active round")
        | some (roundIdx, round) =>
          match findActiveBet round.bets playerId with
          | none => Except.error (cashoutError "No active bet to cash out")
          | some (betIdx, bet) =>
            match findWallet player.wallets bet.currency with
            | none => Except.error (cashoutFailed env)
            | some wallet =>
              Except.ok
                { playerId := playerId, player := player, roundIdx := roundIdx, round := round,
                  betIdx := betIdx, bet := bet, wallet := wallet }

/-- The constant `payoutCrypto` (lines 137-139). -/
def payoutCrypto (s : Store) (plan : CashoutPlan) : ℚ :=
  toFixed 8 (plan.bet.crypto_amount * s.currentMultiplier)

/-- The constant `priceAtTime` (line 140). -/
def priceAtTime (plan : CashoutPlan) : ℚ := plan.bet.usd_amount / plan.bet.crypto_amount

/-- The constant `usdPayout` (line 141). -/
def usdPayout (s : Store) (plan : CashoutPlan) : ℚ :=
  toFixed 2 (payoutCrypto s plan * priceAtTime plan)

/-- The player document after the credit of line 145, `wallet.balance += payoutCrypto`.  The
sum is the exact one here; `creditedPlayerWith doubleArithmetic` has the binary64 sum. -/
def creditedPlayer (s : Store) (plan : CashoutPlan) : Player :=
  { plan.player with
    wallets := setWalletBalance plan.bet.currency (plan.wallet.balance + payoutCrypto s plan)
      plan.player.wallets }

/-- The bet after lines 148-149. -/
def cashedOutBet (s : Store) (plan : CashoutPlan) : Bet :=
  { plan.bet with status := BetStatus.cashed_out,
                  multiplier_at_cashout := some s.currentMultiplier }

/-- The transaction created for a cashout (lines 156-166). -/
def cashoutTransaction (s : Store) (env : Env) (plan : CashoutPlan) : Transaction :=
  { player := plan.playerId, usd_amount := usdPayout s plan,
    crypto_amount := payoutCrypto s plan, currency := plan.bet.currency,
    transaction_type := TransactionType.cashout, transaction_hash := env.transaction_hash,
    price_at_time := priceAtTime plan }

/-- The broadcast of a committed cashout (lines 169-175). -/
def cashoutEvents (s : Store) (req : CashoutPayload) (plan : CashoutPlan) : List Emitted :=
  [Emitted.broadcast (Event.player_cashout req.username plan.bet.currency (payoutCrypto s plan)
      (usdPayout s plan) s.currentMultiplier)]

/-- The writes of `cashout` (socketHandler.js lines 152-177). -/
def cashoutCommit (s : Store) (env : Env) (req : CashoutPayload) (plan : CashoutPlan) :
    Store × List Emitted :=
  if env.failure = some Await.savePlayer then (s, cashoutFailed env)
  else
    let s1 := savePlayer s plan.playerId (creditedPlayer s plan)
    if env.failure = some Await.saveRound then (s1, cashoutFailed env)
    else
      let s2 := saveRound s1 plan.roundIdx
        { plan.round with bets := plan.round.bets.set plan.betIdx (cashedOutBet s plan) }
      if env.failure = some Await.createTransaction then (s2, cashoutFailed env)
      else (createTransaction s2 (cashoutTransaction s env plan), cashoutEvents s req plan)

/-- The `cashout` handler (socketHandler.js lines 115-182). -/
def cashout (s : Store) (env : Env) (req : CashoutPayload) : Store × List Emitted :=
  match cashoutCheck s env req with
  | Except.error events => (s, events)
  | Except.ok plan => cashoutCommit s env req plan

/-- The export `setLiveMultiplier`: install the multiplier coming from the game engine. -/
def setLiveMultiplier (s : Store) (m : ℚ) : Store := { s with currentMultiplier := m }

/-- Dispatch of one client request to its handler. -/
def handle (s : Store) (env : Env) : Request → Store × List Emitted
  | Request.place_bet payload => placeBet s env payload
  | Request.cashout payload => cashout s env payload

/-! ## Scenario data -/

/-- A store with the seeded player `test` and one open round without bets. -/
def seedStore : Store :=
  { players := [{ username := "test",
                  wallets := [{ currency := "BTC", balance := 1 / 10 },
                              { currency := "ETH", balance := 5 }] }],
    rounds := [{ round_id := 1, is_active := true, phase := Phase.BETTING,
                 crash_point := 7 / 2, bets := [] }],
    transactions := [],
    currentMultiplier := 1 }

/-- Prices of 50,000 USD per BTC and 3,000 USD per ETH, no failing operation. -/
def calmEnv : Env :=
  { bitcoin_usd := 50000, ethereum_usd := 3000, transaction_hash := "tx_0_0",
    failure := none, errorMessage := "" }

/-- The bet of Scenario A once it has been cashed out at 2.00x. -/
def settledBet : Bet :=
  { player := 0, usd_amount := 50, crypto_amount := 1 / 1000, currency := "BTC",
    status := BetStatus.cashed_out, multiplier_at_cashout := some 2 }

/-- The player `test` after Scenario A. -/
def settledPlayer : Player :=
  { username := "test",
    wallets := [{ currency := "BTC", balance := 101 / 1000 },
                { currency := "ETH", balance := 5 }] }

/-- The round of Scenario A, flying, holding the settled bet. -/
def settledRound : GameRound :=
  { round_id := 1, is_active := true, phase := Phase.FLYING, crash_point := 7 / 2,
    bets := [settledBet] }

/-- A store in which the player `test` already holds a (cashed-out) bet in the open round. -/
def settledStore : Store :=
  { players := [settledPlayer], rounds := [settledRound], transactions := [],
    currentMultiplier := 2 }

/-- A store with the seeded player `demo` (0.001 BTC, 0.05 ETH) and one open round. -/
def demoStore : Store :=
  { players := [{ username := "demo",
                  wallets := [{ currency := "BTC", balance := 1 / 1000 },
                              { currency := "ETH", balance := 5 / 100 }] }],
    rounds := [{ round_id := 1, is_active := true, phase := Phase.BETTING,
                 crash_point := 7 / 2, bets := [] }],
    transactions := [],
    currentMultiplier := 1 }

/-- The player `demo` has staked the whole BTC balance (50 USD at 50,000 USD per BTC), after which the
engine installs the multiplier `-1`. -/
def negativeMultiplierStore : Store :=
  setLiveMultiplier (placeBet demoStore calmEnv ⟨"demo", some 50, "BTC"⟩).1 (-1)

/-- Scenario A before the cashout: `test` has bet 50 USD in BTC at 50,000 USD per BTC and the
engine has published the multiplier 2.00. -/
def scenarioA : Store :=
  setLiveMultiplier (placeBet seedStore calmEnv ⟨"test", some 50, "BTC"⟩).1 2

/-- The seeded store while the round is flying and the multiplier has reached 1.5. -/
def flyingStore : Store :=
  { players := seedStore.players,
    rounds := [{ round_id := 1, is_active := true, phase := Phase.FLYING,
                 crash_point := 7 / 2, bets := [] }],
    transactions := [],
    currentMultiplier := 3 / 2 }

/-- The betting window is open, `test` has just bet 50 USD in BTC, and the multiplier still
holds its initial value 1. -/
def bettingStore : Store := (placeBet seedStore calmEnv ⟨"test", some 50, "BTC"⟩).1

/-- As `bettingStore`, but the multiplier still holds 3, the last value of the previous
round. -/
def staleMultiplierStore : Store := setLiveMultiplier bettingStore 3

/-- A store whose only round has been deactivated after its crash. -/
def idleStore : Store :=
  { players := seedStore.players,
    rounds := [{ round_id := 1, is_active := false, phase := Phase.CRASHED,
                 crash_point := 7 / 2, bets := [] }],
    transactions := [],
    currentMultiplier := 7 / 2 }

/-- The bet of Scenario A while it is still active. -/
def scenarioABet : Bet :=
  { player := 0, usd_amount := 50, crypto_amount := 1 / 1000, currency := "BTC",
    status := BetStatus.active, multiplier_at_cashout := none }

/-- The round of Scenario A holding the active bet. -/
def scenarioARound : GameRound :=
  { round_id := 1, is_active := true, phase := Phase.BETTING, crash_point := 7 / 2,
    bets := [scenarioABet] }

/-- As `calmEnv`, but `Transaction.create` rejects. -/
def ledgerDownEnv : Env :=
  { calmEnv with failure := some Await.createTransaction, errorMessage := "write failed" }

/-- As `calmEnv`, but `round.save()` rejects. -/
def roundSaveDownEnv : Env :=
  { calmEnv with failure := some Await.saveRound, errorMessage := "write failed" }

/-- The store of Scenario A after a cashout during which `round.save()` rejected. -/
def halfSettledStore : Store := (handle scenarioA roundSaveDownEnv (Request.cashout ⟨"test"⟩)).1

/-! ## Vocabulary of the properties -/

/-- A number with at most eight decimals: an integer multiple of 0.00000001. -/
def IsFixed8 (x : ℚ) : Prop := (x * 10 ^ 8).den = 1

instance (x : ℚ) : Decidable (IsFixed8 x) := by unfold IsFixed8; infer_instance

/-- The facts `place_bet` has established when its checks pass. -/
structure BetChecked (s : Store) (env : Env) (req : PlaceBetPayload) (plan : BetPlan) :
    Prop where
  supported : supportedCurrencies.contains req.currency = true
  player_found : findOnePlayer s.players req.username = some (plan.playerId, plan.player)
  round_found : findActiveRound s.rounds = some (plan.roundIdx, plan.round)
  no_bet_yet : plan.round.bets.any (fun b => b.player == plan.playerId) = false
  price_eq : plan.price = priceFor env req.currency
  usd_eq : req.usd_amount = some plan.cleanUsdAmount
  price_ne : plan.price ≠ 0
  usd_pos : 0 < plan.cleanUsdAmount
  crypto_eq : plan.cryptoAmount = toFixed 8 (plan.cleanUsdAmount / plan.price)
  crypto_ne : plan.cryptoAmount ≠ 0
  wallet_found : findWallet plan.player.wallets req.currency = some plan.wallet
  funded : plan.cryptoAmount ≤ plan.wallet.balance

/-- The facts `cashout` has established when its lookups succeed. -/
structure CashoutChecked (s : Store) (req : CashoutPayload) (plan : CashoutPlan) : Prop where
  player_found : findOnePlayer s.players req.username = some (plan.playerId, plan.player)
  round_found : findActiveRound s.rounds = some (plan.roundIdx, plan.round)
  bet_found : findActiveBet plan.round.bets plan.playerId = some (plan.betIdx, plan.bet)
  wallet_found : findWallet plan.player.wallets plan.bet.currency = some plan.wallet

/-- The store of `place_bet` once the player has been saved. -/
def betStage1 (s : Store) (req : PlaceBetPayload) (plan : BetPlan) : Store :=
  savePlayer s plan.playerId (debitedPlayer req plan)

/-- The store of `place_bet` once the player and the round have been saved. -/
def betStage2 (s : Store) (req : PlaceBetPayload) (plan : BetPlan) : Store :=
  saveRound (betStage1 s req plan) plan.roundIdx
    { plan.round with bets := plan.round.bets ++ [newBet req plan] }

/-- The store of a fully committed `place_bet`. -/
def betStage3 (s : Store) (env : Env) (req : PlaceBetPayload) (plan : BetPlan) : Store :=
  createTransaction (betStage2 s req plan) (betTransaction env req plan)

/-- The store of `cashout` once the player has been saved. -/
def cashStage1 (s : Store) (plan : CashoutPlan) : Store :=
  savePlayer s plan.playerId (creditedPlayer s plan)

/-- The store of `cashout` once the player and the round have been saved. -/
def cashStage2 (s : Store) (plan : CashoutPlan) : Store :=
  saveRound (cashStage1 s plan) plan.roundIdx
    { plan.round with bets := plan.round.bets.set plan.betIdx (cashedOutBet s plan) }

/-- The store of a fully committed `cashout`. -/
def cashStage3 (s : Store) (env : Env) (plan : CashoutPlan) : Store :=
  createTransaction (cashStage2 s plan) (cashoutTransaction s env plan)

/-- Put every round of the store into the phase `ph`. -/
def setPhase (ph : Phase) (s : Store) : Store :=
  { s with rounds := s.rounds.map (fun r => { r with phase := ph }) }

/-- Every wallet balance is an integer multiple of 0.00000001. -/
def FixedBalances (s : Store) : Prop := ∀ p ∈ s.players, ∀ w ∈ p.wallets, IsFixed8 w.balance

instance (s : Store) : Decidable (FixedBalances s) := by
  unfold FixedBalances; infer_instance

/-- One thing that happens to the store: a client request handled in some environment, or the
game engine installing a multiplier. -/
inductive Step where
  | request (env : Env) (req : Request)
  | multiplier (m : ℚ)
deriving DecidableEq, Repr

/-- The store after one step. -/
def applyStep (s : Store) : Step → Store
  | Step.request env req => (handle s env req).1
  | Step.multiplier m => setLiveMultiplier s m

/-- The store after a sequence of steps. -/
def run (s : Store) (steps : List Step) : Store := steps.foldl applyStep s

/-- The transaction type a request writes when it is committed. -/
def committedType : Request → TransactionType
  | Request.place_bet _ => TransactionType.bet
  | Request.cashout _ => TransactionType.cashout

/-- No two bets of the list belong to the same player. -/
def OneBetPerPlayer (bets : List Bet) : Prop := (bets.map Bet.player).Nodup

instance (bets : List Bet) : Decidable (OneBetPerPlayer bets) := by
  unfold OneBetPerPlayer; infer_instance

/-- Every wallet of every player holds a balance that is at least zero. -/
def BalancesNonneg (s : Store) : Prop := ∀ p ∈ s.players, ∀ w ∈ p.wallets, 0 ≤ w.balance

instance (s : Store) : Decidable (BalancesNonneg s) := by
  unfold BalancesNonneg; infer_instance

/-- The balance the handlers see for a player and a currency: the first wallet of that
currency on the player document. -/
def balanceOf (s : Store) (playerId : Nat) (currency : String) : Option ℚ :=
  match s.players[playerId]? with
  | none => none
  | some player => (findWallet player.wallets currency).map Wallet.balance

/-- The bet at position `betIdx` of the round at position `roundIdx`. -/
def betAt (s : Store) (roundIdx betIdx : Nat) : Option Bet :=
  match s.rounds[roundIdx]? with
  | none => none
  | some round => round.bets[betIdx]?

/-- Scenario A as a sequence of steps: the bet, the multiplier update to 2.00, the cashout. -/
def scenarioASteps : List Step :=
  [Step.request calmEnv (Request.place_bet ⟨"test", some 50, "BTC"⟩),
   Step.multiplier 2,
   Step.request calmEnv (Request.cashout ⟨"test"⟩)]

/-- Prices of 30,000 USD per BTC and 3,000 USD per ETH, no failing operation. -/
def thirtyEnv : Env := { calmEnv with bitcoin_usd := 30000 }

/-- The player `test` has bet 100 USD in BTC at 30,000 USD per BTC; the multiplier is still
1. -/
def thirtyStore : Store := (placeBet seedStore thirtyEnv ⟨"test", some 100, "BTC"⟩).1

/-- Every check of `place_bet` that comes before the balance check (lines 19-57) has passed:
the currency is supported, no read rejected, the player and an active round without a bet of
the player were found, and the amount converts to the non-zero `crypto`. -/
structure FundsCheckReached (s : Store) (env : Env) (req : PlaceBetPayload) (playerId : Nat)
    (player : Player) (roundIdx : Nat) (round : GameRound) (usd crypto : ℚ) : Prop where
  supported : supportedCurrencies.contains req.currency = true
  find_player_ok : env.failure ≠ some Await.findPlayer
  player_found : findOnePlayer s.players req.username = some (playerId, player)
  find_round_ok : env.failure ≠ some Await.findRound
  round_found : findActiveRound s.rounds = some (roundIdx, round)
  no_bet_yet : round.bets.any (fun b => b.player == playerId) = false
  price_ok : env.failure ≠ some Await.getCryptoPrice
  usd_eq : req.usd_amount = some usd
  price_ne : priceFor env req.currency ≠ 0
  usd_pos : 0 < usd
  crypto_eq : crypto = toFixed 8 (usd / priceFor env req.currency)
  crypto_ne : crypto ≠ 0

/-- The seeded player `demo` stakes exactly the 0.001 BTC held (50 USD at 50,000 USD per
BTC). -/
def demoAllIn : PlaceBetPayload := ⟨"demo", some 50, "BTC"⟩

/-- The seeded player `demo` asks for 0.002 BTC (100 USD) while holding 0.001 BTC. -/
def demoTooMuch : PlaceBetPayload := ⟨"demo", some 100, "BTC"⟩

/-- The only player and the only round of `demoStore`. -/
def demoPlayer : Player :=
  { username := "demo",
    wallets := [{ currency := "BTC", balance := 1 / 1000 },
                { currency := "ETH", balance := 5 / 100 }] }

/-- The open round of `demoStore`. -/
def demoRound : GameRound :=
  { round_id := 1, is_active := true, phase := Phase.BETTING, crash_point := 7 / 2, bets := [] }

/-- The round of Scenario B after its crash at 1.20x: the bet of `test` is `lost` and the
round has been deactivated; the wallet keeps the debit of the bet. -/
def crashedStore : Store :=
  { players := [{ username := "test",
                  wallets := [{ currency := "BTC", balance := 99 / 1000 },
                              { currency := "ETH", balance := 5 }] }],
    rounds := [{ round_id := 1, is_active := false, phase := Phase.CRASHED,
                 crash_point := 6 / 5,
                 bets := [{ player := 0, usd_amount := 50, crypto_amount := 1 / 1000,
                            currency := "BTC", status := BetStatus.lost,
                            multiplier_at_cashout := none }] }],
    transactions := [{ player := 0, usd_amount := 50, crypto_amount := 1 / 1000,
                       currency := "BTC", transaction_type := TransactionType.bet,
                       transaction_hash := "tx_0_0", price_at_time := 50000 }],
    currentMultiplier := 6 / 5 }

/-- The events sent to the requester alone (`socket.emit`). -/
def unicasts : List Emitted → List Event
  | [] => []
  | Emitted.unicast e :: rest => e :: unicasts rest
  | Emitted.broadcast _ :: rest => unicasts rest

/-- The player `solo` holds a BTC wallet only; the open round is empty. -/
def soloStore : Store :=
  { players := [{ username := "solo", wallets := [{ currency := "BTC", balance := 1 / 10 }] }],
    rounds := [{ round_id := 1, is_active := true, phase := Phase.BETTING,
                 crash_point := 7 / 2, bets := [] }],
    transactions := [],
    currentMultiplier := 1 }

/-- As `soloStore`, but the round holds an active ETH bet of `solo`, who has no ETH wallet. -/
def soloEthBetStore : Store :=
  { soloStore with
    rounds := [{ round_id := 1, is_active := true, phase := Phase.FLYING,
                 crash_point := 7 / 2,
                 bets := [{ player := 0, usd_amount := 30, crypto_amount := 1 / 100,
                            currency := "ETH", status := BetStatus.active,
                            multiplier_at_cashout := none }] }],
    currentMultiplier := 2 }

/-- An environment in which nothing rejects; the message of the `TypeError` raised by
`wallet.balance += payoutCrypto` on a missing wallet is recorded in `errorMessage`. -/
def typeErrorEnv : Env :=
  { calmEnv with errorMessage := "Cannot read properties of undefined" }

/-- The object a client sends with `cashout`.  The handler's parameter pattern takes
`username` out of it; whatever else the client puts in, for instance a multiplier it claims,
is not read. -/
structure CashoutMessage where
  username : String
  multiplier : Option ℚ
  others : List (String × String)
deriving DecidableEq, Repr

/-- The parameter pattern `({ username })` of the `cashout` handler (line 115). -/
def destructureCashout (message : CashoutMessage) : CashoutPayload := ⟨message.username⟩

/-- The `cashout` handler applied to the object received from the client. -/
def onCashout (s : Store) (env : Env) (message : CashoutMessage) : Store × List Emitted :=
  cashout s env (destructureCashout message)

/-- Line 9: `let currentMultiplier = 1`, the value before any `setLiveMultiplier`. -/
def initialMultiplier : ℚ := 1

/-- The multiplier installed by the last `setLiveMultiplier` among the steps, if there is
one. -/
def lastInstalled : List Step → Option ℚ
  | [] => none
  | Step.multiplier m :: rest => some ((lastInstalled rest).getD m)
  | Step.request _ _ :: rest => lastInstalled rest

/-- The part of `place_bet` after its checks: the early `return` with the events of the
failed check, or the writes. -/
def placeBetFinish (s : Store) (env : Env) (req : PlaceBetPayload) :
    Except (List Emitted) BetPlan → Store × List Emitted
  | Except.error events => (s, events)
  | Except.ok plan => placeBetCommit s env req plan

/-- Two `place_bet` handlers interleaved at their await points so that both run their reads and
checks (lines 25-63) on the store `s` before either writes; then the first handler does its
writes and emits, then the second.  Each handler writes the documents it loaded itself.  The
result is the final store, the events of the first handler and the events of the second.
(Whether the second `round.save()` keeps the bet pushed by the first depends on how the
persistence library writes arrays; here it writes the whole document.) -/
def placeBetInterleaved (s : Store) (env1 env2 : Env) (req1 req2 : PlaceBetPayload) :
    Store × List Emitted × List Emitted :=
  let check1 := placeBetCheck s env1 req1
  let check2 := placeBetCheck s env2 req2
  let r1 := placeBetFinish s env1 req1 check1
  let r2 := placeBetFinish r1.1 env2 req2 check2
  (r2.1, r1.2, r2.2)

/-- The bet of Scenario A as a request. -/
def scenarioARequest : PlaceBetPayload := ⟨"test", some 50, "BTC"⟩

/-- A cashout message that also claims a multiplier of 100. -/
def greedyMessage : CashoutMessage :=
  { username := "test", multiplier := some 100, others := [("multiplier", "100")] }

/-- A plain cashout message. -/
def plainMessage : CashoutMessage := { username := "test", multiplier := none, others := [] }

/-! ## The environment verification script (`src/server/scripts/verify-env.js`)

A string is the list of its characters; the indices of `substring` count characters (for
ASCII values these are the UTF-16 units JavaScript counts). -/

/-- The object `process.env`: a variable is unset or holds a string. -/
abbrev ProcessEnv := String → Option String

/-- The array `required` (lines 43-48). -/
def required : List String := ["MONGO_URI", "API_KEY", "PORT", "FRONTEND_URL"]

/-- The array `placeholders` (lines 51-55). -/
def placeholders : List String :=
  ["your_mongodb_connection_string", "your_coinmarketcap_api_key", "username:password@cluster"]

/-- The test `value.includes(part)`: `part` occurs in `value` as a contiguous piece. -/
def includes (value part : String) : Bool :=
  value.data.tails.any (fun t => part.data.isPrefixOf t)

/-- The call `value.substring(indexStart, indexEnd)`: both indices are clamped to
`0 .. value.length` and swapped when the first exceeds the second. -/
def substring (value : String) (indexStart indexEnd : Int) : String :=
  let len : Int := value.length
  let a := max 0 (min indexStart len)
  let b := max 0 (min indexEnd len)
  String.mk ((value.data.drop (min a b).toNat).take ((max a b).toNat - (min a b).toNat))

/-- The masked form of lines 73-74:
`value.substring(0, 10) + "..." + value.substring(value.length - 4)`. -/
def mask (value : String) : String :=
  substring value 0 10 ++ "..." ++ substring value ((value.length : Int) - 4) value.length

/-- The string printed after the variable name (lines 73-75): masked for `MONGO_URI` and
`API_KEY`, the value itself otherwise. -/
def shownValue (varName value : String) : String :=
  if varName = "MONGO_URI" ∨ varName = "API_KEY" then mask value else value

/-- What the validation has produced so far: the flag `hasErrors` and the console lines. -/
structure Report where
  hasErrors : Bool
  output : List String
deriving DecidableEq, Repr

/-- One turn of the loop of lines 61-78. -/
def verifyVariable (env : ProcessEnv) (report : Report) (varName : String) : Report :=
  match env varName with
  | none => { hasErrors := true, output := report.output ++ ["❌ Missing: " ++ varName] }
  | some value =>
    if value = "" then
      { hasErrors := true, output := report.output ++ ["❌ Missing: " ++ varName] }
    else if placeholders.any (fun placeholder => includes value placeholder) then
      { hasErrors := true,
        output := report.output ++ ["❌ Placeholder detected in " ++ varName,
          "   Please replace with your actual credentials"] }
    else
      { report with
        output := report.output ++ ["✅ " ++ varName ++ ": " ++ shownValue varName value] }

/-- The validation of lines 57-78, run on the loaded environment. -/
def validate (env : ProcessEnv) : Report :=
  required.foldl (verifyVariable env)
    { hasErrors := false, output := ["🔍 Verifying environment variables...\n"] }

/-- A JavaScript string taken as a condition: unset and empty are false. -/
def truthy : Option String → Bool
  | none => false
  | some value => value != ""

/-- What the script is started with: whether the `.env` file exists, `process.env`, and the
variables the `.env` file defines. -/
structure ScriptInput where
  envFileExists : Bool
  processEnv : ProcessEnv
  envFile : ProcessEnv

/-- The loading of lines 14-40: `none` when the script exits with code 1 before validating;
otherwise the environment after `dotenv.config`, which adds the variables of the file that
`process.env` does not define yet. -/
def loadConfiguration (input : ScriptInput) : Option ProcessEnv :=
  let isProduction := input.processEnv "NODE_ENV" == some "production"
  let hasEnvVars := truthy (input.processEnv "MONGO_URI") && truthy (input.processEnv "API_KEY")
  if !input.envFileExists && !isProduction then none
  else if input.envFileExists then
    some (fun name =>
      match input.processEnv name with
      | some value => some value
      | none => input.envFile name)
  else if isProduction && hasEnvVars then some input.processEnv
  else none

/-- The exit code of the script: 1 from the early exits and from a failed validation, 0 when
the script runs to its end. -/
def exitCode (input : ScriptInput) : Nat :=
  match loadConfiguration input with
  | none => 1
  | some env => if (validate env).hasErrors then 1 else 0

/-- A required variable that makes the validation fail: unset, empty, or holding one of the
placeholder strings as a contiguous piece. -/
def Unusable (env : ProcessEnv) (varName : String) : Prop :=
  env varName = none ∨ env varName = some "" ∨
    ∃ value, env varName = some value ∧
      ∃ placeholder ∈ placeholders, placeholder.data <:+: value.data

/-- An environment with usable values whose `API_KEY` has six characters. -/
def shortKeyEnv : ProcessEnv := fun name =>
  if name = "MONGO_URI" then some "mongodb://db.example.com:27017/crash"
  else if name = "API_KEY" then some "abc123"
  else if name = "PORT" then some "3000"
  else if name = "FRONTEND_URL" then some "http://localhost:5173"
  else none

/-- The script started next to a `.env` file that defines the variables of `shortKeyEnv`. -/
def shortKeyInput : ScriptInput :=
  { envFileExists := true, processEnv := fun _ => none, envFile := shortKeyEnv }

/-- As `shortKeyEnv`, but `PORT` is not set. -/
def noPortEnv : ProcessEnv := fun name => if name = "PORT" then none else shortKeyEnv name

/-- The `_id` of the player a request is made for: the document `Player.findOne` returns for
the `username` of the payload. -/
def requester (s : Store) : Request → Option Nat
  | Request.place_bet payload => (findOnePlayer s.players payload.username).map Prod.fst
  | Request.cashout payload => (findOnePlayer s.players payload.username).map Prod.fst

/-- Two players, `test` and `vikas`, and an open round in which `vikas` has an active ETH
bet; the multiplier is 2. -/
def twoPlayerStore : Store :=
  { players := [{ username := "test",
                  wallets := [{ currency := "BTC", balance := 1 / 10 },
                              { currency := "ETH", balance := 5 }] },
                { username := "vikas",
                  wallets := [{ currency := "BTC", balance := 5 / 100 },
                              { currency := "ETH", balance := 19 / 10 }] }],
    rounds := [{ round_id := 7, is_active := true, phase := Phase.BETTING,
                 crash_point := 7 / 2,
                 bets := [{ player := 1, usd_amount := 300, crypto_amount := 1 / 10,
                            currency := "ETH", status := BetStatus.active,
                            multiplier_at_cashout := none }] }],
    transactions := [],
    currentMultiplier := 2 }

/-! ## Messages without an object

The listeners are registered with `socket.on` as async functions whose parameter is an object
pattern (lines 17 and 115); the `try` block is the body of the function, so the parameter
pattern stands before it. -/

/-- What a client passes with an event.  `socket.emit("cashout")` passes nothing, so that the
parameter of the listener is `undefined`; a client may also pass `null`; otherwise the argument
is an object, from which the parameter pattern takes the fields. -/
inductive Argument (α : Type) where
  | undefined
  | null
  | object (fields : α)
deriving DecidableEq, Repr

/-- A socket message as it reaches the server: the event and the argument sent with it. -/
inductive Message where
  | place_bet (argument : Argument PlaceBetPayload)
  | cashout (argument : Argument CashoutPayload)
deriving DecidableEq, Repr

/-- The two listeners of `socketHandler` (lines 17 and 115) as they are called with the
argument of a message.  The parameter pattern is evaluated when the async function is called,
before its body is entered: for `undefined` and `null` the destructuring throws a `TypeError`
outside the `try` block, the promise of the async function rejects, and neither the `catch`
block nor any `emit` runs.  For an object the body of the handler runs. -/
def listen (s : Store) (env : Env) : Message → Store × List Emitted
  | Message.place_bet (Argument.object payload) => placeBet s env payload
  | Message.place_bet Argument.undefined => (s, [])
  | Message.place_bet Argument.null => (s, [])
  | Message.cashout (Argument.object payload) => cashout s env payload
  | Message.cashout Argument.undefined => (s, [])
  | Message.cashout Argument.null => (s, [])

/-! ## Double precision

A JavaScript `Number` is a binary64 value.  This section gives the handlers with the
operations on numbers as a parameter: with exact operations they are the handlers of the
embedding above, with binary64 operations every operation returns the binary64 value nearest
to the exact result, as the code computes.  A binary64 value is represented by the rational
number it denotes.  Only the normal range is modelled (no overflow, no subnormal numbers, no
signed zero, no `NaN`), which covers the amounts and balances of the scenarios below; the
handlers divide only by numbers they have tested to be non-zero. -/

/-- Search for the position of the leading binary digit of `n`, halving at most `fuel`
times. -/
def log2Fuel : Nat → Nat → Nat
  | 0, _ => 0
  | fuel + 1, n => if n < 2 then 0 else log2Fuel fuel (n / 2) + 1

/-- The position of the leading binary digit of `n`: for `n ≥ 1`,
`2 ^ floorLog2 n ≤ n < 2 ^ (floorLog2 n + 1)`. -/
def floorLog2 (n : Nat) : Nat := log2Fuel n n

/-- The binary exponent of `x ≠ 0`: the integer `e` with `2 ^ e ≤ |x| < 2 ^ (e + 1)`.  It is
the difference of the positions of the leading digits of numerator and denominator, or one
less. -/
def binaryExponent (x : ℚ) : ℤ :=
  let k : ℤ := (floorLog2 x.num.natAbs : ℤ) - (floorLog2 x.den : ℤ)
  if (2 : ℚ) ^ k ≤ |x| then k else k - 1

/-- The integer nearest to `x`; of two equally near integers, the even one. -/
def roundHalfEven (x : ℚ) : ℤ :=
  let f := Rat.floor x
  if x - f < 1 / 2 then f
  else if 1 / 2 < x - f then f + 1
  else if f % 2 = 0 then f else f + 1

/-- The binary64 value nearest to `x`, a tie going to the value with the even significand:
`x` is rounded to a multiple of `2 ^ (e - 52)`, where `e` is its binary exponent, which leaves
53 significant binary digits. -/
def roundDouble (x : ℚ) : ℚ :=
  if x = 0 then 0
  else
    let ulp : ℚ := (2 : ℚ) ^ (binaryExponent x - 52)
    (roundHalfEven (x / ulp) : ℚ) * ulp

/-- The value of `parseFloat(x.toFixed(digits))` for a binary64 value `x`: `toFixed` writes the
decimal with `digits` decimals nearest to the value of `x`, and `parseFloat` reads it as the
nearest binary64 value. -/
def toFixedDouble (digits : Nat) (x : ℚ) : ℚ := roundDouble (toFixed digits x)

/-- The operations on numbers the handlers use: `+`, `-`, `*`, `/` and
`parseFloat(x.toFixed(digits))`. -/
structure Arithmetic where
  add : ℚ → ℚ → ℚ
  sub : ℚ → ℚ → ℚ
  mul : ℚ → ℚ → ℚ
  div : ℚ → ℚ → ℚ
  fixed : Nat → ℚ → ℚ

/-- Exact operations, those of the embedding above. -/
def exactArithmetic : Arithmetic :=
  { add := fun x y => x + y, sub := fun x y => x - y, mul := fun x y => x * y,
    div := fun x y => x / y, fixed := toFixed }

/-- The operations of JavaScript on binary64 values: the exact result, rounded to the nearest
binary64 value. -/
def doubleArithmetic : Arithmetic :=
  { add := fun x y => roundDouble (x + y), sub := fun x y => roundDouble (x - y),
    mul := fun x y => roundDouble (x * y), div := fun x y => roundDouble (x / y),
    fixed := toFixedDouble }

/-- The checks of `place_bet` (socketHandler.js lines 19-63), as `placeBetCheck`, with the
operations of `A` on line 54. -/
def placeBetCheckWith (A : Arithmetic) (s : Store) (env : Env) (req : PlaceBetPayload) :
    Except (List Emitted) BetPlan :=
  if !(supportedCurrencies.contains req.currency) then
    Except.error (betError "Unsupported currency")
  else if env.failure = some Await.findPlayer then Except.error (betFailed env)
  else
    match findOnePlayer s.players req.username with
    | none => Except.error (betError "Player not found")
    | some (playerId, player) =>
      if env.failure = some Await.findRound then Except.error (betFailed env)
      else
        match findActiveRound s.rounds with
        | none => Except.error (betError "No active round available")
        | some (roundIdx, round) =>
          if round.bets.any (fun b => b.player == playerId) then
            Except.error (betError "You already have a bet in this round")
          else if env.failure = some Await.getCryptoPrice then Except.error (betFailed env)
          else
            let price := priceFor env req.currency
            match req.usd_amount with
            | none => Except.error (betError "Invalid bet amount or crypto price")
            | some cleanUsdAmount =>
              if price = 0 ∨ cleanUsdAmount ≤ 0 then
                Except.error (betError "Invalid bet amount or crypto price")
              else
                let cryptoAmount := A.fixed 8 (A.div cleanUsdAmount price)
                if cryptoAmount = 0 then Except.error (betError "Invalid crypto conversion")
                else
                  match findWallet player.wallets req.currency with
                  | none => Except.error (betError "Insufficient balance")
                  | some wallet =>
                    if wallet.balance < cryptoAmount then
                      Except.error (betError "Insufficient balance")
                    else
                      Except.ok
                        { playerId := playerId, player := player, roundIdx := roundIdx,
                          round := round, price := price, cleanUsdAmount := cleanUsdAmount,
                          cryptoAmount := cryptoAmount, wallet := wallet }

/-- The player document after the debit of line 66,
`wallet.balance = parseFloat((wallet.balance - cryptoAmount).toFixed(8))`. -/
def debitedPlayerWith (A : Arithmetic) (req : PlaceBetPayload) (plan : BetPlan) : Player :=
  { plan.player with
    wallets := setWalletBalance req.currency
      (A.fixed 8 (A.sub plan.wallet.balance plan.cryptoAmount)) plan.player.wallets }

/-- The writes of `place_bet` (socketHandler.js lines 65-107), as `placeBetCommit`. -/
def placeBetCommitWith (A : Arithmetic) (s : Store) (env : Env) (req : PlaceBetPayload)
    (plan : BetPlan) : Store × List Emitted :=
  if env.failure = some Await.savePlayer then (s, betFailed env)
  else
    let s1 := savePlayer s plan.playerId (debitedPlayerWith A req plan)
    if env.failure = some Await.saveRound then (s1, betFailed env)
    else
      let s2 := saveRound s1 plan.roundIdx
        { plan.round with bets := plan.round.bets ++ [newBet req plan] }
      if env.failure = some Await.createTransaction then (s2, betFailed env)
      else (createTransaction s2 (betTransaction env req plan), betPlacedEvents req plan)

/-- The `place_bet` handler (socketHandler.js lines 17-112) with the operations of `A`. -/
def placeBetWith (A : Arithmetic) (s : Store) (env : Env) (req : PlaceBetPayload) :
    Store × List Emitted :=
  match placeBetCheckWith A s env req with
  | Except.error events => (s, events)
  | Except.ok plan => placeBetCommitWith A s env req plan

/-- The constant `payoutCrypto` (lines 137-139),
`parseFloat((bet.crypto_amount * currentMultiplier).toFixed(8))`. -/
def payoutCryptoWith (A : Arithmetic) (s : Store) (plan : CashoutPlan) : ℚ :=
  A.fixed 8 (A.mul plan.bet.crypto_amount s.currentMultiplier)

/-- The constant `priceAtTime` (line 140), `bet.usd_amount / bet.crypto_amount`. -/
def priceAtTimeWith (A : Arithmetic) (plan : CashoutPlan) : ℚ :=
  A.div plan.bet.usd_amount plan.bet.crypto_amount

/-- The constant `usdPayout` (line 141), `parseFloat((payoutCrypto * priceAtTime).toFixed(2))`. -/
def usdPayoutWith (A : Arithmetic) (s : Store) (plan : CashoutPlan) : ℚ :=
  A.fixed 2 (A.mul (payoutCryptoWith A s plan) (priceAtTimeWith A plan))

/-- The player document after the credit of line 145, `wallet.balance += payoutCrypto`: an
addition that is not followed by `toFixed`. -/
def creditedPlayerWith (A : Arithmetic) (s : Store) (plan : CashoutPlan) : Player :=
  { plan.player with
    wallets := setWalletBalance plan.bet.currency
      (A.add plan.wallet.balance (payoutCryptoWith A s plan)) plan.player.wallets }

/-- The transaction created for a cashout (lines 156-166). -/
def cashoutTransactionWith (A : Arithmetic) (s : Store) (env : Env) (plan : CashoutPlan) :
    Transaction :=
  { player := plan.playerId, usd_amount := usdPayoutWith A s plan,
    crypto_amount := payoutCryptoWith A s plan, currency := plan.bet.currency,
    transaction_type := TransactionType.cashout, transaction_hash := env.transaction_hash,
    price_at_time := priceAtTimeWith A plan }

/-- The broadcast of a committed cashout (lines 169-175). -/
def cashoutEventsWith (A : Arithmetic) (s : Store) (req : CashoutPayload) (plan : CashoutPlan) :
    List Emitted :=
  [Emitted.broadcast (Event.player_cashout req.username plan.bet.currency
      (payoutCryptoWith A s plan) (usdPayoutWith A s plan) s.currentMultiplier)]

/-- The writes of `cashout` (socketHandler.js lines 152-177), as `cashoutCommit`. -/
def cashoutCommitWith (A : Arithmetic) (s : Store) (env : Env) (req : CashoutPayload)
    (plan : CashoutPlan) : Store × List Emitted :=
  if env.failure = some Await.savePlayer then (s, cashoutFailed env)
  else
    let s1 := savePlayer s plan.playerId (creditedPlayerWith A s plan)
    if env.failure = some Await.saveRound then (s1, cashoutFailed env)
    else
      let s2 := saveRound s1 plan.roundIdx
        { plan.round with bets := plan.round.bets.set plan.betIdx (cashedOutBet s plan) }
      if env.failure = some Await.createTransaction then (s2, cashoutFailed env)
      else (createTransaction s2 (cashoutTransactionWith A s env plan),
        cashoutEventsWith A s req plan)

/-- The `cashout` handler (socketHandler.js lines 115-182) with the operations of `A`; its
lookups involve no arithmetic. -/
def cashoutWith (A : Arithmetic) (s : Store) (env : Env) (req : CashoutPayload) :
    Store × List Emitted :=
  match cashoutCheck s env req with
  | Except.error events => (s, events)
  | Except.ok plan => cashoutCommitWith A s env req plan

/-- Dispatch of one client request to its handler, with the operations of `A`. -/
def handleWith (A : Arithmetic) (s : Store) (env : Env) : Request → Store × List Emitted
  | Request.place_bet payload => placeBetWith A s env payload
  | Request.cashout payload => cashoutWith A s env payload

/-- A binary64 value that stands for a number with at most eight decimals, that is, for an
integer multiple of 0.00000001: it is the value that `parseFloat` reads from its own
`toFixed(8)`. -/
def IsFixed8Double (x : ℚ) : Prop := toFixedDouble 8 x = x

instance (x : ℚ) : Decidable (IsFixed8Double x) := by unfold IsFixed8Double; infer_instance

/-- Every wallet balance stands for a number with at most eight decimals. -/
def FixedBalancesDouble (s : Store) : Prop :=
  ∀ p ∈ s.players, ∀ w ∈ p.wallets, IsFixed8Double w.balance

instance (s : Store) : Decidable (FixedBalancesDouble s) := by
  unfold FixedBalancesDouble; infer_instance

/-- Replay of one ledger entry on the balance of a player in a currency, in binary64
arithmetic: a `bet` entry of that player and currency takes its `crypto_amount` away, a
`cashout` entry adds it. -/
def applyTransactionDouble (playerId : Nat) (currency : String) (balance : ℚ)
    (tx : Transaction) : ℚ :=
  if tx.player = playerId ∧ tx.currency = currency then
    match tx.transaction_type with
    | TransactionType.bet => roundDouble (balance - tx.crypto_amount)
    | TransactionType.cashout => roundDouble (balance + tx.crypto_amount)
  else balance

/-- Replay of a list of ledger entries, oldest first, from a starting balance, in binary64
arithmetic. -/
def replayDouble (txs : List Transaction) (playerId : Nat) (currency : String) (start : ℚ) :
    ℚ :=
  txs.foldl (applyTransactionDouble playerId currency) start

/-- Replay of one ledger entry in decimal arithmetic: the balance is a decimal number and the
entry counts with the decimal its `crypto_amount` stands for. -/
def applyTransactionDecimal (playerId : Nat) (currency : String) (balance : ℚ)
    (tx : Transaction) : ℚ :=
  if tx.player = playerId ∧ tx.currency = currency then
    match tx.transaction_type with
    | TransactionType.bet => balance - toFixed 8 tx.crypto_amount
    | TransactionType.cashout => balance + toFixed 8 tx.crypto_amount
  else balance

/-- Replay of a list of ledger entries, oldest first, in decimal arithmetic, from the decimal
the starting balance stands for. -/
def replayDecimal (txs : List Transaction) (playerId : Nat) (currency : String) (start : ℚ) :
    ℚ :=
  txs.foldl (applyTransactionDecimal playerId currency) (toFixed 8 start)

/-- The seeded store (`seed.js`: `test` holds 0.1 BTC and 5 ETH) with the balances as the
binary64 values that are stored. -/
def seedStoreDouble : Store :=
  { players := [{ username := "test",
                  wallets := [{ currency := "BTC", balance := roundDouble (1 / 10) },
                              { currency := "ETH", balance := 5 }] }],
    rounds := [{ round_id := 1, is_active := true, phase := Phase.BETTING,
                 crash_point := 7 / 2, bets := [] }],
    transactions := [],
    currentMultiplier := 1 }

/-- The player `test` has bet 1 USD in BTC at 50,000 USD per BTC and the engine has installed
the multiplier 1.05. -/
def oneDollarBetStore : Store :=
  setLiveMultiplier
    (handleWith doubleArithmetic seedStoreDouble calmEnv
      (Request.place_bet ⟨"test", some 1, "BTC"⟩)).1
    (roundDouble (105 / 100))

/-- The store after the cashout of that bet. -/
def oneDollarCashedStore : Store :=
  (handleWith doubleArithmetic oneDollarBetStore calmEnv (Request.cashout ⟨"test"⟩)).1

/-- The player `test` has bet 1 USD in BTC at 30,000 USD per BTC and the engine has installed
the multiplier 2. -/
def smallBetStore : Store :=
  setLiveMultiplier
    (handleWith doubleArithmetic seedStoreDouble thirtyEnv
      (Request.place_bet ⟨"test", some 1, "BTC"⟩)).1
    2

/-- The store after the cashout of that bet. -/
def smallCashedStore : Store :=
  (handleWith doubleArithmetic smallBetStore thirtyEnv (Request.cashout ⟨"test"⟩)).1

/-- The player `test` has bet 100 USD in BTC at 30,000 USD per BTC; the multiplier holds 1. -/
def roundTripBetStore : Store :=
  (handleWith doubleArithmetic seedStoreDouble thirtyEnv
    (Request.place_bet ⟨"test", some 100, "BTC"⟩)).1

/-- The store after the cashout of that bet at the multiplier 1. -/
def roundTripStore : Store :=
  (handleWith doubleArithmetic roundTripBetStore thirtyEnv (Request.cashout ⟨"test"⟩)).1

/-! ## Basic facts about the list operations -/

theorem findWithIndex_some {α : Type} (p : α → Bool) :
    ∀ (l : List α) (i : Nat) (x : α), findWithIndex p l = some (i, x) →
      l[i]? = some x ∧ p x = true := by
  intro l
  induction l with
  | nil => intro i x h; simp [findWithIndex] at h
  | cons a l ih =>
    intro i x h
    unfold findWithIndex at h
    by_cases hp : p a = true
    · simp only [hp, if_true, Option.some.injEq, Prod.mk.injEq] at h
      obtain ⟨rfl, rfl⟩ := h
      exact ⟨by simp, hp⟩
    · simp only [hp] at h
      cases hrec : findWithIndex p l with
      | none => simp [hrec] at h
      | some jy =>
        obtain ⟨j, y⟩ := jy
        simp only [hrec, Bool.false_eq_true, if_false, Option.some.injEq, Prod.mk.injEq] at h
        obtain ⟨rfl, rfl⟩ := h
        have := ih j y hrec
        exact ⟨by simpa using this.1, this.2⟩

theorem findWithIndex_none {α : Type} (p : α → Bool) :
    ∀ (l : List α), findWithIndex p l = none → ∀ x ∈ l, p x = false := by
  intro l
  induction l with
  | nil => intro _ x hx; simp at hx
  | cons a l ih =>
    intro h x hx
    unfold findWithIndex at h
    by_cases hp : p a = true
    · simp [hp] at h
    · simp only [hp] at h
      cases hrec : findWithIndex p l with
      | none =>
        rcases List.mem_cons.mp hx with rfl | hx
        · simpa using hp
        · exact ih hrec x hx
      | some jy => simp [hrec] at h

theorem findWithIndex_of_forall_false {α : Type} (p : α → Bool) :
    ∀ (l : List α), (∀ x ∈ l, p x = false) → findWithIndex p l = none := by
  intro l
  induction l with
  | nil => intro _; rfl
  | cons a l ih =>
    intro h
    have ha : p a = false := h a (List.mem_cons_self a l)
    have hl : findWithIndex p l = none := ih (fun x hx => h x (List.mem_cons_of_mem a hx))
    simp [findWithIndex, ha, hl]

theorem findWithIndex_set {α : Type} (p : α → Bool) :
    ∀ (l : List α) (i : Nat) (x y : α), findWithIndex p l = some (i, x) → p y = true →
      findWithIndex p (l.set i y) = some (i, y) := by
  intro l
  induction l with
  | nil => intro i x y h; simp [findWithIndex] at h
  | cons a l ih =>
    intro i x y h hy
    unfold findWithIndex at h
    by_cases hp : p a = true
    · simp only [hp, if_true, Option.some.injEq, Prod.mk.injEq] at h
      obtain ⟨rfl, rfl⟩ := h
      simp [findWithIndex, hy]
    · simp only [hp] at h
      cases hrec : findWithIndex p l with
      | none => simp [hrec] at h
      | some jy =>
        obtain ⟨j, z⟩ := jy
        simp only [hrec, Bool.false_eq_true, if_false, Option.some.injEq, Prod.mk.injEq] at h
        obtain ⟨rfl, rfl⟩ := h
        have := ih j z y hrec hy
        simp [findWithIndex, hp, this]

theorem findWallet_setWalletBalance_same (currency : String) (balance : ℚ) :
    ∀ (ws : List Wallet) (w : Wallet), findWallet ws currency = some w →
      findWallet (setWalletBalance currency balance ws) currency =
        some { w with balance := balance } := by
  intro ws
  induction ws with
  | nil => intro w h; simp [findWallet] at h
  | cons a ws ih =>
    intro w h
    unfold findWallet at h ih ⊢
    by_cases ha : (a.currency == currency) = true
    · simp only [List.find?, ha, Option.some.injEq] at h
      subst h
      simp [setWalletBalance, ha, List.find?]
    · simp only [Bool.not_eq_true] at ha
      simp only [List.find?, ha] at h
      simp only [setWalletBalance, ha, Bool.false_eq_true, if_false, List.find?]
      exact ih w h

theorem findWallet_setWalletBalance_other (currency other : String) (balance : ℚ)
    (hne : other ≠ currency) :
    ∀ (ws : List Wallet), findWallet (setWalletBalance currency balance ws) other =
      findWallet ws other := by
  intro ws
  induction ws with
  | nil => rfl
  | cons a ws ih =>
    unfold findWallet at ih ⊢
    by_cases ha : (a.currency == currency) = true
    · have hac : a.currency = currency := by simpa using ha
      have hao : (a.currency == other) = false := by
        simp only [beq_eq_false_iff_ne, ne_eq]
        intro h; exact hne (h ▸ hac)
      simp [setWalletBalance, ha, List.find?, hao]
    · simp only [Bool.not_eq_true] at ha
      simp only [setWalletBalance, ha, Bool.false_eq_true, if_false, List.find?]
      rw [ih]

theorem mem_setWalletBalance (currency : String) (balance : ℚ) :
    ∀ (ws : List Wallet) (w : Wallet), w ∈ setWalletBalance currency balance ws →
      w ∈ ws ∨ w.balance = balance := by
  intro ws
  induction ws with
  | nil => intro w h; simp [setWalletBalance] at h
  | cons a ws ih =>
    intro w h
    unfold setWalletBalance at h
    by_cases ha : (a.currency == currency) = true
    · simp only [ha, if_true, List.mem_cons] at h
      rcases h with rfl | h
      · exact Or.inr rfl
      · exact Or.inl (List.mem_cons_of_mem a h)
    · simp only [ha, Bool.false_eq_true, if_false, List.mem_cons] at h
      rcases h with rfl | h
      · exact Or.inl (List.mem_cons_self _ _)
      · rcases ih w h with h1 | h1
        · exact Or.inl (List.mem_cons_of_mem a h1)
        · exact Or.inr h1

/-! ## Rounding -/

theorem ratFloor_eq (x : ℚ) : Rat.floor x = ⌊x⌋ := rfl

theorem toFixed_nonneg (digits : Nat) (x : ℚ) (hx : 0 ≤ x) : 0 ≤ toFixed digits x := by
  unfold toFixed
  rw [if_neg (not_lt.mpr hx), ratFloor_eq]
  have h10 : (0 : ℚ) < 10 ^ digits := by positivity
  have hfl : (0 : ℤ) ≤ ⌊x * 10 ^ digits + 1 / 2⌋ := Int.floor_nonneg.mpr (by positivity)
  have : (0 : ℚ) ≤ ((⌊x * 10 ^ digits + 1 / 2⌋ : ℤ) : ℚ) := by exact_mod_cast hfl
  positivity

theorem floor_int_add_half (n : ℤ) : ⌊((n : ℚ) + 1 / 2)⌋ = n := by
  rw [Int.floor_eq_iff]
  constructor <;> norm_num

theorem toFixed_int_div (digits : Nat) (n : ℤ) :
    toFixed digits ((n : ℚ) / 10 ^ digits) = (n : ℚ) / 10 ^ digits := by
  have h10 : (10 : ℚ) ^ digits ≠ 0 := by positivity
  unfold toFixed
  split
  · rw [ratFloor_eq]
    have : -((n : ℚ) / 10 ^ digits) * 10 ^ digits + 1 / 2 = ((-n : ℤ) : ℚ) + 1 / 2 := by
      push_cast
      rw [neg_mul, div_mul_cancel₀ _ h10]
    rw [this, floor_int_add_half]
    push_cast
    ring
  · rw [ratFloor_eq]
    have : (n : ℚ) / 10 ^ digits * 10 ^ digits + 1 / 2 = (n : ℚ) + 1 / 2 := by
      rw [div_mul_cancel₀ _ h10]
    rw [this, floor_int_add_half]

theorem isFixed8_iff (x : ℚ) : IsFixed8 x ↔ ∃ n : ℤ, x = (n : ℚ) / 10 ^ 8 := by
  unfold IsFixed8
  constructor
  · intro h
    refine ⟨(x * 10 ^ 8).num, ?_⟩
    have := (Rat.den_eq_one_iff (x * 10 ^ 8)).mp h
    rw [this]; field_simp
  · rintro ⟨n, rfl⟩
    have : (n : ℚ) / 10 ^ 8 * 10 ^ 8 = (n : ℚ) := by field_simp
    rw [this]; rfl

theorem isFixed8_toFixed (x : ℚ) : IsFixed8 (toFixed 8 x) := by
  rw [isFixed8_iff]
  unfold toFixed
  split
  · exact ⟨-Rat.floor (-x * 10 ^ 8 + 1 / 2), by push_cast; ring⟩
  · exact ⟨Rat.floor (x * 10 ^ 8 + 1 / 2), rfl⟩

/-! ## Binary64 rounding -/

theorem log2Fuel_spec : ∀ (fuel n : Nat), 1 ≤ n → n ≤ fuel →
    2 ^ log2Fuel fuel n ≤ n ∧ n < 2 ^ (log2Fuel fuel n + 1) := by
  intro fuel
  induction fuel with
  | zero => intro n h1 h2; omega
  | succ fuel ih =>
    intro n h1 h2
    unfold log2Fuel
    by_cases h : n < 2
    · rw [if_pos h]
      have : n = 1 := by omega
      subst this
      simp
    · rw [if_neg h]
      obtain ⟨ha, hb⟩ := ih (n / 2) (by omega) (by omega)
      constructor
      · rw [pow_succ]; omega
      · rw [pow_succ]; omega

theorem floorLog2_spec (n : Nat) (h : 1 ≤ n) :
    2 ^ floorLog2 n ≤ n ∧ n < 2 ^ (floorLog2 n + 1) :=
  log2Fuel_spec n n h (le_refl n)

theorem binaryExponent_spec (x : ℚ) (hx : x ≠ 0) :
    (2 : ℚ) ^ binaryExponent x ≤ |x| ∧ |x| < (2 : ℚ) ^ (binaryExponent x + 1) := by
  have hnum : 1 ≤ x.num.natAbs := Nat.one_le_iff_ne_zero.mpr (by
    intro h; exact hx (Rat.zero_of_num_zero (Int.natAbs_eq_zero.mp h)))
  have hden : 1 ≤ x.den := x.den_pos
  obtain ⟨ha, hb⟩ := floorLog2_spec _ hnum
  obtain ⟨hc, hd⟩ := floorLog2_spec _ hden
  have habs : |x| = (x.num.natAbs : ℚ) / (x.den : ℚ) := by
    conv_lhs => rw [← Rat.num_div_den x]
    rw [abs_div, Nat.abs_cast]
    congr 1
    rw [Nat.cast_natAbs, Int.cast_abs]
  have hdpos : (0 : ℚ) < x.den := by exact_mod_cast x.den_pos
  have ha' : (2 : ℚ) ^ (floorLog2 x.num.natAbs) ≤ x.num.natAbs := by exact_mod_cast ha
  have hb' : (x.num.natAbs : ℚ) < 2 ^ (floorLog2 x.num.natAbs + 1) := by exact_mod_cast hb
  have hc' : (2 : ℚ) ^ (floorLog2 x.den) ≤ x.den := by exact_mod_cast hc
  have hd' : (x.den : ℚ) < 2 ^ (floorLog2 x.den + 1) := by exact_mod_cast hd
  have h2 : (0 : ℚ) < 2 := by norm_num
  unfold binaryExponent
  simp only
  split
  · rename_i h
    refine ⟨h, ?_⟩
    rw [habs, div_lt_iff₀ hdpos]
    have : (2 : ℚ) ^ ((floorLog2 x.num.natAbs : ℤ) - (floorLog2 x.den : ℤ) + 1)
        = 2 ^ (floorLog2 x.num.natAbs + 1) / 2 ^ (floorLog2 x.den) := by
      rw [show ((floorLog2 x.num.natAbs : ℤ) - (floorLog2 x.den : ℤ) + 1)
        = ((floorLog2 x.num.natAbs + 1 : ℕ) : ℤ) - ((floorLog2 x.den : ℕ) : ℤ) by push_cast; ring]
      rw [zpow_sub₀ (ne_of_gt h2), zpow_natCast, zpow_natCast]
    rw [this, div_mul_eq_mul_div, lt_div_iff₀ (by positivity)]
    calc (x.num.natAbs : ℚ) * 2 ^ floorLog2 x.den
        ≤ x.num.natAbs * x.den := by
          apply mul_le_mul_of_nonneg_left hc' (by positivity)
      _ < 2 ^ (floorLog2 x.num.natAbs + 1) * x.den := by
          apply mul_lt_mul_of_pos_right hb' hdpos
  · rename_i h
    push_neg at h
    constructor
    · rw [habs, le_div_iff₀ hdpos]
      have : (2 : ℚ) ^ ((floorLog2 x.num.natAbs : ℤ) - (floorLog2 x.den : ℤ) - 1)
          = 2 ^ (floorLog2 x.num.natAbs) / 2 ^ (floorLog2 x.den + 1) := by
        rw [show ((floorLog2 x.num.natAbs : ℤ) - (floorLog2 x.den : ℤ) - 1)
          = ((floorLog2 x.num.natAbs : ℕ) : ℤ) - ((floorLog2 x.den + 1 : ℕ) : ℤ) by
            push_cast; ring]
        rw [zpow_sub₀ (ne_of_gt h2), zpow_natCast, zpow_natCast]
      rw [this, div_mul_eq_mul_div, div_le_iff₀ (by positivity)]
      calc (2 : ℚ) ^ floorLog2 x.num.natAbs * x.den
          ≤ x.num.natAbs * x.den := by
            apply mul_le_mul_of_nonneg_right ha' (le_of_lt hdpos)
        _ ≤ x.num.natAbs * 2 ^ (floorLog2 x.den + 1) := by
            apply mul_le_mul_of_nonneg_left (le_of_lt hd') (by positivity)
    · rw [sub_add_cancel]; exact h

theorem roundHalfEven_spec (x : ℚ) : |(roundHalfEven x : ℚ) - x| ≤ 1 / 2 := by
  have h1 : ((Rat.floor x : ℤ) : ℚ) ≤ x := by
    rw [ratFloor_eq]; exact Int.floor_le x
  have h2 : x < ((Rat.floor x : ℤ) : ℚ) + 1 := by
    rw [ratFloor_eq]; exact Int.lt_floor_add_one x
  unfold roundHalfEven
  simp only
  split
  · rw [abs_le]; constructor <;> linarith
  · split
    · push_cast; rw [abs_le]; constructor <;> linarith
    · rename_i h3 h4
      push_neg at h3 h4
      have : x - (Rat.floor x : ℤ) = 1 / 2 := le_antisymm h4 h3
      split
      · rw [abs_le]; constructor <;> linarith
      · push_cast; rw [abs_le]; constructor <;> linarith

theorem roundHalfEven_nearest (x : ℚ) (m : ℤ) :
    |(roundHalfEven x : ℚ) - x| ≤ |(m : ℚ) - x| := by
  by_cases h : m = roundHalfEven x
  · rw [h]
  · have h1 : (1 : ℚ) ≤ |(m : ℚ) - (roundHalfEven x : ℚ)| := by
      have : (1 : ℤ) ≤ |m - roundHalfEven x| := Int.one_le_abs (sub_ne_zero.mpr h)
      exact_mod_cast this
    have h2 := roundHalfEven_spec x
    have h3 : |(m : ℚ) - (roundHalfEven x : ℚ)|
        ≤ |(m : ℚ) - x| + |(roundHalfEven x : ℚ) - x| := by
      have := abs_sub_le (m : ℚ) x (roundHalfEven x : ℚ)
      rwa [abs_sub_comm x (roundHalfEven x : ℚ)] at this
    linarith

theorem roundHalfEven_tie (x : ℚ) (h : |(roundHalfEven x : ℚ) - x| = 1 / 2) :
    roundHalfEven x % 2 = 0 := by
  have h1 : ((Rat.floor x : ℤ) : ℚ) ≤ x := by
    rw [ratFloor_eq]; exact Int.floor_le x
  have h2 : x < ((Rat.floor x : ℤ) : ℚ) + 1 := by
    rw [ratFloor_eq]; exact Int.lt_floor_add_one x
  unfold roundHalfEven at h ⊢
  simp only at h ⊢
  split
  · rename_i h3
    rw [if_pos h3, abs_sub_comm, abs_of_nonneg (by linarith)] at h
    linarith
  · rename_i h3
    rw [if_neg h3] at h
    split
    · rename_i h4
      rw [if_pos h4] at h
      push_cast at h
      rw [abs_of_nonneg (by linarith)] at h
      linarith
    · split
      · assumption
      · omega

/-- What `roundDouble` computes: for `x ≠ 0` with binary exponent `e`, the result is an integer
multiple of `2 ^ (e - 52)`, no integer multiple of `2 ^ (e - 52)` is nearer to `x`, the
distance to `x` is at most `2 ^ (e - 53)`, and when `x` lies half-way between two multiples the
result is the even one. -/
theorem roundDouble_spec (x : ℚ) (hx : x ≠ 0) :
    (2 : ℚ) ^ binaryExponent x ≤ |x| ∧ |x| < (2 : ℚ) ^ (binaryExponent x + 1) ∧
    ∃ n : ℤ, roundDouble x = (n : ℚ) * 2 ^ (binaryExponent x - 52) ∧
      |roundDouble x - x| ≤ 2 ^ (binaryExponent x - 53) ∧
      (∀ m : ℤ, |roundDouble x - x| ≤ |(m : ℚ) * 2 ^ (binaryExponent x - 52) - x|) ∧
      (|roundDouble x - x| = 2 ^ (binaryExponent x - 53) → n % 2 = 0) := by
  obtain ⟨he1, he2⟩ := binaryExponent_spec x hx
  refine ⟨he1, he2, roundHalfEven (x / 2 ^ (binaryExponent x - 52)), ?_, ?_, ?_, ?_⟩
  · unfold roundDouble; rw [if_neg hx]
  all_goals
    have hulp : (0 : ℚ) < 2 ^ (binaryExponent x - 52) := by positivity
    have hhalf : (2 : ℚ) ^ (binaryExponent x - 53) = 1 / 2 * 2 ^ (binaryExponent x - 52) := by
      rw [show binaryExponent x - 53 = (binaryExponent x - 52) - 1 by ring,
        zpow_sub_one₀ (by norm_num : (2 : ℚ) ≠ 0)]
      ring
    have hdist : ∀ k : ℤ, |(k : ℚ) * 2 ^ (binaryExponent x - 52) - x|
        = |(k : ℚ) - x / 2 ^ (binaryExponent x - 52)| * 2 ^ (binaryExponent x - 52) := by
      intro k
      rw [← abs_of_pos hulp, ← abs_mul, abs_of_pos hulp, sub_mul,
        div_mul_cancel₀ _ (ne_of_gt hulp)]
    have hval : roundDouble x
        = (roundHalfEven (x / 2 ^ (binaryExponent x - 52)) : ℚ)
          * 2 ^ (binaryExponent x - 52) := by
      unfold roundDouble; rw [if_neg hx]
  · rw [hval, hdist, hhalf]
    exact mul_le_mul_of_nonneg_right (roundHalfEven_spec _) (le_of_lt hulp)
  · intro m
    rw [hval, hdist, hdist]
    exact mul_le_mul_of_nonneg_right (roundHalfEven_nearest _ m) (le_of_lt hulp)
  · intro h
    rw [hval, hdist, hhalf] at h
    exact roundHalfEven_tie _ (mul_right_cancel₀ (ne_of_gt hulp) h)

/-- Known binary64 values: 1 is exact; 0.1 is `3602879701896397 / 2 ^ 55`; the sum of 0.1 and
0.2 is the value above 0.3 (printed 0.30000000000000004); `2 ^ 53 + 1` lies half-way between
two values and goes to the even one, `2 ^ 53`; `2 ^ 53 + 3` goes to `2 ^ 53 + 4`; and the
rounding is symmetric about 0. -/
theorem roundDouble_examples :
    roundDouble 1 = 1 ∧ roundDouble (1 / 10) = 3602879701896397 / 2 ^ 55 ∧
      roundDouble (3 / 10) = 5404319552844595 / 2 ^ 54 ∧
      roundDouble (roundDouble (1 / 10) + roundDouble (2 / 10)) = 5404319552844596 / 2 ^ 54 ∧
      roundDouble (2 ^ 53 + 1) = 2 ^ 53 ∧ roundDouble (2 ^ 53 + 3) = 2 ^ 53 + 4 ∧
      roundDouble (1 / 3) = 6004799503160661 / 2 ^ 54 ∧
      roundDouble (-(1 / 10)) = -roundDouble (1 / 10) := by
  decide!

/-- With exact operations the handlers of the section "Double precision" are the handlers of
the embedding: the two differ in the operations on numbers and in nothing else. -/
theorem handleWith_exact (s : Store) (env : Env) (req : Request) :
    handleWith exactArithmetic s env req = handle s env req := by
  cases req <;> rfl

/-! ## What the checks establish -/

theorem placeBetCheck_cases (s : Store) (env : Env) (req : PlaceBetPayload) :
    (∃ msg err,
      placeBetCheck s env req = Except.error [Emitted.unicast (Event.bet_error msg err)]) ∨
    (∃ plan, placeBetCheck s env req = Except.ok plan ∧ BetChecked s env req plan) := by
  unfold placeBetCheck
  by_cases h1 : (!(supportedCurrencies.contains req.currency)) = true
  · rw [if_pos h1]; exact Or.inl ⟨_, _, rfl⟩
  rw [if_neg h1]
  by_cases h2 : env.failure = some Await.findPlayer
  · rw [if_pos h2]; exact Or.inl ⟨_, _, rfl⟩
  rw [if_neg h2]
  cases hp : findOnePlayer s.players req.username with
  | none => exact Or.inl ⟨_, _, rfl⟩
  | some ip =>
    obtain ⟨playerId, player⟩ := ip
    dsimp only
    by_cases h3 : env.failure = some Await.findRound
    · rw [if_pos h3]; exact Or.inl ⟨_, _, rfl⟩
    rw [if_neg h3]
    cases hr : findActiveRound s.rounds with
    | none => exact Or.inl ⟨_, _, rfl⟩
    | some kr =>
      obtain ⟨roundIdx, round⟩ := kr
      dsimp only
      by_cases h4 : (round.bets.any fun b => b.player == playerId) = true
      · rw [if_pos h4]; exact Or.inl ⟨_, _, rfl⟩
      rw [if_neg h4]
      by_cases h5 : env.failure = some Await.getCryptoPrice
      · rw [if_pos h5]; exact Or.inl ⟨_, _, rfl⟩
      rw [if_neg h5]
      cases hu : req.usd_amount with
      | none => exact Or.inl ⟨_, _, rfl⟩
      | some cleanUsdAmount =>
        dsimp only
        by_cases h6 : priceFor env req.currency = 0 ∨ cleanUsdAmount ≤ 0
        · rw [if_pos h6]; exact Or.inl ⟨_, _, rfl⟩
        rw [if_neg h6]
        by_cases h7 : toFixed 8 (cleanUsdAmount / priceFor env req.currency) = 0
        · rw [if_pos h7]; exact Or.inl ⟨_, _, rfl⟩
        rw [if_neg h7]
        cases hw : findWallet player.wallets req.currency with
        | none => exact Or.inl ⟨_, _, rfl⟩
        | some wallet =>
          dsimp only
          by_cases h8 : wallet.balance < toFixed 8 (cleanUsdAmount / priceFor env req.currency)
          · rw [if_pos h8]; exact Or.inl ⟨_, _, rfl⟩
          rw [if_neg h8]
          refine Or.inr ⟨_, rfl, ?_⟩
          push_neg at h6
          exact
            { supported := by simpa using h1
              player_found := hp
              round_found := hr
              no_bet_yet := by simpa using h4
              price_eq := rfl
              usd_eq := hu
              price_ne := h6.1
              usd_pos := h6.2
              crypto_eq := rfl
              crypto_ne := h7
              wallet_found := hw
              funded := not_lt.mp h8 }

theorem cashoutCheck_cases (s : Store) (env : Env) (req : CashoutPayload) :
    (∃ msg err,
      cashoutCheck s env req = Except.error [Emitted.unicast (Event.error msg err)]) ∨
    (∃ plan, cashoutCheck s env req = Except.ok plan ∧ CashoutChecked s req plan) := by
  unfold cashoutCheck
  by_cases h2 : env.failure = some Await.findPlayer
  · rw [if_pos h2]; exact Or.inl ⟨_, _, rfl⟩
  rw [if_neg h2]
  cases hp : findOnePlayer s.players req.username with
  | none => exact Or.inl ⟨_, _, rfl⟩
  | some ip =>
    obtain ⟨playerId, player⟩ := ip
    dsimp only
    by_cases h3 : env.failure = some Await.findRound
    · rw [if_pos h3]; exact Or.inl ⟨_, _, rfl⟩
    rw [if_neg h3]
    cases hr : findActiveRound s.rounds with
    | none => exact Or.inl ⟨_, _, rfl⟩
    | some kr =>
      obtain ⟨roundIdx, round⟩ := kr
      dsimp only
      cases hb : findActiveBet round.bets playerId with
      | none => exact Or.inl ⟨_, _, rfl⟩
      | some jb =>
        obtain ⟨betIdx, bet⟩ := jb
        dsimp only
        cases hw : findWallet player.wallets bet.currency with
        | none => exact Or.inl ⟨_, _, rfl⟩
        | some wallet =>
          exact Or.inr ⟨_, rfl, ⟨hp, hr, hb, hw⟩⟩

/-! ## Outcomes of the handlers -/

theorem placeBet_cases (s : Store) (env : Env) (req : PlaceBetPayload) :
    (∃ msg err, placeBet s env req = (s, [Emitted.unicast (Event.bet_error msg err)])) ∨
    (∃ plan, BetChecked s env req plan ∧
      placeBet s env req = placeBetCommit s env req plan) := by
  unfold placeBet
  rcases placeBetCheck_cases s env req with ⟨msg, err, h⟩ | ⟨plan, h, hc⟩
  · rw [h]; exact Or.inl ⟨msg, err, rfl⟩
  · rw [h]; exact Or.inr ⟨plan, hc, rfl⟩

theorem cashout_cases (s : Store) (env : Env) (req : CashoutPayload) :
    (∃ msg err, cashout s env req = (s, [Emitted.unicast (Event.error msg err)])) ∨
    (∃ plan, CashoutChecked s req plan ∧
      cashout s env req = cashoutCommit s env req plan) := by
  unfold cashout
  rcases cashoutCheck_cases s env req with ⟨msg, err, h⟩ | ⟨plan, h, hc⟩
  · rw [h]; exact Or.inl ⟨msg, err, rfl⟩
  · rw [h]; exact Or.inr ⟨plan, hc, rfl⟩

theorem placeBetCommit_cases (s : Store) (env : Env) (req : PlaceBetPayload) (plan : BetPlan) :
    (env.failure = some Await.savePlayer ∧
      placeBetCommit s env req plan = (s, betFailed env)) ∨
    (env.failure = some Await.saveRound ∧
      placeBetCommit s env req plan = (betStage1 s req plan, betFailed env)) ∨
    (env.failure = some Await.createTransaction ∧
      placeBetCommit s env req plan = (betStage2 s req plan, betFailed env)) ∨
    (env.failure ≠ some Await.savePlayer ∧ env.failure ≠ some Await.saveRound ∧
      env.failure ≠ some Await.createTransaction ∧
      placeBetCommit s env req plan = (betStage3 s env req plan, betPlacedEvents req plan)) := by
  unfold placeBetCommit
  by_cases h1 : env.failure = some Await.savePlayer
  · exact Or.inl ⟨h1, by rw [if_pos h1]⟩
  by_cases h2 : env.failure = some Await.saveRound
  · exact Or.inr (Or.inl ⟨h2, by rw [if_neg h1]; simp only [if_pos h2]; rfl⟩)
  by_cases h3 : env.failure = some Await.createTransaction
  · exact Or.inr (Or.inr (Or.inl ⟨h3, by
      rw [if_neg h1]; simp only [if_neg h2, if_pos h3]; rfl⟩))
  · exact Or.inr (Or.inr (Or.inr ⟨h1, h2, h3, by
      rw [if_neg h1]; simp only [if_neg h2, if_neg h3]; rfl⟩))

theorem cashoutCommit_cases (s : Store) (env : Env) (req : CashoutPayload)
    (plan : CashoutPlan) :
    (env.failure = some Await.savePlayer ∧
      cashoutCommit s env req plan = (s, cashoutFailed env)) ∨
    (env.failure = some Await.saveRound ∧
      cashoutCommit s env req plan = (cashStage1 s plan, cashoutFailed env)) ∨
    (env.failure = some Await.createTransaction ∧
      cashoutCommit s env req plan = (cashStage2 s plan, cashoutFailed env)) ∨
    (env.failure ≠ some Await.savePlayer ∧ env.failure ≠ some Await.saveRound ∧
      env.failure ≠ some Await.createTransaction ∧
      cashoutCommit s env req plan = (cashStage3 s env plan, cashoutEvents s req plan)) := by
  unfold cashoutCommit
  by_cases h1 : env.failure = some Await.savePlayer
  · exact Or.inl ⟨h1, by rw [if_pos h1]⟩
  by_cases h2 : env.failure = some Await.saveRound
  · exact Or.inr (Or.inl ⟨h2, by rw [if_neg h1]; simp only [if_pos h2]; rfl⟩)
  by_cases h3 : env.failure = some Await.createTransaction
  · exact Or.inr (Or.inr (Or.inl ⟨h3, by
      rw [if_neg h1]; simp only [if_neg h2, if_pos h3]; rfl⟩))
  · exact Or.inr (Or.inr (Or.inr ⟨h1, h2, h3, by
      rw [if_neg h1]; simp only [if_neg h2, if_neg h3]; rfl⟩))

theorem set_of_getElem? {α : Type} :
    ∀ (l : List α) (i : Nat) (a : α), l[i]? = some a → l.set i a = l := by
  intro l
  induction l with
  | nil => intro i a h; simp at h
  | cons x l ih =>
    intro i a h
    cases i with
    | zero => simp at h; simp [h]
    | succ i => simp at h; simp [ih i a h]

/-- The rounds after `place_bet`: untouched, or the active round with the new bet appended. -/
theorem placeBet_round_at (s : Store) (env : Env) (req : PlaceBetPayload) (k : Nat)
    (r : GameRound) (hk : s.rounds[k]? = some r) :
    (placeBet s env req).1.rounds[k]? = some r ∨
    ∃ plan, BetChecked s env req plan ∧ plan.roundIdx = k ∧ plan.round = r ∧
      (placeBet s env req).1.rounds[k]? =
        some { r with bets := r.bets ++ [newBet req plan] } := by
  rcases placeBet_cases s env req with ⟨msg, err, h⟩ | ⟨plan, hc, h⟩
  · rw [h]; exact Or.inl hk
  · rw [h]
    have hfound := findWithIndex_some _ _ _ _ hc.round_found
    have hlt : plan.roundIdx < s.rounds.length := by
      have := hfound.1
      rw [List.getElem?_eq_some] at this
      exact this.1
    rcases placeBetCommit_cases s env req plan with ⟨_, h1⟩ | ⟨_, h1⟩ | ⟨_, h1⟩ | ⟨_, _, _, h1⟩
    · rw [h1]; exact Or.inl hk
    · rw [h1]; exact Or.inl hk
    all_goals
      rw [h1]
      by_cases hkk : plan.roundIdx = k
      · right
        have hr : plan.round = r := by
          have := hfound.1
          rw [hkk, hk] at this
          exact (Option.some.inj this).symm
        refine ⟨plan, hc, hkk, hr, ?_⟩
        subst hkk
        simp [betStage3, betStage2, betStage1, createTransaction, saveRound, savePlayer, hlt, hr]
      · left
        simp [betStage3, betStage2, betStage1, createTransaction, saveRound, savePlayer,
          List.getElem?_set_ne hkk, hk]

/-- The rounds after `cashout`: untouched, or the active round with the found bet settled. -/
theorem cashout_round_at (s : Store) (env : Env) (req : CashoutPayload) (k : Nat)
    (r : GameRound) (hk : s.rounds[k]? = some r) :
    (cashout s env req).1.rounds[k]? = some r ∨
    ∃ plan, CashoutChecked s req plan ∧ plan.roundIdx = k ∧ plan.round = r ∧
      (cashout s env req).1.rounds[k]? =
        some { r with bets := r.bets.set plan.betIdx (cashedOutBet s plan) } := by
  rcases cashout_cases s env req with ⟨msg, err, h⟩ | ⟨plan, hc, h⟩
  · rw [h]; exact Or.inl hk
  · rw [h]
    have hfound := findWithIndex_some _ _ _ _ hc.round_found
    have hlt : plan.roundIdx < s.rounds.length := by
      have := hfound.1
      rw [List.getElem?_eq_some] at this
      exact this.1
    rcases cashoutCommit_cases s env req plan with ⟨_, h1⟩ | ⟨_, h1⟩ | ⟨_, h1⟩ | ⟨_, _, _, h1⟩
    · rw [h1]; exact Or.inl hk
    · rw [h1]; exact Or.inl hk
    all_goals
      rw [h1]
      by_cases hkk : plan.roundIdx = k
      · right
        have hr : plan.round = r := by
          have := hfound.1
          rw [hkk, hk] at this
          exact (Option.some.inj this).symm
        refine ⟨plan, hc, hkk, hr, ?_⟩
        subst hkk
        simp [cashStage3, cashStage2, cashStage1, createTransaction, saveRound, savePlayer, hlt,
          hr]
      · left
        simp [cashStage3, cashStage2, cashStage1, createTransaction, saveRound, savePlayer,
          List.getElem?_set_ne hkk, hk]

/-! ## C1: one bet per player per round -/

theorem oneBetPerPlayer_append (bets : List Bet) (b : Bet) (h : OneBetPerPlayer bets)
    (hnew : bets.any (fun x => x.player == b.player) = false) :
    OneBetPerPlayer (bets ++ [b]) := by
  unfold OneBetPerPlayer at h ⊢
  rw [List.map_append, List.nodup_append]
  refine ⟨h, by simp, ?_⟩
  intro a ha hb
  simp only [List.map_cons, List.map_nil, List.mem_singleton] at hb
  subst hb
  obtain ⟨x, hx, hxa⟩ := List.mem_map.mp ha
  have := List.any_eq_false.mp hnew x hx
  simp [hxa] at this

theorem oneBetPerPlayer_set (bets : List Bet) (i : Nat) (b b1 : Bet)
    (h : OneBetPerPlayer bets) (hi : bets[i]? = some b) (hp : b1.player = b.player) :
    OneBetPerPlayer (bets.set i b1) := by
  unfold OneBetPerPlayer at h ⊢
  rw [List.map_set, hp, set_of_getElem?]
  · exact h
  · simp [hi]

/-- C1: the handlers keep "at most one bet per player" in every round, and a `place_bet` from a
player who already has a bet in the active round (whatever its status) changes nothing and is
answered with a single `bet_error`. -/
theorem one_bet_per_player_invariant (s : Store) (env : Env) (req : Request) (k : Nat)
    (r : GameRound) (hk : s.rounds[k]? = some r) (h : OneBetPerPlayer r.bets) :
    (∃ r1, (handle s env req).1.rounds[k]? = some r1 ∧ OneBetPerPlayer r1.bets) ∧
    (∀ payload playerId player b, req = Request.place_bet payload →
      findOnePlayer s.players payload.username = some (playerId, player) →
      findActiveRound s.rounds = some (k, r) → b ∈ r.bets → b.player = playerId →
      (handle s env req).1 = s ∧
        ∃ msg err, (handle s env req).2 = [Emitted.unicast (Event.bet_error msg err)]) := by
  constructor
  · cases req with
    | place_bet payload =>
      rcases placeBet_round_at s env payload k r hk with h1 | ⟨plan, hc, _, hr, h1⟩
      · exact ⟨r, h1, h⟩
      · refine ⟨_, h1, ?_⟩
        apply oneBetPerPlayer_append _ _ h
        have := hc.no_bet_yet
        rw [hr] at this
        exact this
    | cashout payload =>
      rcases cashout_round_at s env payload k r hk with h1 | ⟨plan, hc, _, hr, h1⟩
      · exact ⟨r, h1, h⟩
      · refine ⟨_, h1, ?_⟩
        have hb := (findWithIndex_some _ _ _ _ hc.bet_found).1
        rw [hr] at hb
        exact oneBetPerPlayer_set _ _ plan.bet _ h hb rfl
  · intro payload playerId player b hreq hp hr hb hbp
    subst hreq
    rcases placeBet_cases s env payload with ⟨msg, err, h1⟩ | ⟨plan, hc, _⟩
    · exact ⟨by simp [handle, h1], msg, err, by simp [handle, h1]⟩
    · exfalso
      have e1 := hc.player_found
      rw [hp] at e1
      have e2 := hc.round_found
      rw [hr] at e2
      simp only [Option.some.injEq, Prod.mk.injEq] at e1 e2
      have := hc.no_bet_yet
      rw [← e2.2, ← e1.1] at this
      have := List.any_eq_false.mp this b hb
      simp [hbp] at this

/-- After Scenario A the player `test` holds a cashed-out bet in the open round; a further
`place_bet` (here in ETH) is refused and changes nothing. -/
theorem one_bet_per_player_invariant_witness :
    OneBetPerPlayer settledRound.bets ∧
      (handle settledStore calmEnv (Request.place_bet ⟨"test", some 10, "ETH"⟩)).1
        = settledStore ∧
      ∃ msg err, (handle settledStore calmEnv (Request.place_bet ⟨"test", some 10, "ETH"⟩)).2
        = [Emitted.unicast (Event.bet_error msg err)] :=
  ⟨by decide,
    (one_bet_per_player_invariant settledStore calmEnv
      (Request.place_bet ⟨"test", some 10, "ETH"⟩) 0 settledRound rfl (by decide)).2
      ⟨"test", some 10, "ETH"⟩ 0 settledPlayer settledBet rfl (by decide!) (by decide!)
      (List.mem_singleton.mpr rfl) rfl⟩

/-! ## C2: balances and the live multiplier -/

/-- The players after `place_bet`: untouched, or the requester's document with the debit. -/
theorem placeBet_players (s : Store) (env : Env) (req : PlaceBetPayload) :
    (placeBet s env req).1.players = s.players ∨
    ∃ plan, BetChecked s env req plan ∧
      (placeBet s env req).1.players = s.players.set plan.playerId (debitedPlayer req plan) := by
  rcases placeBet_cases s env req with ⟨msg, err, h⟩ | ⟨plan, hc, h⟩
  · rw [h]; exact Or.inl rfl
  · rw [h]
    rcases placeBetCommit_cases s env req plan with ⟨_, h1⟩ | ⟨_, h1⟩ | ⟨_, h1⟩ | ⟨_, _, _, h1⟩
    · rw [h1]; exact Or.inl rfl
    all_goals exact Or.inr ⟨plan, hc, by rw [h1]; rfl⟩

/-- The players after `cashout`: untouched, or the requester's document with the credit. -/
theorem cashout_players (s : Store) (env : Env) (req : CashoutPayload) :
    (cashout s env req).1.players = s.players ∨
    ∃ plan, CashoutChecked s req plan ∧
      (cashout s env req).1.players = s.players.set plan.playerId (creditedPlayer s plan) := by
  rcases cashout_cases s env req with ⟨msg, err, h⟩ | ⟨plan, hc, h⟩
  · rw [h]; exact Or.inl rfl
  · rw [h]
    rcases cashoutCommit_cases s env req plan with ⟨_, h1⟩ | ⟨_, h1⟩ | ⟨_, h1⟩ | ⟨_, _, _, h1⟩
    · rw [h1]; exact Or.inl rfl
    all_goals exact Or.inr ⟨plan, hc, by rw [h1]; rfl⟩

theorem balancesNonneg_set (s : Store) (playerId : Nat) (player : Player) (currency : String)
    (balance : ℚ) (hbal : BalancesNonneg s) (hp : s.players[playerId]? = some player)
    (hb : 0 ≤ balance) (players : List Player)
    (hset : players = s.players.set playerId
      { player with wallets := setWalletBalance currency balance player.wallets })
    (s1 : Store) (hs1 : s1.players = players) : BalancesNonneg s1 := by
  intro p hpmem w hw
  rw [hs1, hset] at hpmem
  rcases List.mem_or_eq_of_mem_set hpmem with hmem | rfl
  · exact hbal p hmem w hw
  · rcases mem_setWalletBalance _ _ _ _ hw with hw1 | hw1
    · exact hbal player (List.getElem?_mem hp) w hw1
    · rw [hw1]; exact hb

/-- C2 (as amended): when the live multiplier and the stored bet amounts are not negative, no
request makes a balance negative; and `place_bet` touches the player documents only after it
has found the wallet holding at least the required crypto amount. -/
theorem balances_stay_nonneg (s : Store) (env : Env) (req : Request)
    (hbal : BalancesNonneg s)
    (hbets : ∀ r ∈ s.rounds, ∀ b ∈ r.bets, 0 ≤ b.crypto_amount)
    (hm : 0 ≤ s.currentMultiplier) :
    BalancesNonneg (handle s env req).1 ∧
    (∀ payload, req = Request.place_bet payload →
      (handle s env req).1.players ≠ s.players →
      ∃ playerId player wallet usd,
        findOnePlayer s.players payload.username = some (playerId, player) ∧
        findWallet player.wallets payload.currency = some wallet ∧
        payload.usd_amount = some usd ∧
        toFixed 8 (usd / priceFor env payload.currency) ≤ wallet.balance) := by
  constructor
  · cases req with
    | place_bet payload =>
      rcases placeBet_players s env payload with h | ⟨plan, hc, h⟩
      · intro p hp w hw
        simp only [handle] at hp
        rw [h] at hp
        exact hbal p hp w hw
      · have hp := (findWithIndex_some _ _ _ _ hc.player_found).1
        refine balancesNonneg_set s plan.playerId plan.player payload.currency _ hbal hp ?_ _
          rfl _ h
        exact toFixed_nonneg _ _ (sub_nonneg.mpr hc.funded)
    | cashout payload =>
      rcases cashout_players s env payload with h | ⟨plan, hc, h⟩
      · intro p hp w hw
        simp only [handle] at hp
        rw [h] at hp
        exact hbal p hp w hw
      · have hp := (findWithIndex_some _ _ _ _ hc.player_found).1
        have hr := (findWithIndex_some _ _ _ _ hc.round_found).1
        have hb := (findWithIndex_some _ _ _ _ hc.bet_found).1
        have hw : plan.wallet ∈ plan.player.wallets := List.mem_of_find?_eq_some hc.wallet_found
        refine balancesNonneg_set s plan.playerId plan.player plan.bet.currency _ hbal hp ?_ _
          rfl _ h
        have h0 : 0 ≤ plan.wallet.balance := hbal _ (List.getElem?_mem hp) _ hw
        have h1 : 0 ≤ plan.bet.crypto_amount :=
          hbets _ (List.getElem?_mem hr) _ (List.getElem?_mem hb)
        have h2 : 0 ≤ payoutCrypto s plan := toFixed_nonneg _ _ (mul_nonneg h1 hm)
        exact add_nonneg h0 h2
  · intro payload hreq hne
    subst hreq
    rcases placeBet_players s env payload with h | ⟨plan, hc, _⟩
    · exact absurd h hne
    · refine ⟨plan.playerId, plan.player, plan.wallet, plan.cleanUsdAmount, hc.player_found,
        hc.wallet_found, hc.usd_eq, ?_⟩
      rw [← hc.price_eq, ← hc.crypto_eq]
      exact hc.funded

/-- Scenario A: the balances are non-negative before and after the cashout at 2.00x. -/
theorem balances_stay_nonneg_witness :
    BalancesNonneg scenarioA ∧ (0 : ℚ) ≤ scenarioA.currentMultiplier ∧
      BalancesNonneg (handle scenarioA calmEnv (Request.cashout ⟨"test"⟩)).1 :=
  ⟨by decide!, by decide!,
    (balances_stay_nonneg scenarioA calmEnv (Request.cashout ⟨"test"⟩)
      (by decide!) (by decide!) (by decide!)).1⟩

/-- C2, counterexample: with the multiplier `-1` installed, a cashout takes the BTC balance of
`demo` from `0` to `-0.001`. -/
theorem balance_negative_under_negative_multiplier :
    BalancesNonneg negativeMultiplierStore ∧
      balanceOf negativeMultiplierStore 0 "BTC" = some 0 ∧
      balanceOf (handle negativeMultiplierStore calmEnv (Request.cashout ⟨"demo"⟩)).1 0 "BTC"
        = some (-1 / 1000) ∧
      ¬ BalancesNonneg (handle negativeMultiplierStore calmEnv (Request.cashout ⟨"demo"⟩)).1 := by
  decide!

/-! ## C3: what a successful cashout pays -/

theorem lt_length_of_getElem? {α : Type} (l : List α) (i : Nat) (a : α)
    (h : l[i]? = some a) : i < l.length := by
  rw [List.getElem?_eq_some] at h
  exact h.1

theorem balanceOf_of_players (s : Store) (playerId : Nat) (player : Player)
    (currency : String) (h : s.players[playerId]? = some player) :
    balanceOf s playerId currency = (findWallet player.wallets currency).map Wallet.balance := by
  unfold balanceOf
  rw [h]

theorem betAt_of_rounds (s : Store) (roundIdx betIdx : Nat) (round : GameRound)
    (h : s.rounds[roundIdx]? = some round) :
    betAt s roundIdx betIdx = round.bets[betIdx]? := by
  unfold betAt
  rw [h]

/-- A cashout that broadcasts `player_cashout` went through every write. -/
theorem cashout_committed (s : Store) (env : Env) (req : CashoutPayload) (e : Event)
    (h : (cashout s env req).2 = [Emitted.broadcast e]) :
    ∃ plan, CashoutChecked s req plan ∧
      cashout s env req = (cashStage3 s env plan, cashoutEvents s req plan) := by
  rcases cashout_cases s env req with ⟨msg, err, h1⟩ | ⟨plan, hc, h1⟩
  · rw [h1] at h; simp at h
  · rcases cashoutCommit_cases s env req plan with ⟨_, h2⟩ | ⟨_, h2⟩ | ⟨_, h2⟩ | ⟨_, _, _, h2⟩
    · rw [h1, h2] at h; simp [cashoutFailed] at h
    · rw [h1, h2] at h; simp [cashoutFailed] at h
    · rw [h1, h2] at h; simp [cashoutFailed] at h
    · exact ⟨plan, hc, by rw [h1, h2]⟩

/-- C3: a cashout that is broadcast as `player_cashout` used the live multiplier: the payout
is `toFixed 8 (crypto_amount * currentMultiplier)`, the wallet of the bet's currency grows by
exactly the payout, and the bet becomes `cashed_out` with that multiplier recorded. -/
theorem cashout_pays_live_multiplier (s : Store) (env : Env) (req : CashoutPayload)
    (u cur : String) (payout usd m : ℚ)
    (h : (cashout s env req).2 =
      [Emitted.broadcast (Event.player_cashout u cur payout usd m)]) :
    ∃ playerId player roundIdx round betIdx bet old,
      findOnePlayer s.players req.username = some (playerId, player) ∧
      findActiveRound s.rounds = some (roundIdx, round) ∧
      findActiveBet round.bets playerId = some (betIdx, bet) ∧
      m = s.currentMultiplier ∧ cur = bet.currency ∧
      payout = toFixed 8 (bet.crypto_amount * s.currentMultiplier) ∧
      balanceOf s playerId bet.currency = some old ∧
      balanceOf (cashout s env req).1 playerId bet.currency = some (old + payout) ∧
      betAt s roundIdx betIdx = some bet ∧ bet.status = BetStatus.active ∧
      betAt (cashout s env req).1 roundIdx betIdx =
        some { bet with status := BetStatus.cashed_out, multiplier_at_cashout := some m } := by
  obtain ⟨plan, hc, hres⟩ := cashout_committed s env req _ h
  rw [hres] at h
  simp only [cashoutEvents, List.cons.injEq, Emitted.broadcast.injEq,
    Event.player_cashout.injEq, and_true] at h
  obtain ⟨_, hcur, hpay, _, hm⟩ := h
  have hp := (findWithIndex_some _ _ _ _ hc.player_found).1
  have hr := (findWithIndex_some _ _ _ _ hc.round_found).1
  have hb := findWithIndex_some _ _ _ _ hc.bet_found
  have hplt := lt_length_of_getElem? _ _ _ hp
  have hrlt := lt_length_of_getElem? _ _ _ hr
  have hblt := lt_length_of_getElem? _ _ _ hb.1
  refine ⟨plan.playerId, plan.player, plan.roundIdx, plan.round, plan.betIdx, plan.bet,
    plan.wallet.balance, hc.player_found, hc.round_found, hc.bet_found, hm.symm, hcur.symm,
    hpay.symm, ?_, ?_, ?_, ?_, ?_⟩
  · rw [balanceOf_of_players s _ _ _ hp, hc.wallet_found]; rfl
  · rw [hres]
    have : (cashStage3 s env plan).players[plan.playerId]? = some (creditedPlayer s plan) := by
      simp [cashStage3, cashStage2, cashStage1, createTransaction, saveRound, savePlayer, hplt]
    rw [balanceOf_of_players _ _ _ _ this]
    simp only [creditedPlayer]
    rw [findWallet_setWalletBalance_same _ _ _ _ hc.wallet_found, ← hpay]
    rfl
  · rw [betAt_of_rounds s _ _ _ hr]; exact hb.1
  · have := hb.2
    simp only [Bool.and_eq_true, beq_iff_eq] at this
    exact this.2
  · rw [hres]
    have : (cashStage3 s env plan).rounds[plan.roundIdx]? =
        some { plan.round with
          bets := plan.round.bets.set plan.betIdx (cashedOutBet s plan) } := by
      simp [cashStage3, cashStage2, cashStage1, createTransaction, saveRound, savePlayer, hrlt]
    rw [betAt_of_rounds _ _ _ _ this]
    simp [hblt, cashedOutBet, hm]

/-- Scenario A: the 50 USD bet is stored as 0.001 BTC, and the cashout at 2.00x credits
0.002 BTC (0.099 to 0.101), settling the bet as `cashed_out` at multiplier 2. -/
theorem cashout_pays_live_multiplier_witness :
    betAt scenarioA 0 0 =
        some { player := 0, usd_amount := 50, crypto_amount := 1 / 1000, currency := "BTC",
               status := BetStatus.active, multiplier_at_cashout := none } ∧
      (cashout scenarioA calmEnv ⟨"test"⟩).2 =
        [Emitted.broadcast (Event.player_cashout "test" "BTC" (2 / 1000) 100 2)] ∧
      balanceOf scenarioA 0 "BTC" = some (99 / 1000) ∧
      balanceOf (cashout scenarioA calmEnv ⟨"test"⟩).1 0 "BTC" = some (101 / 1000) ∧
      betAt (cashout scenarioA calmEnv ⟨"test"⟩).1 0 0 =
        some { player := 0, usd_amount := 50, crypto_amount := 1 / 1000, currency := "BTC",
               status := BetStatus.cashed_out, multiplier_at_cashout := some 2 } ∧
      ∃ playerId player roundIdx round betIdx bet old,
        findOnePlayer scenarioA.players "test" = some (playerId, player) ∧
        findActiveRound scenarioA.rounds = some (roundIdx, round) ∧
        findActiveBet round.bets playerId = some (betIdx, bet) ∧
        (2 : ℚ) = scenarioA.currentMultiplier ∧ "BTC" = bet.currency ∧
        (2 / 1000 : ℚ) = toFixed 8 (bet.crypto_amount * scenarioA.currentMultiplier) ∧
        balanceOf scenarioA playerId bet.currency = some old ∧
        balanceOf (cashout scenarioA calmEnv ⟨"test"⟩).1 playerId bet.currency
          = some (old + 2 / 1000) ∧
        betAt scenarioA roundIdx betIdx = some bet ∧ bet.status = BetStatus.active ∧
        betAt (cashout scenarioA calmEnv ⟨"test"⟩).1 roundIdx betIdx =
          some { bet with status := BetStatus.cashed_out, multiplier_at_cashout := some 2 } :=
  ⟨by decide!, by decide!, by decide!, by decide!, by decide!,
    cashout_pays_live_multiplier scenarioA calmEnv ⟨"test"⟩ "test" "BTC" (2 / 1000) 100 2
      (by decide!)⟩

/-! ## C4: the conversion recorded with a bet -/

/-- A `place_bet` that emits `bet_placed` went through every write. -/
theorem placeBet_committed (s : Store) (env : Env) (req : PlaceBetPayload) (u cur : String)
    (usd crypto : ℚ) (rid : Nat)
    (h : Emitted.unicast (Event.bet_placed u usd crypto cur rid) ∈ (placeBet s env req).2) :
    ∃ plan, BetChecked s env req plan ∧
      placeBet s env req = (betStage3 s env req plan, betPlacedEvents req plan) := by
  rcases placeBet_cases s env req with ⟨msg, err, h1⟩ | ⟨plan, hc, h1⟩
  · rw [h1] at h; simp at h
  · rcases placeBetCommit_cases s env req plan with ⟨_, h2⟩ | ⟨_, h2⟩ | ⟨_, h2⟩ | ⟨_, _, _, h2⟩
    · rw [h1, h2] at h; simp [betFailed] at h
    · rw [h1, h2] at h; simp [betFailed] at h
    · rw [h1, h2] at h; simp [betFailed] at h
    · exact ⟨plan, hc, by rw [h1, h2]⟩

/-- C4: an accepted `place_bet` stores a bet whose `crypto_amount` is
`toFixed 8 (usd_amount / price)` for the price obtained for the request, and appends one `bet`
transaction carrying the same amounts and that price as `price_at_time`, so that
`crypto_amount = toFixed 8 (usd_amount / price_at_time)` holds on the transaction itself. -/
theorem placeBet_records_conversion (s : Store) (env : Env) (req : PlaceBetPayload)
    (u cur : String) (usd crypto : ℚ) (rid : Nat)
    (h : Emitted.unicast (Event.bet_placed u usd crypto cur rid) ∈ (placeBet s env req).2) :
    ∃ roundIdx round bet tx,
      findActiveRound s.rounds = some (roundIdx, round) ∧
      req.usd_amount = some bet.usd_amount ∧
      (placeBet s env req).1.rounds[roundIdx]? =
        some { round with bets := round.bets ++ [bet] } ∧
      (placeBet s env req).1.transactions = s.transactions ++ [tx] ∧
      bet.crypto_amount = toFixed 8 (bet.usd_amount / priceFor env req.currency) ∧
      usd = bet.usd_amount ∧ crypto = bet.crypto_amount ∧
      tx.transaction_type = TransactionType.bet ∧ tx.player = bet.player ∧
      tx.currency = bet.currency ∧ tx.usd_amount = bet.usd_amount ∧
      tx.crypto_amount = bet.crypto_amount ∧ tx.price_at_time = priceFor env req.currency ∧
      tx.crypto_amount = toFixed 8 (tx.usd_amount / tx.price_at_time) := by
  obtain ⟨plan, hc, hres⟩ := placeBet_committed s env req u cur usd crypto rid h
  rw [hres] at h
  simp only [betPlacedEvents, List.mem_cons, Emitted.unicast.injEq, Event.bet_placed.injEq,
    List.mem_singleton, reduceCtorEq, or_false, List.not_mem_nil] at h
  obtain ⟨_, husd, hcrypto, _, _⟩ := h
  have hr := (findWithIndex_some _ _ _ _ hc.round_found).1
  have hrlt := lt_length_of_getElem? _ _ _ hr
  have hconv : plan.cryptoAmount = toFixed 8 (plan.cleanUsdAmount / priceFor env req.currency) := by
    rw [← hc.price_eq]; exact hc.crypto_eq
  refine ⟨plan.roundIdx, plan.round, newBet req plan, betTransaction env req plan,
    hc.round_found, hc.usd_eq, ?_, ?_, hconv, husd, hcrypto, rfl, rfl, rfl, rfl, rfl,
    hc.price_eq, ?_⟩
  · rw [hres]
    simp [betStage3, betStage2, betStage1, createTransaction, saveRound, savePlayer, hrlt]
  · rw [hres]; rfl
  · simp only [betTransaction]; exact hc.crypto_eq

/-- The bet of Scenario A: 50 USD at 50,000 USD per BTC is stored and logged as 0.001 BTC
with `price_at_time = 50000`. -/
theorem placeBet_records_conversion_witness :
    Emitted.unicast (Event.bet_placed "test" 50 (1 / 1000) "BTC" 1) ∈
        (placeBet seedStore calmEnv ⟨"test", some 50, "BTC"⟩).2 ∧
      (placeBet seedStore calmEnv ⟨"test", some 50, "BTC"⟩).1.transactions =
        [{ player := 0, usd_amount := 50, crypto_amount := 1 / 1000, currency := "BTC",
           transaction_type := TransactionType.bet, transaction_hash := "tx_0_0",
           price_at_time := 50000 }] ∧
      ∃ roundIdx round bet tx,
        findActiveRound seedStore.rounds = some (roundIdx, round) ∧
        some (50 : ℚ) = some bet.usd_amount ∧
        (placeBet seedStore calmEnv ⟨"test", some 50, "BTC"⟩).1.rounds[roundIdx]? =
          some { round with bets := round.bets ++ [bet] } ∧
        (placeBet seedStore calmEnv ⟨"test", some 50, "BTC"⟩).1.transactions =
          seedStore.transactions ++ [tx] ∧
        bet.crypto_amount = toFixed 8 (bet.usd_amount / priceFor calmEnv "BTC") ∧
        (50 : ℚ) = bet.usd_amount ∧ (1 / 1000 : ℚ) = bet.crypto_amount ∧
        tx.transaction_type = TransactionType.bet ∧ tx.player = bet.player ∧
        tx.currency = bet.currency ∧ tx.usd_amount = bet.usd_amount ∧
        tx.crypto_amount = bet.crypto_amount ∧ tx.price_at_time = priceFor calmEnv "BTC" ∧
        tx.crypto_amount = toFixed 8 (tx.usd_amount / tx.price_at_time) :=
  ⟨by decide!, by decide!,
    placeBet_records_conversion seedStore calmEnv ⟨"test", some 50, "BTC"⟩ "test" "BTC" 50
      (1 / 1000) 1 (by decide!)⟩

/-! ## C5 and C6: the handlers and the phase of the round -/

theorem findWithIndex_map {α β : Type} (g : α → β) (p : β → Bool) (q : α → Bool)
    (hpq : ∀ a, p (g a) = q a) :
    ∀ (l : List α), findWithIndex p (l.map g) =
      (findWithIndex q l).map (fun ia => (ia.1, g ia.2)) := by
  intro l
  induction l with
  | nil => rfl
  | cons a l ih =>
    simp only [List.map_cons, findWithIndex, hpq, ih]
    by_cases ha : q a = true
    · simp [ha]
    · simp only [ha, Bool.false_eq_true, if_false]
      cases findWithIndex q l with
      | none => rfl
      | some jy => rfl

theorem findActiveRound_setPhase (ph : Phase) (s : Store) :
    findActiveRound (setPhase ph s).rounds =
      (findActiveRound s.rounds).map (fun kr => (kr.1, { kr.2 with phase := ph })) := by
  unfold findActiveRound setPhase
  exact findWithIndex_map _ _ _ (fun _ => rfl) _

theorem placeBetCheck_setPhase (ph : Phase) (s : Store) (env : Env) (req : PlaceBetPayload) :
    placeBetCheck (setPhase ph s) env req =
      match placeBetCheck s env req with
      | Except.error events => Except.error events
      | Except.ok plan => Except.ok { plan with round := { plan.round with phase := ph } } := by
  unfold placeBetCheck
  rw [findActiveRound_setPhase]
  have hplayers : (setPhase ph s).players = s.players := rfl
  rw [hplayers]
  by_cases h1 : (!(supportedCurrencies.contains req.currency)) = true
  · simp only [if_pos h1]
  simp only [if_neg h1]
  by_cases h2 : env.failure = some Await.findPlayer
  · simp only [if_pos h2]
  simp only [if_neg h2]
  cases hp : findOnePlayer s.players req.username with
  | none => rfl
  | some ip =>
    obtain ⟨playerId, player⟩ := ip
    dsimp only
    by_cases h3 : env.failure = some Await.findRound
    · simp only [if_pos h3]
    simp only [if_neg h3]
    cases hr : findActiveRound s.rounds with
    | none => rfl
    | some kr =>
      obtain ⟨roundIdx, round⟩ := kr
      dsimp only [Option.map]
      by_cases h4 : (round.bets.any fun b => b.player == playerId) = true
      · simp only [if_pos h4]
      simp only [if_neg h4]
      by_cases h5 : env.failure = some Await.getCryptoPrice
      · simp only [if_pos h5]
      simp only [if_neg h5]
      cases hu : req.usd_amount with
      | none => rfl
      | some cleanUsdAmount =>
        dsimp only
        by_cases h6 : priceFor env req.currency = 0 ∨ cleanUsdAmount ≤ 0
        · simp only [if_pos h6]
        simp only [if_neg h6]
        by_cases h7 : toFixed 8 (cleanUsdAmount / priceFor env req.currency) = 0
        · simp only [if_pos h7]
        simp only [if_neg h7]
        cases hw : findWallet player.wallets req.currency with
        | none => rfl
        | some wallet =>
          dsimp only
          by_cases h8 : wallet.balance < toFixed 8 (cleanUsdAmount / priceFor env req.currency)
          · simp only [if_pos h8]
          simp only [if_neg h8]

theorem cashoutCheck_setPhase (ph : Phase) (s : Store) (env : Env) (req : CashoutPayload) :
    cashoutCheck (setPhase ph s) env req =
      match cashoutCheck s env req with
      | Except.error events => Except.error events
      | Except.ok plan => Except.ok { plan with round := { plan.round with phase := ph } } := by
  unfold cashoutCheck
  rw [findActiveRound_setPhase]
  have hplayers : (setPhase ph s).players = s.players := rfl
  rw [hplayers]
  by_cases h2 : env.failure = some Await.findPlayer
  · simp only [if_pos h2]
  simp only [if_neg h2]
  cases hp : findOnePlayer s.players req.username with
  | none => rfl
  | some ip =>
    obtain ⟨playerId, player⟩ := ip
    dsimp only
    by_cases h3 : env.failure = some Await.findRound
    · simp only [if_pos h3]
    simp only [if_neg h3]
    cases hr : findActiveRound s.rounds with
    | none => rfl
    | some kr =>
      obtain ⟨roundIdx, round⟩ := kr
      dsimp only [Option.map]
      cases hb : findActiveBet round.bets playerId with
      | none => rfl
      | some jb =>
        obtain ⟨betIdx, bet⟩ := jb
        dsimp only
        cases hw : findWallet player.wallets bet.currency with
        | none => rfl
        | some wallet => rfl

/-- The phase of the rounds has no influence on `place_bet`. -/
theorem placeBet_setPhase (ph : Phase) (s : Store) (env : Env) (req : PlaceBetPayload) :
    placeBet (setPhase ph s) env req =
      (setPhase ph (placeBet s env req).1, (placeBet s env req).2) := by
  unfold placeBet
  rw [placeBetCheck_setPhase]
  cases placeBetCheck s env req with
  | error events => rfl
  | ok plan =>
    dsimp only
    unfold placeBetCommit
    by_cases h1 : env.failure = some Await.savePlayer
    · simp only [if_pos h1]
    simp only [if_neg h1]
    by_cases h2 : env.failure = some Await.saveRound
    · simp only [if_pos h2]; rfl
    simp only [if_neg h2]
    by_cases h3 : env.failure = some Await.createTransaction
    · simp only [if_pos h3]
      simp [setPhase, saveRound, savePlayer, List.map_set, debitedPlayer, newBet]
    · simp only [if_neg h3]
      simp [setPhase, saveRound, savePlayer, createTransaction, List.map_set, debitedPlayer,
        newBet, betTransaction, betPlacedEvents]

/-- The phase of the rounds has no influence on `cashout`. -/
theorem cashout_setPhase (ph : Phase) (s : Store) (env : Env) (req : CashoutPayload) :
    cashout (setPhase ph s) env req =
      (setPhase ph (cashout s env req).1, (cashout s env req).2) := by
  unfold cashout
  rw [cashoutCheck_setPhase]
  cases cashoutCheck s env req with
  | error events => rfl
  | ok plan =>
    dsimp only
    unfold cashoutCommit
    by_cases h1 : env.failure = some Await.savePlayer
    · simp only [if_pos h1]
    simp only [if_neg h1]
    by_cases h2 : env.failure = some Await.saveRound
    · simp only [if_pos h2]; rfl
    simp only [if_neg h2]
    by_cases h3 : env.failure = some Await.createTransaction
    · simp only [if_pos h3]
      simp [setPhase, saveRound, savePlayer, List.map_set, creditedPlayer, cashedOutBet,
        payoutCrypto]
    · simp only [if_neg h3]
      simp [setPhase, saveRound, savePlayer, createTransaction, List.map_set, creditedPlayer,
        cashedOutBet, payoutCrypto, cashoutTransaction, cashoutEvents, usdPayout, priceAtTime]

/-- C5 (as amended): `place_bet` needs a round with `is_active = true` and nothing more of the
round's lifecycle: without an active round the request is rejected with a `bet_error` and the
store is unchanged, and the outcome of a request is the same in every phase. -/
theorem place_bet_needs_active_round (s : Store) (env : Env) (req : PlaceBetPayload) :
    (findActiveRound s.rounds = none →
      (placeBet s env req).1 = s ∧
        ∃ msg err, (placeBet s env req).2 = [Emitted.unicast (Event.bet_error msg err)]) ∧
    (∀ ph, placeBet (setPhase ph s) env req =
      (setPhase ph (placeBet s env req).1, (placeBet s env req).2)) := by
  refine ⟨?_, fun ph => placeBet_setPhase ph s env req⟩
  intro hnone
  rcases placeBet_cases s env req with ⟨msg, err, h⟩ | ⟨plan, hc, _⟩
  · rw [h]; exact ⟨rfl, msg, err, rfl⟩
  · have := hc.round_found
    rw [hnone] at this
    simp at this

/-- After the crash has deactivated the only round, a `place_bet` is refused. -/
theorem place_bet_needs_active_round_witness :
    findActiveRound idleStore.rounds = none ∧
      (placeBet idleStore calmEnv ⟨"test", some 50, "BTC"⟩).1 = idleStore ∧
      ∃ msg err, (placeBet idleStore calmEnv ⟨"test", some 50, "BTC"⟩).2 =
        [Emitted.unicast (Event.bet_error msg err)] :=
  ⟨by decide!,
    (place_bet_needs_active_round idleStore calmEnv ⟨"test", some 50, "BTC"⟩).1 (by decide!)⟩

/-- C5, counterexample: while the round is FLYING (multiplier already at 1.5) a `place_bet` is
accepted: the wallet is debited, the bet is stored and a transaction is written. -/
theorem place_bet_accepted_while_flying :
    (findActiveRound flyingStore.rounds).map (fun kr => kr.2.phase) = some Phase.FLYING ∧
      (placeBet flyingStore calmEnv ⟨"test", some 50, "BTC"⟩).2 =
        [Emitted.unicast (Event.bet_placed "test" 50 (1 / 1000) "BTC" 1),
         Emitted.broadcast (Event.player_bet "test" 50 "BTC" 1)] ∧
      balanceOf flyingStore 0 "BTC" = some (100 / 1000) ∧
      balanceOf (placeBet flyingStore calmEnv ⟨"test", some 50, "BTC"⟩).1 0 "BTC"
        = some (99 / 1000) ∧
      betAt (placeBet flyingStore calmEnv ⟨"test", some 50, "BTC"⟩).1 0 0 =
        some { player := 0, usd_amount := 50, crypto_amount := 1 / 1000, currency := "BTC",
               status := BetStatus.active, multiplier_at_cashout := none } ∧
      (placeBet flyingStore calmEnv ⟨"test", some 50, "BTC"⟩).1.transactions.length = 1 := by
  decide!

/-- C6 (as amended): `cashout` needs a round with `is_active = true` and nothing more of the
round's lifecycle: without an active round the request is rejected with an `error` event and
the store is unchanged, and the outcome of a request is the same in every phase. -/
theorem cashout_needs_active_round (s : Store) (env : Env) (req : CashoutPayload) :
    (findActiveRound s.rounds = none →
      (cashout s env req).1 = s ∧
        ∃ msg err, (cashout s env req).2 = [Emitted.unicast (Event.error msg err)]) ∧
    (∀ ph, cashout (setPhase ph s) env req =
      (setPhase ph (cashout s env req).1, (cashout s env req).2)) := by
  refine ⟨?_, fun ph => cashout_setPhase ph s env req⟩
  intro hnone
  rcases cashout_cases s env req with ⟨msg, err, h⟩ | ⟨plan, hc, _⟩
  · rw [h]; exact ⟨rfl, msg, err, rfl⟩
  · have := hc.round_found
    rw [hnone] at this
    simp at this

/-- After the crash has deactivated the only round, a `cashout` is refused. -/
theorem cashout_needs_active_round_witness :
    findActiveRound idleStore.rounds = none ∧
      (cashout idleStore calmEnv ⟨"test"⟩).1 = idleStore ∧
      ∃ msg err, (cashout idleStore calmEnv ⟨"test"⟩).2 =
        [Emitted.unicast (Event.error msg err)] :=
  ⟨by decide!, (cashout_needs_active_round idleStore calmEnv ⟨"test"⟩).1 (by decide!)⟩

/-- C6, counterexample: during BETTING, before any multiplier update of the round, a `cashout`
is accepted.  With the initial multiplier 1 the stake 0.001 BTC is paid back; with the value 3
left over from the previous round 0.003 BTC is paid. -/
theorem cashout_accepted_while_betting :
    (findActiveRound bettingStore.rounds).map (fun kr => kr.2.phase) = some Phase.BETTING ∧
      (cashout bettingStore calmEnv ⟨"test"⟩).2 =
        [Emitted.broadcast (Event.player_cashout "test" "BTC" (1 / 1000) 50 1)] ∧
      balanceOf bettingStore 0 "BTC" = some (99 / 1000) ∧
      balanceOf (cashout bettingStore calmEnv ⟨"test"⟩).1 0 "BTC" = some (100 / 1000) ∧
      (betAt (cashout bettingStore calmEnv ⟨"test"⟩).1 0 0).map Bet.status
        = some BetStatus.cashed_out ∧
      (cashout bettingStore calmEnv ⟨"test"⟩).1.transactions.length = 2 ∧
      (findActiveRound staleMultiplierStore.rounds).map (fun kr => kr.2.phase)
        = some Phase.BETTING ∧
      (cashout staleMultiplierStore calmEnv ⟨"test"⟩).2 =
        [Emitted.broadcast (Event.player_cashout "test" "BTC" (3 / 1000) 150 3)] ∧
      balanceOf (cashout staleMultiplierStore calmEnv ⟨"test"⟩).1 0 "BTC"
        = some (102 / 1000) := by
  decide!

/-! ## C7: bet status only moves forward -/

theorem betAt_some (s : Store) (k j : Nat) (b : Bet) (h : betAt s k j = some b) :
    ∃ r, s.rounds[k]? = some r ∧ r.bets[j]? = some b := by
  unfold betAt at h
  cases hr : s.rounds[k]? with
  | none => rw [hr] at h; simp at h
  | some r => rw [hr] at h; exact ⟨r, rfl, h⟩

/-- What a single request can do to the bet stored at a given position. -/
theorem handle_betAt (s : Store) (env : Env) (req : Request) (k j : Nat) (b : Bet)
    (hb : betAt s k j = some b) :
    betAt (handle s env req).1 k j = some b ∨
    (b.status = BetStatus.active ∧ (∃ payload, req = Request.cashout payload) ∧
      betAt (handle s env req).1 k j =
        some { b with status := BetStatus.cashed_out,
                      multiplier_at_cashout := some s.currentMultiplier }) := by
  obtain ⟨r, hr, hj⟩ := betAt_some s k j b hb
  cases req with
  | place_bet payload =>
    left
    rcases placeBet_round_at s env payload k r hr with h1 | ⟨plan, _, _, _, h1⟩
    · rw [handle, betAt_of_rounds _ _ _ _ h1]; exact hj
    · rw [handle, betAt_of_rounds _ _ _ _ h1]
      simp only
      rw [List.getElem?_append_left (lt_length_of_getElem? _ _ _ hj)]
      exact hj
  | cashout payload =>
    rcases cashout_round_at s env payload k r hr with h1 | ⟨plan, hc, _, hpr, h1⟩
    · left; rw [handle, betAt_of_rounds _ _ _ _ h1]; exact hj
    · have hfound := findWithIndex_some _ _ _ _ hc.bet_found
      rw [hpr] at hfound
      by_cases hjj : plan.betIdx = j
      · right
        have hbb : plan.bet = b := by
          have := hfound.1
          rw [hjj, hj] at this
          exact (Option.some.inj this).symm
        have hact : b.status = BetStatus.active := by
          have := hfound.2
          simp only [Bool.and_eq_true, beq_iff_eq] at this
          rw [← hbb]; exact this.2
        refine ⟨hact, ⟨payload, rfl⟩, ?_⟩
        rw [handle, betAt_of_rounds _ _ _ _ h1]
        simp only
        rw [List.getElem?_set, if_pos hjj, if_pos (hjj ▸ lt_length_of_getElem? _ _ _ hj)]
        simp [cashedOutBet, hbb]
      · left
        rw [handle, betAt_of_rounds _ _ _ _ h1]
        simp only
        rw [List.getElem?_set_ne hjj]
        exact hj

theorem mem_set_cases {α : Type} (l : List α) (i : Nat) (a x : α) (h : x ∈ l.set i a) :
    x = a ∨ ∃ j, j ≠ i ∧ l[j]? = some x := by
  obtain ⟨j, hj⟩ := List.mem_iff_getElem?.mp h
  rw [List.getElem?_set] at hj
  by_cases hij : i = j
  · rw [if_pos hij] at hj
    split at hj
    · exact Or.inl (Option.some.inj hj).symm
    · simp at hj
  · rw [if_neg hij] at hj
    exact Or.inr ⟨j, fun h => hij h.symm, hj⟩

/-- Once a cashout has been committed, a further cashout of the same player finds no active bet
in the round, whatever multiplier has been installed meanwhile. -/
theorem second_cashout_rejected (s : Store) (env : Env) (req : CashoutPayload) (e : Event)
    (hone : ∀ kr, findActiveRound s.rounds = some kr → OneBetPerPlayer kr.2.bets)
    (h : (cashout s env req).2 = [Emitted.broadcast e]) (env2 : Env) (m2 : ℚ) :
    (cashout (setLiveMultiplier (cashout s env req).1 m2) env2 req).1 =
        setLiveMultiplier (cashout s env req).1 m2 ∧
      ∃ msg err, (cashout (setLiveMultiplier (cashout s env req).1 m2) env2 req).2 =
        [Emitted.unicast (Event.error msg err)] := by
  obtain ⟨plan, hc, hres⟩ := cashout_committed s env req e h
  rw [hres]
  rcases cashout_cases (setLiveMultiplier (cashStage3 s env plan) m2) env2 req with
    ⟨msg, err, h1⟩ | ⟨plan2, hc2, _⟩
  · rw [h1]; exact ⟨rfl, msg, err, rfl⟩
  · exfalso
    have hp := findWithIndex_some _ _ _ _ hc.player_found
    have hr := findWithIndex_some _ _ _ _ hc.round_found
    have hb := findWithIndex_some _ _ _ _ hc.bet_found
    have hnodup := hone _ hc.round_found
    -- the lookups of the second request
    have hp2 : findOnePlayer (setLiveMultiplier (cashStage3 s env plan) m2).players
        req.username = some (plan.playerId, creditedPlayer s plan) :=
      findWithIndex_set _ _ _ _ _ hc.player_found hp.2
    have hr2 : findActiveRound (setLiveMultiplier (cashStage3 s env plan) m2).rounds =
        some (plan.roundIdx, { plan.round with
          bets := plan.round.bets.set plan.betIdx (cashedOutBet s plan) }) :=
      findWithIndex_set _ _ _ _ _ hc.round_found hr.2
    have e1 := hc2.player_found
    rw [hp2] at e1
    have e2 := hc2.round_found
    rw [hr2] at e2
    simp only [Option.some.injEq, Prod.mk.injEq] at e1 e2
    have hnone : findActiveBet (plan.round.bets.set plan.betIdx (cashedOutBet s plan))
        plan.playerId = none := by
      apply findWithIndex_of_forall_false
      intro x hx
      rcases mem_set_cases _ _ _ _ hx with rfl | ⟨j, hji, hj⟩
      · simp [cashedOutBet]
      · have hpl : x.player ≠ plan.playerId := by
          intro hxp
          have hbp : plan.bet.player = plan.playerId := by
            have := hb.2
            simp only [Bool.and_eq_true, beq_iff_eq] at this
            exact this.1
          have hlt : j < (plan.round.bets.map Bet.player).length := by
            simpa using lt_length_of_getElem? _ _ _ hj
          have : j = plan.betIdx := by
            apply List.getElem?_inj hlt hnodup
            rw [List.getElem?_map, List.getElem?_map, hj, hb.1]
            simp [hxp, hbp]
          exact hji this
        simp [hpl]
    have e3 := hc2.bet_found
    rw [← e2.2, ← e1.1] at e3
    simp only at e3
    rw [hnone] at e3
    simp at e3

/-- C7 (as amended): a request leaves a bet as it is or, for a cashout and an `active` bet,
turns it into `cashed_out` with the multiplier recorded (amounts untouched); a bet that is
`cashed_out` or `lost` is never changed; and after a cashout that was committed
(`player_cashout` broadcast) in a round with one bet per player, a second cashout by the same
player is rejected without any change. -/
theorem bet_status_moves_forward (s : Store) (env : Env) (req : Request) (k j : Nat) (b : Bet)
    (hb : betAt s k j = some b) :
    (b.status ≠ BetStatus.active → betAt (handle s env req).1 k j = some b) ∧
    (betAt (handle s env req).1 k j = some b ∨
      (b.status = BetStatus.active ∧ (∃ payload, req = Request.cashout payload) ∧
        betAt (handle s env req).1 k j =
          some { b with status := BetStatus.cashed_out,
                        multiplier_at_cashout := some s.currentMultiplier })) ∧
    (∀ payload e, req = Request.cashout payload →
      (∀ kr, findActiveRound s.rounds = some kr → OneBetPerPlayer kr.2.bets) →
      (handle s env req).2 = [Emitted.broadcast e] →
      ∀ env2 m2,
        (handle (setLiveMultiplier (handle s env req).1 m2) env2 req).1 =
            setLiveMultiplier (handle s env req).1 m2 ∧
          ∃ msg err, (handle (setLiveMultiplier (handle s env req).1 m2) env2 req).2 =
            [Emitted.unicast (Event.error msg err)]) := by
  refine ⟨?_, handle_betAt s env req k j b hb, ?_⟩
  · intro hna
    rcases handle_betAt s env req k j b hb with h | ⟨hact, _, _⟩
    · exact h
    · exact absurd hact hna
  · intro payload e hreq hone h env2 m2
    subst hreq
    exact second_cashout_rejected s env payload e hone h env2 m2

/-- Scenario A: the cashout settles the active bet, and a second cashout, even at the higher
multiplier 3, is refused and changes nothing. -/
theorem bet_status_moves_forward_witness :
    betAt scenarioA 0 0 = some scenarioABet ∧
      betAt (handle scenarioA calmEnv (Request.cashout ⟨"test"⟩)).1 0 0 = some settledBet ∧
      (handle (setLiveMultiplier (handle scenarioA calmEnv (Request.cashout ⟨"test"⟩)).1 3)
          calmEnv (Request.cashout ⟨"test"⟩)).1 =
        setLiveMultiplier (handle scenarioA calmEnv (Request.cashout ⟨"test"⟩)).1 3 ∧
      ∃ msg err,
        (handle (setLiveMultiplier (handle scenarioA calmEnv (Request.cashout ⟨"test"⟩)).1 3)
          calmEnv (Request.cashout ⟨"test"⟩)).2 = [Emitted.unicast (Event.error msg err)] :=
  ⟨by decide!, by decide!,
    (bet_status_moves_forward scenarioA calmEnv (Request.cashout ⟨"test"⟩) 0 0 scenarioABet
      (by decide!)).2.2 ⟨"test"⟩
      (Event.player_cashout "test" "BTC" (2 / 1000) 100 2) rfl
      (fun kr hkr => by
        have h0 : findActiveRound scenarioA.rounds = some (0, scenarioARound) := by decide!
        rw [h0] at hkr
        cases hkr
        decide!)
      (by decide!) calmEnv 3⟩

/-- C7, counterexample: in Scenario A `round.save()` rejects during the first cashout.  The
requester is told "Cashout failed", but the wallet, saved before the round, has gone from
0.099 to 0.101 BTC and the bet is still `active`, the only bet of the round.  The next cashout
of the same player in the same round is committed and credits the payout of 0.002 BTC a second
time: the balance is 0.103 BTC. -/
theorem cashout_pays_twice_when_round_save_rejects :
    balanceOf scenarioA 0 "BTC" = some (99 / 1000) ∧
      betAt scenarioA 0 0 = some scenarioABet ∧
      (handle scenarioA roundSaveDownEnv (Request.cashout ⟨"test"⟩)).2 =
        [Emitted.unicast (Event.error "Cashout failed" (some "write failed"))] ∧
      balanceOf halfSettledStore 0 "BTC" = some (101 / 1000) ∧
      betAt halfSettledStore 0 0 = some scenarioABet ∧
      (∀ kr, findActiveRound halfSettledStore.rounds = some kr → OneBetPerPlayer kr.2.bets) ∧
      (handle halfSettledStore calmEnv (Request.cashout ⟨"test"⟩)).2 =
        [Emitted.broadcast (Event.player_cashout "test" "BTC" (2 / 1000) 100 2)] ∧
      balanceOf (handle halfSettledStore calmEnv (Request.cashout ⟨"test"⟩)).1 0 "BTC"
        = some (103 / 1000) ∧
      betAt (handle halfSettledStore calmEnv (Request.cashout ⟨"test"⟩)).1 0 0
        = some settledBet := by
  refine ⟨by decide!, by decide!, by decide!, by decide!, by decide!, ?_, by decide!,
    by decide!, by decide!⟩
  intro kr hkr
  have h0 : findActiveRound halfSettledStore.rounds = some (0, scenarioARound) := by decide!
  rw [h0] at hkr
  cases hkr
  decide!

/-! ## C8: the ledger and the balances -/

theorem balanceOf_after_save (s s1 : Store) (playerId : Nat) (player : Player)
    (currency : String) (balance : ℚ) (wallet : Wallet)
    (hp : s.players[playerId]? = some player)
    (hw : findWallet player.wallets currency = some wallet)
    (hs1 : s1.players = s.players.set playerId
      { player with wallets := setWalletBalance currency balance player.wallets })
    (i : Nat) (c : String) :
    balanceOf s1 i c = if i = playerId ∧ c = currency then some balance else balanceOf s i c := by
  have hlt := lt_length_of_getElem? _ _ _ hp
  unfold balanceOf
  rw [hs1]
  by_cases hi : i = playerId
  · subst hi
    rw [List.getElem?_set_self hlt, hp]
    by_cases hc : c = currency
    · subst hc
      simp only [and_self, if_true]
      rw [findWallet_setWalletBalance_same _ _ _ _ hw]
      rfl
    · simp only [hc, and_false, if_false]
      rw [findWallet_setWalletBalance_other _ _ _ hc]
  · simp only [hi, false_and, if_false]
    rw [List.getElem?_set_ne (fun h => hi h.symm)]

theorem fixedBalances_set (s s1 : Store) (playerId : Nat) (player : Player)
    (currency : String) (balance : ℚ) (hfix : FixedBalances s)
    (hp : s.players[playerId]? = some player) (hb : IsFixed8 balance)
    (hs1 : s1.players = s.players.set playerId
      { player with wallets := setWalletBalance currency balance player.wallets }) :
    FixedBalances s1 := by
  intro p hpmem w hw
  rw [hs1] at hpmem
  rcases List.mem_or_eq_of_mem_set hpmem with hmem | rfl
  · exact hfix p hmem w hw
  · rcases mem_setWalletBalance _ _ _ _ hw with hw1 | hw1
    · exact hfix player (List.getElem?_mem hp) w hw1
    · rw [hw1]; exact hb

/-- The ledger entry of one request handled without a rejecting operation: the request is
rejected (store unchanged, one unicast event), or it appends exactly one transaction of its own
type, and the balance of the player and currency of that transaction is rewritten by the
handler's operation, from `old` to `toFixed 8 (old - crypto_amount)` by a bet and to
`old + crypto_amount` by a cashout, while every other balance stays the same. -/
theorem handle_ledger_entry (s : Store) (env : Env) (req : Request) (hok : env.failure = none) :
    ((handle s env req).1 = s ∧ ∃ e, (handle s env req).2 = [Emitted.unicast e]) ∨
    (∃ tx old, (handle s env req).1.transactions = s.transactions ++ [tx] ∧
      tx.transaction_type = committedType req ∧
      balanceOf s tx.player tx.currency = some old ∧
      (tx.transaction_type = TransactionType.bet →
        balanceOf (handle s env req).1 tx.player tx.currency
          = some (toFixed 8 (old - tx.crypto_amount))) ∧
      (tx.transaction_type = TransactionType.cashout →
        balanceOf (handle s env req).1 tx.player tx.currency
          = some (old + tx.crypto_amount)) ∧
      (∀ i c, ¬ (i = tx.player ∧ c = tx.currency) →
        balanceOf (handle s env req).1 i c = balanceOf s i c) ∧
      ∀ msg err, Emitted.unicast (Event.bet_error msg err) ∉ (handle s env req).2 ∧
        Emitted.unicast (Event.error msg err) ∉ (handle s env req).2) := by
  cases req with
  | place_bet payload =>
    rcases placeBet_cases s env payload with ⟨msg, err, h⟩ | ⟨plan, hc, h⟩
    · left; simp only [handle]; rw [h]; exact ⟨rfl, _, rfl⟩
    · right
      rcases placeBetCommit_cases s env payload plan with
        ⟨hf, _⟩ | ⟨hf, _⟩ | ⟨hf, _⟩ | ⟨_, _, _, h1⟩
      · rw [hok] at hf; simp at hf
      · rw [hok] at hf; simp at hf
      · rw [hok] at hf; simp at hf
      · have hp := (findWithIndex_some _ _ _ _ hc.player_found).1
        have hpl : (betStage3 s env payload plan).players = s.players.set plan.playerId
            { plan.player with
              wallets := setWalletBalance payload.currency
                (toFixed 8 (plan.wallet.balance - plan.cryptoAmount)) plan.player.wallets } :=
          rfl
        have hbal := balanceOf_after_save s _ _ _ _ _ _ hp hc.wallet_found hpl
        have hold : balanceOf s plan.playerId payload.currency = some plan.wallet.balance := by
          rw [balanceOf_of_players s _ _ _ hp, hc.wallet_found]; rfl
        simp only [handle]
        rw [h, h1]
        refine ⟨betTransaction env payload plan, plan.wallet.balance, rfl, rfl, hold, ?_, ?_, ?_,
          ?_⟩
        · intro _
          rw [hbal]
          simp [betTransaction]
        · intro hty
          simp [betTransaction] at hty
        · intro i c hic
          rw [hbal]
          exact if_neg hic
        · intro msg err; simp [betPlacedEvents]
  | cashout payload =>
    rcases cashout_cases s env payload with ⟨msg, err, h⟩ | ⟨plan, hc, h⟩
    · left; simp only [handle]; rw [h]; exact ⟨rfl, _, rfl⟩
    · right
      rcases cashoutCommit_cases s env payload plan with
        ⟨hf, _⟩ | ⟨hf, _⟩ | ⟨hf, _⟩ | ⟨_, _, _, h1⟩
      · rw [hok] at hf; simp at hf
      · rw [hok] at hf; simp at hf
      · rw [hok] at hf; simp at hf
      · have hp := (findWithIndex_some _ _ _ _ hc.player_found).1
        have hpl : (cashStage3 s env plan).players = s.players.set plan.playerId
            { plan.player with
              wallets := setWalletBalance plan.bet.currency
                (plan.wallet.balance + payoutCrypto s plan) plan.player.wallets } :=
          rfl
        have hbal := balanceOf_after_save s _ _ _ _ _ _ hp hc.wallet_found hpl
        have hold : balanceOf s plan.playerId plan.bet.currency
            = some plan.wallet.balance := by
          rw [balanceOf_of_players s _ _ _ hp, hc.wallet_found]; rfl
        simp only [handle]
        rw [h, h1]
        refine ⟨cashoutTransaction s env plan, plan.wallet.balance, rfl, rfl, hold, ?_, ?_, ?_,
          ?_⟩
        · intro hty
          simp [cashoutTransaction] at hty
        · intro _
          rw [hbal]
          simp [cashoutTransaction]
        · intro i c hic
          rw [hbal]
          exact if_neg hic
        · intro msg err; simp [cashoutEvents]

theorem run_cons (s : Store) (st : Step) (steps : List Step) :
    run s (st :: steps) = run (applyStep s st) steps := rfl

/-- C8, failing input: the seeded player `test` (0.1 BTC) bets 1 USD at 30,000 USD per BTC and
cashes out at the multiplier 2; no operation rejects and both requests are committed.  The
ledger then holds a `bet` of 0.00003333 and a `cashout` of 0.00006666, each for `test` in BTC,
and its replay from 0.1 gives 0.10003333, computed in decimals or in binary64 arithmetic.  The
debit of line 66 has stored 0.09996667, but the credit of line 145 is a binary64 addition that
is not rounded to eight decimals: the wallet holds the binary64 value below 0.10003333
(printed 0.10003332999999999), which is not the balance the ledger gives.  Rounded as the
debit is, the sum would be 0.10003333. -/
theorem stored_balance_differs_from_ledger_replay :
    balanceOf seedStoreDouble 0 "BTC" = some (roundDouble (1 / 10)) ∧
      (handleWith doubleArithmetic seedStoreDouble thirtyEnv
          (Request.place_bet ⟨"test", some 1, "BTC"⟩)).2 =
        [Emitted.unicast (Event.bet_placed "test" 1 (roundDouble (3333 / 10 ^ 8)) "BTC" 1),
         Emitted.broadcast (Event.player_bet "test" 1 "BTC" 1)] ∧
      balanceOf smallBetStore 0 "BTC" = some (roundDouble (9996667 / 10 ^ 8)) ∧
      (handleWith doubleArithmetic smallBetStore thirtyEnv (Request.cashout ⟨"test"⟩)).2 =
        [Emitted.broadcast (Event.player_cashout "test" "BTC" (roundDouble (6666 / 10 ^ 8)) 2
          2)] ∧
      smallCashedStore.transactions.map
          (fun tx => (tx.transaction_type, tx.player, tx.currency, tx.crypto_amount)) =
        [(TransactionType.bet, 0, "BTC", roundDouble (3333 / 10 ^ 8)),
         (TransactionType.cashout, 0, "BTC", roundDouble (6666 / 10 ^ 8))] ∧
      balanceOf smallCashedStore 0 "BTC" = some (7208161083402077 / 2 ^ 56) ∧
      replayDecimal smallCashedStore.transactions 0 "BTC" (roundDouble (1 / 10))
        = 10003333 / 10 ^ 8 ∧
      roundDouble (10003333 / 10 ^ 8) = 7208161083402078 / 2 ^ 56 ∧
      replayDouble smallCashedStore.transactions 0 "BTC" (roundDouble (1 / 10))
        = 7208161083402078 / 2 ^ 56 ∧
      balanceOf smallCashedStore 0 "BTC" ≠
        some (roundDouble
          (replayDecimal smallCashedStore.transactions 0 "BTC" (roundDouble (1 / 10)))) ∧
      balanceOf smallCashedStore 0 "BTC" ≠
        some (replayDouble smallCashedStore.transactions 0 "BTC" (roundDouble (1 / 10))) ∧
      (7208161083402077 / 2 ^ 56 : ℚ) < 10003333 / 10 ^ 8 ∧
      (10003332999999998 : ℚ) / 10 ^ 17 < 7208161083402077 / 2 ^ 56 ∧
      toFixedDouble 8 (7208161083402077 / 2 ^ 56) = roundDouble (10003333 / 10 ^ 8) := by
  decide!

/-! ## C9: `place_bet` when a write rejects -/

theorem supported_of_checked (s : Store) (env : Env) (req : PlaceBetPayload) (plan : BetPlan)
    (hc : BetChecked s env req plan) :
    ¬ (!(supportedCurrencies.contains req.currency)) = true := by
  rw [hc.supported]; decide

/-- The checks pass again in any environment with the same prices in which no read rejects. -/
theorem placeBetCheck_of_checked (s : Store) (env : Env) (req : PlaceBetPayload)
    (plan : BetPlan) (hc : BetChecked s env req plan)
    (h1 : env.failure ≠ some Await.findPlayer) (h2 : env.failure ≠ some Await.findRound)
    (h3 : env.failure ≠ some Await.getCryptoPrice) :
    placeBetCheck s env req = Except.ok plan := by
  unfold placeBetCheck
  rw [if_neg (supported_of_checked s env req plan hc), if_neg h1, hc.player_found]
  dsimp only
  rw [if_neg h2, hc.round_found]
  dsimp only
  rw [if_neg (by simp [hc.no_bet_yet]), if_neg h3, hc.usd_eq]
  dsimp only
  rw [← hc.price_eq, if_neg (not_or.mpr ⟨hc.price_ne, not_le.mpr hc.usd_pos⟩), ← hc.crypto_eq,
    if_neg hc.crypto_ne, hc.wallet_found]
  dsimp only
  rw [if_neg (not_lt.mpr hc.funded)]

theorem betChecked_clear_failure (s : Store) (env : Env) (req : PlaceBetPayload)
    (plan : BetPlan) (hc : BetChecked s env req plan) :
    BetChecked s { env with failure := none } req plan :=
  { supported := hc.supported
    player_found := hc.player_found
    round_found := hc.round_found
    no_bet_yet := hc.no_bet_yet
    price_eq := hc.price_eq
    usd_eq := hc.usd_eq
    price_ne := hc.price_ne
    usd_pos := hc.usd_pos
    crypto_eq := hc.crypto_eq
    crypto_ne := hc.crypto_ne
    wallet_found := hc.wallet_found
    funded := hc.funded }

/-- The fully committed store of a request whose checks pass. -/
theorem placeBet_clear_failure (s : Store) (env : Env) (req : PlaceBetPayload) (plan : BetPlan)
    (hc : BetChecked s env req plan) :
    (placeBet s { env with failure := none } req).1 = betStage3 s env req plan := by
  have h := placeBetCheck_of_checked s { env with failure := none } req plan
    (betChecked_clear_failure s env req plan hc) (by simp) (by simp) (by simp)
  unfold placeBet
  rw [h]
  rfl

/-- C9 (as amended): `place_bet` has no rollback.  Writing `c` for the store the request
reaches when nothing rejects, the store after the request is the old store, or `c`, or, when
`round.save()` rejects, the old store with the debited player documents of `c` (no bet, no
transaction), or, when `Transaction.create` rejects, `c` without the new transaction (debit
and bet stored).  Only a rejecting `player.save()` leaves everything as before, and whenever an
operation is set to reject the requester gets a single `bet_error`. -/
theorem place_bet_without_rollback (s : Store) (env : Env) (req : PlaceBetPayload) :
    ((placeBet s env req).1 = s ∨
      (placeBet s env req).1 = (placeBet s { env with failure := none } req).1 ∨
      (env.failure = some Await.saveRound ∧
        (placeBet s env req).1 =
          { s with players := (placeBet s { env with failure := none } req).1.players }) ∨
      (env.failure = some Await.createTransaction ∧
        (placeBet s env req).1 =
          { (placeBet s { env with failure := none } req).1 with
            transactions := s.transactions })) ∧
    (env.failure = some Await.savePlayer → (placeBet s env req).1 = s) ∧
    (env.failure ≠ none →
      ∃ msg err, (placeBet s env req).2 = [Emitted.unicast (Event.bet_error msg err)]) := by
  rcases placeBet_cases s env req with ⟨msg, err, h⟩ | ⟨plan, hc, h⟩
  · rw [h]
    exact ⟨Or.inl rfl, fun _ => rfl, fun _ => ⟨msg, err, rfl⟩⟩
  · have hcommitted := placeBet_clear_failure s env req plan hc
    rw [hcommitted, h]
    rcases placeBetCommit_cases s env req plan with
      ⟨hf, h1⟩ | ⟨hf, h1⟩ | ⟨hf, h1⟩ | ⟨hf1, hf2, hf3, h1⟩
    · rw [h1]
      exact ⟨Or.inl rfl, fun _ => rfl, fun _ => ⟨_, _, rfl⟩⟩
    · rw [h1]
      refine ⟨Or.inr (Or.inr (Or.inl ⟨hf, rfl⟩)), ?_, fun _ => ⟨_, _, rfl⟩⟩
      intro hsp
      rw [hf] at hsp
      simp at hsp
    · rw [h1]
      refine ⟨Or.inr (Or.inr (Or.inr ⟨hf, rfl⟩)), ?_, fun _ => ⟨_, _, rfl⟩⟩
      intro hsp
      rw [hf] at hsp
      simp at hsp
    · rw [h1]
      refine ⟨Or.inr (Or.inl rfl), fun hsp => absurd hsp hf1, ?_⟩
      intro hne
      exfalso
      cases hfail : env.failure with
      | none => exact hne hfail
      | some a =>
        cases a with
        | findPlayer =>
          have : placeBetCheck s env req = Except.error (betFailed env) := by
            unfold placeBetCheck
            rw [if_neg (supported_of_checked s env req plan hc), if_pos hfail]
          have hp : placeBet s env req = (s, betFailed env) := by
            unfold placeBet; rw [this]
          rw [hp] at h
          rw [← h] at h1
          simp [betFailed, betPlacedEvents] at h1
        | findRound =>
          have : placeBetCheck s env req = Except.error (betFailed env) := by
            unfold placeBetCheck
            rw [if_neg (supported_of_checked s env req plan hc), if_neg (by simp [hfail]), hc.player_found]
            dsimp only
            rw [if_pos hfail]
          have hp : placeBet s env req = (s, betFailed env) := by
            unfold placeBet; rw [this]
          rw [hp] at h
          rw [← h] at h1
          simp [betFailed, betPlacedEvents] at h1
        | getCryptoPrice =>
          have : placeBetCheck s env req = Except.error (betFailed env) := by
            unfold placeBetCheck
            rw [if_neg (supported_of_checked s env req plan hc), if_neg (by simp [hfail]), hc.player_found]
            dsimp only
            rw [if_neg (by simp [hfail]), hc.round_found]
            dsimp only
            rw [if_neg (by simp [hc.no_bet_yet]), if_pos hfail]
          have hp : placeBet s env req = (s, betFailed env) := by
            unfold placeBet; rw [this]
          rw [hp] at h
          rw [← h] at h1
          simp [betFailed, betPlacedEvents] at h1
        | savePlayer => exact hf1 hfail
        | saveRound => exact hf2 hfail
        | createTransaction => exact hf3 hfail

/-- When `round.save()` is set to reject, the bet of Scenario A is answered with a single
`bet_error`. -/
theorem place_bet_without_rollback_witness :
    roundSaveDownEnv.failure ≠ none ∧
      ∃ msg err, (placeBet seedStore roundSaveDownEnv ⟨"test", some 50, "BTC"⟩).2 =
        [Emitted.unicast (Event.bet_error msg err)] :=
  ⟨by decide,
    (place_bet_without_rollback seedStore roundSaveDownEnv ⟨"test", some 50, "BTC"⟩).2.2
      (by decide)⟩

/-- C9, counterexample: when `round.save()` rejects after the debit has been saved, the store
is neither the old one nor the committed one: the balance went from 0.1 to 0.099 BTC while the
round holds no bet and the ledger no transaction. The same happens, with the bet stored, when
`Transaction.create` rejects. -/
theorem place_bet_debit_not_rolled_back :
    (placeBet seedStore roundSaveDownEnv ⟨"test", some 50, "BTC"⟩).1 ≠ seedStore ∧
      (placeBet seedStore roundSaveDownEnv ⟨"test", some 50, "BTC"⟩).1 ≠
        (placeBet seedStore calmEnv ⟨"test", some 50, "BTC"⟩).1 ∧
      balanceOf seedStore 0 "BTC" = some (100 / 1000) ∧
      balanceOf (placeBet seedStore roundSaveDownEnv ⟨"test", some 50, "BTC"⟩).1 0 "BTC"
        = some (99 / 1000) ∧
      (placeBet seedStore roundSaveDownEnv ⟨"test", some 50, "BTC"⟩).1.rounds
        = seedStore.rounds ∧
      (placeBet seedStore roundSaveDownEnv ⟨"test", some 50, "BTC"⟩).1.transactions = [] ∧
      (placeBet seedStore roundSaveDownEnv ⟨"test", some 50, "BTC"⟩).2
        = [Emitted.unicast (Event.bet_error "Bet placement failed" (some "write failed"))] ∧
      (placeBet seedStore ledgerDownEnv ⟨"test", some 50, "BTC"⟩).1 ≠ seedStore ∧
      (placeBet seedStore ledgerDownEnv ⟨"test", some 50, "BTC"⟩).1 ≠
        (placeBet seedStore calmEnv ⟨"test", some 50, "BTC"⟩).1 := by
  decide!

/-! ## C10: the price written on a cashout transaction -/

/-- C10, evaluation at the failing input: a 100 USD bet at 30,000 USD per BTC is stored as
0.00333333 BTC with `price_at_time = 30000`; the cashout transaction of the same bet carries
`price_at_time = 100 / 0.00333333 = 10000000000 / 333333`, which is not 30000. -/
theorem cashout_price_differs_from_bet_price :
    (cashout thirtyStore thirtyEnv ⟨"test"⟩).1.transactions =
        [{ player := 0, usd_amount := 100, crypto_amount := 333333 / 100000000,
           currency := "BTC", transaction_type := TransactionType.bet,
           transaction_hash := "tx_0_0", price_at_time := 30000 },
         { player := 0, usd_amount := 100, crypto_amount := 333333 / 100000000,
           currency := "BTC", transaction_type := TransactionType.cashout,
           transaction_hash := "tx_0_0", price_at_time := 10000000000 / 333333 }] ∧
      (10000000000 / 333333 : ℚ) ≠ 30000 := by
  decide!

/-! ## C11: the balance check of `place_bet` -/

/-- The balance check is what decides once the earlier checks have passed. -/
theorem placeBetCheck_at_funds (s : Store) (env : Env) (req : PlaceBetPayload)
    (playerId : Nat) (player : Player) (roundIdx : Nat) (round : GameRound) (usd crypto : ℚ)
    (h : FundsCheckReached s env req playerId player roundIdx round usd crypto) :
    placeBetCheck s env req =
      match findWallet player.wallets req.currency with
      | none => Except.error (betError "Insufficient balance")
      | some wallet =>
        if wallet.balance < crypto then Except.error (betError "Insufficient balance")
        else Except.ok
          { playerId := playerId, player := player, roundIdx := roundIdx, round := round,
            price := priceFor env req.currency, cleanUsdAmount := usd, cryptoAmount := crypto,
            wallet := wallet } := by
  unfold placeBetCheck
  rw [if_neg (by rw [h.supported]; decide), if_neg h.find_player_ok, h.player_found]
  dsimp only
  rw [if_neg h.find_round_ok, h.round_found]
  dsimp only
  rw [if_neg (by simp [h.no_bet_yet]), if_neg h.price_ok, h.usd_eq]
  dsimp only
  rw [if_neg (not_or.mpr ⟨h.price_ne, not_le.mpr h.usd_pos⟩), ← h.crypto_eq, if_neg h.crypto_ne]

/-- The message "Insufficient balance" comes from the balance check and from nowhere else. -/
theorem placeBetCheck_insufficient (s : Store) (env : Env) (req : PlaceBetPayload)
    (h : placeBetCheck s env req = Except.error (betError "Insufficient balance")) :
    ∃ playerId player roundIdx round usd crypto,
      FundsCheckReached s env req playerId player roundIdx round usd crypto ∧
      (findWallet player.wallets req.currency = none ∨
        ∃ w, findWallet player.wallets req.currency = some w ∧ w.balance < crypto) := by
  unfold placeBetCheck at h
  by_cases h1 : (!(supportedCurrencies.contains req.currency)) = true
  · rw [if_pos h1] at h; simp [betError] at h
  rw [if_neg h1] at h
  by_cases h2 : env.failure = some Await.findPlayer
  · rw [if_pos h2] at h; simp [betError, betFailed] at h
  rw [if_neg h2] at h
  cases hp : findOnePlayer s.players req.username with
  | none => rw [hp] at h; simp [betError] at h
  | some ip =>
    obtain ⟨playerId, player⟩ := ip
    rw [hp] at h
    dsimp only at h
    by_cases h3 : env.failure = some Await.findRound
    · rw [if_pos h3] at h; simp [betError, betFailed] at h
    rw [if_neg h3] at h
    cases hr : findActiveRound s.rounds with
    | none => rw [hr] at h; simp [betError] at h
    | some kr =>
      obtain ⟨roundIdx, round⟩ := kr
      rw [hr] at h
      dsimp only at h
      by_cases h4 : (round.bets.any fun b => b.player == playerId) = true
      · rw [if_pos h4] at h; simp [betError] at h
      rw [if_neg h4] at h
      by_cases h5 : env.failure = some Await.getCryptoPrice
      · rw [if_pos h5] at h; simp [betError, betFailed] at h
      rw [if_neg h5] at h
      cases hu : req.usd_amount with
      | none => rw [hu] at h; simp [betError] at h
      | some usd =>
        rw [hu] at h
        dsimp only at h
        by_cases h6 : priceFor env req.currency = 0 ∨ usd ≤ 0
        · rw [if_pos h6] at h; simp [betError] at h
        rw [if_neg h6] at h
        by_cases h7 : toFixed 8 (usd / priceFor env req.currency) = 0
        · rw [if_pos h7] at h; simp [betError] at h
        rw [if_neg h7] at h
        push_neg at h6
        have hreached : FundsCheckReached s env req playerId player roundIdx round usd
            (toFixed 8 (usd / priceFor env req.currency)) :=
          { supported := by simpa using h1
            find_player_ok := h2
            player_found := hp
            find_round_ok := h3
            round_found := hr
            no_bet_yet := by simpa using h4
            price_ok := h5
            usd_eq := hu
            price_ne := h6.1
            usd_pos := h6.2
            crypto_eq := rfl
            crypto_ne := h7 }
        refine ⟨playerId, player, roundIdx, round, usd, _, hreached, ?_⟩
        cases hw : findWallet player.wallets req.currency with
        | none => exact Or.inl rfl
        | some wallet =>
          rw [hw] at h
          dsimp only at h
          by_cases h8 : wallet.balance < toFixed 8 (usd / priceFor env req.currency)
          · exact Or.inr ⟨wallet, rfl, h8⟩
          · rw [if_neg h8] at h; simp at h

theorem placeBetCommit_events_ne (s : Store) (env : Env) (req : PlaceBetPayload)
    (plan : BetPlan) (msg : String) : (placeBetCommit s env req plan).2 ≠ betError msg := by
  rcases placeBetCommit_cases s env req plan with ⟨_, h1⟩ | ⟨_, h1⟩ | ⟨_, h1⟩ | ⟨_, _, _, h1⟩
  · rw [h1]; simp [betFailed, betError]
  · rw [h1]; simp [betFailed, betError]
  · rw [h1]; simp [betFailed, betError]
  · rw [h1]; simp [betPlacedEvents, betError]

/-- C11: `place_bet` answers "Insufficient balance" exactly when every earlier check has passed
and the player has no wallet in the currency or a balance strictly below the converted amount;
that rejection changes nothing; an accepted bet leaves `toFixed 8 (old - amount)` on the
wallet; and when nothing rejects a sufficient balance is accepted, an equal one leaving 0. -/
theorem insufficient_balance_exactly (s : Store) (env : Env) (req : PlaceBetPayload) :
    ((placeBet s env req).2 = betError "Insufficient balance" ↔
      ∃ playerId player roundIdx round usd crypto,
        FundsCheckReached s env req playerId player roundIdx round usd crypto ∧
        (findWallet player.wallets req.currency = none ∨
          ∃ w, findWallet player.wallets req.currency = some w ∧ w.balance < crypto)) ∧
    ((placeBet s env req).2 = betError "Insufficient balance" → (placeBet s env req).1 = s) ∧
    (∀ u usd crypto cur rid,
      Emitted.unicast (Event.bet_placed u usd crypto cur rid) ∈ (placeBet s env req).2 →
      ∃ playerId old, balanceOf s playerId req.currency = some old ∧ crypto ≤ old ∧
        balanceOf (placeBet s env req).1 playerId req.currency
          = some (toFixed 8 (old - crypto))) ∧
    (∀ playerId player roundIdx round usd crypto w,
      FundsCheckReached s env req playerId player roundIdx round usd crypto →
      findWallet player.wallets req.currency = some w → crypto ≤ w.balance →
      env.failure = none →
      Emitted.unicast (Event.bet_placed req.username usd crypto req.currency round.round_id)
          ∈ (placeBet s env req).2 ∧
        balanceOf (placeBet s env req).1 playerId req.currency
          = some (toFixed 8 (w.balance - crypto)) ∧
        (w.balance = crypto →
          balanceOf (placeBet s env req).1 playerId req.currency = some 0)) := by
  have hfromCheck : (placeBet s env req).2 = betError "Insufficient balance" →
      placeBetCheck s env req = Except.error (betError "Insufficient balance") := by
    intro h
    unfold placeBet at h
    cases hcheck : placeBetCheck s env req with
    | error events => rw [hcheck] at h; simp only at h; rw [h]
    | ok plan =>
      rw [hcheck] at h
      exact absurd h (placeBetCommit_events_ne s env req plan _)
  refine ⟨⟨?_, ?_⟩, ?_, ?_, ?_⟩
  · intro h
    exact placeBetCheck_insufficient s env req (hfromCheck h)
  · rintro ⟨playerId, player, roundIdx, round, usd, crypto, hreach, hw⟩
    have hcheck := placeBetCheck_at_funds s env req _ _ _ _ _ _ hreach
    unfold placeBet
    rcases hw with hnone | ⟨w, hsome, hlt⟩
    · rw [hnone] at hcheck; rw [hcheck]
    · rw [hsome] at hcheck
      simp only [if_pos hlt] at hcheck
      rw [hcheck]
  · intro h
    have hcheck := hfromCheck h
    unfold placeBet
    rw [hcheck]
  · intro u usd crypto cur rid h
    obtain ⟨plan, hc, hres⟩ := placeBet_committed s env req u cur usd crypto rid h
    rw [hres] at h
    simp only [betPlacedEvents, List.mem_cons, Emitted.unicast.injEq, Event.bet_placed.injEq,
      List.mem_singleton, reduceCtorEq, or_false, List.not_mem_nil] at h
    obtain ⟨_, _, hcrypto, _, _⟩ := h
    have hp := (findWithIndex_some _ _ _ _ hc.player_found).1
    have hpl : (betStage3 s env req plan).players = s.players.set plan.playerId
        { plan.player with
          wallets := setWalletBalance req.currency
            (toFixed 8 (plan.wallet.balance - plan.cryptoAmount)) plan.player.wallets } := rfl
    refine ⟨plan.playerId, plan.wallet.balance, ?_, ?_, ?_⟩
    · rw [balanceOf_of_players s _ _ _ hp, hc.wallet_found]; rfl
    · rw [hcrypto]; exact hc.funded
    · rw [hres, balanceOf_after_save s _ _ _ _ _ _ hp hc.wallet_found hpl, hcrypto]
      simp
  · intro playerId player roundIdx round usd crypto w hreach hw hle hok
    have hcheck := placeBetCheck_at_funds s env req _ _ _ _ _ _ hreach
    rw [hw] at hcheck
    simp only [if_neg (not_lt.mpr hle)] at hcheck
    have hp := (findWithIndex_some _ _ _ _ hreach.player_found).1
    have hres : placeBet s env req =
        (betStage3 s env req
          { playerId := playerId, player := player, roundIdx := roundIdx, round := round,
            price := priceFor env req.currency, cleanUsdAmount := usd, cryptoAmount := crypto,
            wallet := w },
         betPlacedEvents req
          { playerId := playerId, player := player, roundIdx := roundIdx, round := round,
            price := priceFor env req.currency, cleanUsdAmount := usd, cryptoAmount := crypto,
            wallet := w }) := by
      unfold placeBet
      rw [hcheck]
      rcases placeBetCommit_cases s env req
        { playerId := playerId, player := player, roundIdx := roundIdx, round := round,
          price := priceFor env req.currency, cleanUsdAmount := usd, cryptoAmount := crypto,
          wallet := w } with ⟨hf, _⟩ | ⟨hf, _⟩ | ⟨hf, _⟩ | ⟨_, _, _, h1⟩
      · rw [hok] at hf; simp at hf
      · rw [hok] at hf; simp at hf
      · rw [hok] at hf; simp at hf
      · exact h1
    have hbal : balanceOf (placeBet s env req).1 playerId req.currency
        = some (toFixed 8 (w.balance - crypto)) := by
      rw [hres]
      rw [balanceOf_after_save s _ playerId player req.currency
        (toFixed 8 (w.balance - crypto)) w hp hw rfl]
      simp
    refine ⟨?_, hbal, ?_⟩
    · rw [hres]; simp [betPlacedEvents]
    · intro heq
      rw [hbal, heq, sub_self]
      have : toFixed 8 (0 : ℚ) = 0 := by
        have := toFixed_int_div 8 0
        simpa using this
      rw [this]

/-- The player `demo` holds 0.001 BTC: a request for 0.002 BTC is answered "Insufficient
balance" with nothing changed, a request for exactly 0.001 BTC is accepted and leaves 0. -/
theorem insufficient_balance_exactly_witness :
    (placeBet demoStore calmEnv demoTooMuch).2 = betError "Insufficient balance" ∧
      (placeBet demoStore calmEnv demoTooMuch).1 = demoStore ∧
      Emitted.unicast (Event.bet_placed "demo" 50 (1 / 1000) "BTC" 1)
        ∈ (placeBet demoStore calmEnv demoAllIn).2 ∧
      balanceOf (placeBet demoStore calmEnv demoAllIn).1 0 "BTC" = some 0 :=
  ⟨by decide!,
    (insufficient_balance_exactly demoStore calmEnv demoTooMuch).2.1 (by decide!),
    ((insufficient_balance_exactly demoStore calmEnv demoAllIn).2.2.2 0 demoPlayer 0 demoRound
      50 (1 / 1000) ⟨"BTC", 1 / 1000⟩
      { supported := by decide
        find_player_ok := by decide
        player_found := by decide!
        find_round_ok := by decide
        round_found := by decide!
        no_bet_yet := by decide
        price_ok := by decide
        usd_eq := rfl
        price_ne := by decide!
        usd_pos := by decide!
        crypto_eq := by decide!
        crypto_ne := by decide! }
      (by decide!) (by decide!) rfl).1,
    ((insufficient_balance_exactly demoStore calmEnv demoAllIn).2.2.2 0 demoPlayer 0 demoRound
      50 (1 / 1000) ⟨"BTC", 1 / 1000⟩
      { supported := by decide
        find_player_ok := by decide
        player_found := by decide!
        find_round_ok := by decide
        round_found := by decide!
        no_bet_yet := by decide
        price_ok := by decide
        usd_eq := rfl
        price_ne := by decide!
        usd_pos := by decide!
        crypto_eq := by decide!
        crypto_ne := by decide! }
      (by decide!) (by decide!) rfl).2.2 rfl⟩

/-! ## C12: validation errors -/

/-- C12: a `place_bet` whose currency is neither BTC nor ETH is answered at once with
"Unsupported currency"; one whose `usd_amount` parses to `NaN` or to a value that is not
positive is answered with a `bet_error` as well; in each case the store is unchanged. -/
theorem validation_errors_change_nothing (s : Store) (env : Env) (req : PlaceBetPayload)
    (h : (req.currency ≠ "BTC" ∧ req.currency ≠ "ETH") ∨ req.usd_amount = none ∨
      ∃ usd, req.usd_amount = some usd ∧ usd ≤ 0) :
    ((placeBet s env req).1 = s ∧
      ∃ msg err, (placeBet s env req).2 = [Emitted.unicast (Event.bet_error msg err)]) ∧
    ((req.currency ≠ "BTC" ∧ req.currency ≠ "ETH") →
      placeBet s env req = (s, betError "Unsupported currency")) := by
  constructor
  · rcases placeBet_cases s env req with ⟨msg, err, h1⟩ | ⟨plan, hc, _⟩
    · rw [h1]; exact ⟨rfl, msg, err, rfl⟩
    · exfalso
      rcases h with ⟨hb, he⟩ | hnone | ⟨usd, husd, hle⟩
      · have := hc.supported
        simp [supportedCurrencies, hb, he] at this
      · have := hc.usd_eq
        rw [hnone] at this
        simp at this
      · have := hc.usd_eq
        rw [husd] at this
        have hpos := hc.usd_pos
        rw [← Option.some.inj this] at hpos
        exact absurd hpos (not_lt.mpr hle)
  · rintro ⟨hb, he⟩
    have hun : (!(supportedCurrencies.contains req.currency)) = true := by
      simp [supportedCurrencies, hb, he]
    unfold placeBet placeBetCheck
    rw [if_pos hun]

/-- A bet in DOGE and a bet of -5 USD on the seeded store. -/
theorem validation_errors_change_nothing_witness :
    placeBet seedStore calmEnv ⟨"test", some 50, "DOGE"⟩
        = (seedStore, betError "Unsupported currency") ∧
      (placeBet seedStore calmEnv ⟨"test", some (-5), "BTC"⟩).1 = seedStore ∧
      ∃ msg err, (placeBet seedStore calmEnv ⟨"test", some (-5), "BTC"⟩).2
        = [Emitted.unicast (Event.bet_error msg err)] :=
  ⟨(validation_errors_change_nothing seedStore calmEnv ⟨"test", some 50, "DOGE"⟩
      (Or.inl ⟨by decide, by decide⟩)).2 ⟨by decide, by decide⟩,
    (validation_errors_change_nothing seedStore calmEnv ⟨"test", some (-5), "BTC"⟩
      (Or.inr (Or.inr ⟨-5, rfl, by decide!⟩))).1⟩

/-! ## C13: cashouts that cannot be honoured -/

/-- C13: a `cashout` handled when no round is active, or when none of the requester's bets in
the active round has status `active`, is answered with one `error` event and leaves the store
(wallets, bets, transactions) unchanged. -/
theorem cashout_not_honoured_changes_nothing (s : Store) (env : Env) (req : CashoutPayload)
    (h : findActiveRound s.rounds = none ∨
      ∀ playerId player roundIdx round,
        findOnePlayer s.players req.username = some (playerId, player) →
        findActiveRound s.rounds = some (roundIdx, round) →
        ∀ b ∈ round.bets, b.player = playerId → b.status ≠ BetStatus.active) :
    (cashout s env req).1 = s ∧
      ∃ msg err, (cashout s env req).2 = [Emitted.unicast (Event.error msg err)] := by
  rcases cashout_cases s env req with ⟨msg, err, h1⟩ | ⟨plan, hc, _⟩
  · rw [h1]; exact ⟨rfl, msg, err, rfl⟩
  · exfalso
    rcases h with hnone | hno
    · have := hc.round_found
      rw [hnone] at this
      simp at this
    · have hb := findWithIndex_some _ _ _ _ hc.bet_found
      have hmem : plan.bet ∈ plan.round.bets := List.getElem?_mem hb.1
      have hprop := hb.2
      simp only [Bool.and_eq_true, beq_iff_eq] at hprop
      exact hno _ _ _ _ hc.player_found hc.round_found plan.bet hmem hprop.1 hprop.2

/-- Scenario C: after the crash has been committed (bet `lost`, round deactivated) a cashout is
refused and nothing changes. -/
theorem cashout_not_honoured_changes_nothing_witness :
    findActiveRound crashedStore.rounds = none ∧
      (cashout crashedStore calmEnv ⟨"test"⟩).1 = crashedStore ∧
      ∃ msg err, (cashout crashedStore calmEnv ⟨"test"⟩).2
        = [Emitted.unicast (Event.error msg err)] :=
  ⟨by decide!,
    cashout_not_honoured_changes_nothing crashedStore calmEnv ⟨"test"⟩ (Or.inl (by decide!))⟩

/-! ## C15: the ledger is append-only -/

/-- C15: after any request the transaction log is the old log followed by at most one new
entry. -/
theorem ledger_append_only (s : Store) (env : Env) (req : Request) :
    ∃ new, (handle s env req).1.transactions = s.transactions ++ new ∧ new.length ≤ 1 := by
  cases req with
  | place_bet payload =>
    simp only [handle]
    rcases placeBet_cases s env payload with ⟨msg, err, h⟩ | ⟨plan, _, h⟩
    · rw [h]; exact ⟨[], by simp, by simp⟩
    · rw [h]
      rcases placeBetCommit_cases s env payload plan with
        ⟨_, h1⟩ | ⟨_, h1⟩ | ⟨_, h1⟩ | ⟨_, _, _, h1⟩
      · rw [h1]; exact ⟨[], by simp, by simp⟩
      · rw [h1]; exact ⟨[], by simp [betStage1, savePlayer], by simp⟩
      · rw [h1]; exact ⟨[], by simp [betStage2, betStage1, saveRound, savePlayer], by simp⟩
      · rw [h1]; exact ⟨[betTransaction env payload plan], rfl, by simp⟩
  | cashout payload =>
    simp only [handle]
    rcases cashout_cases s env payload with ⟨msg, err, h⟩ | ⟨plan, _, h⟩
    · rw [h]; exact ⟨[], by simp, by simp⟩
    · rw [h]
      rcases cashoutCommit_cases s env payload plan with
        ⟨_, h1⟩ | ⟨_, h1⟩ | ⟨_, h1⟩ | ⟨_, _, _, h1⟩
      · rw [h1]; exact ⟨[], by simp, by simp⟩
      · rw [h1]; exact ⟨[], by simp [cashStage1, savePlayer], by simp⟩
      · rw [h1]; exact ⟨[], by simp [cashStage2, cashStage1, saveRound, savePlayer], by simp⟩
      · rw [h1]; exact ⟨[cashoutTransaction s env plan], rfl, by simp⟩

/-! ## C14: balances stay on the 8-decimal grid -/

/-- What the rounding with `toFixed(8)` gives: `place_bet` keeps balances with at most eight
decimals (its debit is rounded), the transaction a request appends carries a `crypto_amount`
with at most eight decimals, and a round's bets keep their `crypto_amount`s, except that
`place_bet` appends one bet whose `crypto_amount` has at most eight decimals. -/
theorem written_amounts_are_fixed8 (s : Store) (env : Env) (req : Request) :
    (∀ payload, req = Request.place_bet payload → FixedBalances s →
      FixedBalances (handle s env req).1) ∧
    (∃ new, (handle s env req).1.transactions = s.transactions ++ new ∧
      ∀ tx ∈ new, IsFixed8 tx.crypto_amount) ∧
    (∀ (k : Nat) (r : GameRound), s.rounds[k]? = some r →
      ∃ r1 : GameRound, (handle s env req).1.rounds[k]? = some r1 ∧
        (r1.bets.map Bet.crypto_amount = r.bets.map Bet.crypto_amount ∨
          ∃ b, r1.bets = r.bets ++ [b] ∧ IsFixed8 b.crypto_amount)) := by
  cases req with
  | place_bet payload =>
    simp only [handle]
    refine ⟨?_, ?_, ?_⟩
    · intro _ _ hfix
      rcases placeBet_players s env payload with h | ⟨plan, hc, h⟩
      · intro p hp w hw
        rw [h] at hp
        exact hfix p hp w hw
      · have hp := (findWithIndex_some _ _ _ _ hc.player_found).1
        exact fixedBalances_set s _ plan.playerId plan.player payload.currency _ hfix hp
          (isFixed8_toFixed _) h
    · rcases placeBet_cases s env payload with ⟨msg, err, h⟩ | ⟨plan, hc, h⟩
      · rw [h]; exact ⟨[], by simp, by simp⟩
      · rw [h]
        rcases placeBetCommit_cases s env payload plan with
          ⟨_, h1⟩ | ⟨_, h1⟩ | ⟨_, h1⟩ | ⟨_, _, _, h1⟩
        · rw [h1]; exact ⟨[], by simp, by simp⟩
        · rw [h1]; exact ⟨[], by simp [betStage1, savePlayer], by simp⟩
        · rw [h1]; exact ⟨[], by simp [betStage2, betStage1, saveRound, savePlayer], by simp⟩
        · rw [h1]
          refine ⟨[betTransaction env payload plan], rfl, ?_⟩
          intro tx htx
          rw [List.mem_singleton.mp htx]
          simp only [betTransaction]
          rw [hc.crypto_eq]
          exact isFixed8_toFixed _
    · intro k r hk
      rcases placeBet_round_at s env payload k r hk with h1 | ⟨plan, hc, _, _, h1⟩
      · exact ⟨r, h1, Or.inl rfl⟩
      · refine ⟨_, h1, Or.inr ⟨newBet payload plan, rfl, ?_⟩⟩
        simp only [newBet]
        rw [hc.crypto_eq]
        exact isFixed8_toFixed _
  | cashout payload =>
    simp only [handle]
    refine ⟨?_, ?_, ?_⟩
    · intro _ hreq
      cases hreq
    · rcases cashout_cases s env payload with ⟨msg, err, h⟩ | ⟨plan, hc, h⟩
      · rw [h]; exact ⟨[], by simp, by simp⟩
      · rw [h]
        rcases cashoutCommit_cases s env payload plan with
          ⟨_, h1⟩ | ⟨_, h1⟩ | ⟨_, h1⟩ | ⟨_, _, _, h1⟩
        · rw [h1]; exact ⟨[], by simp, by simp⟩
        · rw [h1]; exact ⟨[], by simp [cashStage1, savePlayer], by simp⟩
        · rw [h1]; exact ⟨[], by simp [cashStage2, cashStage1, saveRound, savePlayer], by simp⟩
        · rw [h1]
          refine ⟨[cashoutTransaction s env plan], rfl, ?_⟩
          intro tx htx
          rw [List.mem_singleton.mp htx]
          exact isFixed8_toFixed _
    · intro k r hk
      rcases cashout_round_at s env payload k r hk with h1 | ⟨plan, hc, _, hpr, h1⟩
      · exact ⟨r, h1, Or.inl rfl⟩
      · refine ⟨_, h1, Or.inl ?_⟩
        have hb := (findWithIndex_some _ _ _ _ hc.bet_found).1
        rw [hpr] at hb
        simp only
        rw [List.map_set]
        apply set_of_getElem?
        simp [hb, cashedOutBet]

/-- C14, failing input: the seeded player `test` (0.1 BTC) bets 1 USD at 50,000 USD per BTC
and cashes out at the multiplier 1.05; no operation rejects and both requests are committed.
Before the cashout every balance stands for a number with at most eight decimals (the debit of
line 66 is rounded with `toFixed(8)` and has stored 0.09998), and the payout is 0.000021 BTC.
The credit of line 145 adds the payout without rounding, and the binary64 sum of 0.09998 and
0.000021 is not the binary64 value of 0.100001 but the one below it (printed
0.10000099999999999): after the cashout the BTC balance is not a number with eight decimals.
Rounded as the debit is, the sum would be 0.100001. -/
theorem credit_leaves_fixed8_grid :
    FixedBalancesDouble seedStoreDouble ∧
      (handleWith doubleArithmetic seedStoreDouble calmEnv
          (Request.place_bet ⟨"test", some 1, "BTC"⟩)).2 =
        [Emitted.unicast (Event.bet_placed "test" 1 (roundDouble (2000 / 10 ^ 8)) "BTC" 1),
         Emitted.broadcast (Event.player_bet "test" 1 "BTC" 1)] ∧
      FixedBalancesDouble oneDollarBetStore ∧
      balanceOf oneDollarBetStore 0 "BTC" = some (roundDouble (9998000 / 10 ^ 8)) ∧
      oneDollarBetStore.currentMultiplier = roundDouble (105 / 100) ∧
      (handleWith doubleArithmetic oneDollarBetStore calmEnv (Request.cashout ⟨"test"⟩)).2 =
        [Emitted.broadcast (Event.player_cashout "test" "BTC" (roundDouble (2100 / 10 ^ 8))
          (roundDouble (105 / 100)) (roundDouble (105 / 100)))] ∧
      IsFixed8Double (roundDouble (2100 / 10 ^ 8)) ∧
      balanceOf oneDollarCashedStore 0 "BTC" = some (7205831461386831 / 2 ^ 56) ∧
      ¬ IsFixed8Double (7205831461386831 / 2 ^ 56) ∧
      ¬ FixedBalancesDouble oneDollarCashedStore ∧
      (7205831461386831 / 2 ^ 56 : ℚ) < roundDouble (10000100 / 10 ^ 8) ∧
      (10000099999999998 : ℚ) / 10 ^ 17 < 7205831461386831 / 2 ^ 56 ∧
      (7205831461386831 / 2 ^ 56 : ℚ) < 10000100 / 10 ^ 8 ∧
      toFixedDouble 8 (7205831461386831 / 2 ^ 56) = roundDouble (10000100 / 10 ^ 8) ∧
      IsFixed8Double (roundDouble (10000100 / 10 ^ 8)) := by
  decide!

/-! ## C16: every request is answered -/

theorem placeBetCheck_error_message (s : Store) (env : Env) (req : PlaceBetPayload)
    (events : List Emitted) (h : placeBetCheck s env req = Except.error events) :
    ∃ msg err, msg ≠ "" ∧ events = [Emitted.unicast (Event.bet_error msg err)] := by
  unfold placeBetCheck at h
  by_cases h1 : (!(supportedCurrencies.contains req.currency)) = true
  · rw [if_pos h1] at h; cases h; exact ⟨_, _, by decide, rfl⟩
  rw [if_neg h1] at h
  by_cases h2 : env.failure = some Await.findPlayer
  · rw [if_pos h2] at h; cases h; exact ⟨_, _, by decide, rfl⟩
  rw [if_neg h2] at h
  cases hp : findOnePlayer s.players req.username with
  | none => rw [hp] at h; cases h; exact ⟨_, _, by decide, rfl⟩
  | some ip =>
    obtain ⟨playerId, player⟩ := ip
    rw [hp] at h
    dsimp only at h
    by_cases h3 : env.failure = some Await.findRound
    · rw [if_pos h3] at h; cases h; exact ⟨_, _, by decide, rfl⟩
    rw [if_neg h3] at h
    cases hr : findActiveRound s.rounds with
    | none => rw [hr] at h; cases h; exact ⟨_, _, by decide, rfl⟩
    | some kr =>
      obtain ⟨roundIdx, round⟩ := kr
      rw [hr] at h
      dsimp only at h
      by_cases h4 : (round.bets.any fun b => b.player == playerId) = true
      · rw [if_pos h4] at h; cases h; exact ⟨_, _, by decide, rfl⟩
      rw [if_neg h4] at h
      by_cases h5 : env.failure = some Await.getCryptoPrice
      · rw [if_pos h5] at h; cases h; exact ⟨_, _, by decide, rfl⟩
      rw [if_neg h5] at h
      cases hu : req.usd_amount with
      | none => rw [hu] at h; cases h; exact ⟨_, _, by decide, rfl⟩
      | some usd =>
        rw [hu] at h
        dsimp only at h
        by_cases h6 : priceFor env req.currency = 0 ∨ usd ≤ 0
        · rw [if_pos h6] at h; cases h; exact ⟨_, _, by decide, rfl⟩
        rw [if_neg h6] at h
        by_cases h7 : toFixed 8 (usd / priceFor env req.currency) = 0
        · rw [if_pos h7] at h; cases h; exact ⟨_, _, by decide, rfl⟩
        rw [if_neg h7] at h
        cases hw : findWallet player.wallets req.currency with
        | none => rw [hw] at h; cases h; exact ⟨_, _, by decide, rfl⟩
        | some wallet =>
          rw [hw] at h
          dsimp only at h
          by_cases h8 : wallet.balance < toFixed 8 (usd / priceFor env req.currency)
          · rw [if_pos h8] at h; cases h; exact ⟨_, _, by decide, rfl⟩
          · rw [if_neg h8] at h; cases h

theorem cashoutCheck_error_message (s : Store) (env : Env) (req : CashoutPayload)
    (events : List Emitted) (h : cashoutCheck s env req = Except.error events) :
    ∃ msg err, msg ≠ "" ∧ events = [Emitted.unicast (Event.error msg err)] := by
  unfold cashoutCheck at h
  by_cases h2 : env.failure = some Await.findPlayer
  · rw [if_pos h2] at h; cases h; exact ⟨_, _, by decide, rfl⟩
  rw [if_neg h2] at h
  cases hp : findOnePlayer s.players req.username with
  | none => rw [hp] at h; cases h; exact ⟨_, _, by decide, rfl⟩
  | some ip =>
    obtain ⟨playerId, player⟩ := ip
    rw [hp] at h
    dsimp only at h
    by_cases h3 : env.failure = some Await.findRound
    · rw [if_pos h3] at h; cases h; exact ⟨_, _, by decide, rfl⟩
    rw [if_neg h3] at h
    cases hr : findActiveRound s.rounds with
    | none => rw [hr] at h; cases h; exact ⟨_, _, by decide, rfl⟩
    | some kr =>
      obtain ⟨roundIdx, round⟩ := kr
      rw [hr] at h
      dsimp only at h
      cases hb : findActiveBet round.bets playerId with
      | none => rw [hb] at h; cases h; exact ⟨_, _, by decide, rfl⟩
      | some jb =>
        obtain ⟨betIdx, bet⟩ := jb
        rw [hb] at h
        dsimp only at h
        cases hw : findWallet player.wallets bet.currency with
        | none => rw [hw] at h; cases h; exact ⟨_, _, by decide, rfl⟩
        | some wallet => rw [hw] at h; cases h

/-- Once the body of a handler runs, that is, for a message whose argument is an object, the
request is answered: `place_bet` sends exactly one unicast, a `bet_error` with a non-empty
message or `bet_placed` once all three writes are done; `cashout` either commits (all three
writes, `player_cashout` broadcast) or sends exactly one unicast `error` with a non-empty
message.  This covers the `catch` blocks, whichever awaited operation rejects. -/
theorem every_request_is_answered (s : Store) (env : Env) :
    (∀ req : PlaceBetPayload,
      (unicasts (placeBet s env req).2).length = 1 ∧
      ((∃ msg err, msg ≠ "" ∧
          (placeBet s env req).2 = [Emitted.unicast (Event.bet_error msg err)]) ∨
        (∃ plan, BetChecked s env req plan ∧
          (placeBet s env req).1 = betStage3 s env req plan ∧
          (placeBet s env req).2 =
            [Emitted.unicast (Event.bet_placed req.username plan.cleanUsdAmount
                plan.cryptoAmount req.currency plan.round.round_id),
             Emitted.broadcast (Event.player_bet req.username plan.cleanUsdAmount
                req.currency plan.round.round_id)]))) ∧
    (∀ req : CashoutPayload,
      (∃ plan, CashoutChecked s req plan ∧ (cashout s env req).1 = cashStage3 s env plan ∧
        (cashout s env req).2 =
          [Emitted.broadcast (Event.player_cashout req.username plan.bet.currency
            (payoutCrypto s plan) (usdPayout s plan) s.currentMultiplier)]) ∨
      (∃ msg err, msg ≠ "" ∧
        (cashout s env req).2 = [Emitted.unicast (Event.error msg err)] ∧
        (unicasts (cashout s env req).2).length = 1)) := by
  constructor
  · intro req
    have key : (∃ msg err, msg ≠ "" ∧
          (placeBet s env req).2 = [Emitted.unicast (Event.bet_error msg err)]) ∨
        (∃ plan, BetChecked s env req plan ∧
          (placeBet s env req).1 = betStage3 s env req plan ∧
          (placeBet s env req).2 = betPlacedEvents req plan) := by
      unfold placeBet
      cases hcheck : placeBetCheck s env req with
      | error events =>
        obtain ⟨msg, err, hne, hev⟩ := placeBetCheck_error_message s env req events hcheck
        exact Or.inl ⟨msg, err, hne, hev⟩
      | ok plan =>
        have hc : BetChecked s env req plan := by
          rcases placeBetCheck_cases s env req with ⟨_, _, h⟩ | ⟨plan1, h, hc⟩
          · rw [hcheck] at h; cases h
          · rw [hcheck] at h; cases h; exact hc
        dsimp only
        rcases placeBetCommit_cases s env req plan with
          ⟨_, h1⟩ | ⟨_, h1⟩ | ⟨_, h1⟩ | ⟨_, _, _, h1⟩
        · rw [h1]; exact Or.inl ⟨_, _, by decide, rfl⟩
        · rw [h1]; exact Or.inl ⟨_, _, by decide, rfl⟩
        · rw [h1]; exact Or.inl ⟨_, _, by decide, rfl⟩
        · rw [h1]; exact Or.inr ⟨plan, hc, rfl, rfl⟩
    rcases key with ⟨msg, err, hne, hev⟩ | ⟨plan, hc, hst, hev⟩
    · exact ⟨by rw [hev]; rfl, Or.inl ⟨msg, err, hne, hev⟩⟩
    · exact ⟨by rw [hev]; rfl, Or.inr ⟨plan, hc, hst, hev⟩⟩
  · intro req
    unfold cashout
    cases hcheck : cashoutCheck s env req with
    | error events =>
      obtain ⟨msg, err, hne, hev⟩ := cashoutCheck_error_message s env req events hcheck
      exact Or.inr ⟨msg, err, hne, hev, by rw [hev]; rfl⟩
    | ok plan =>
      have hc : CashoutChecked s req plan := by
        rcases cashoutCheck_cases s env req with ⟨_, _, h⟩ | ⟨plan1, h, hc⟩
        · rw [hcheck] at h; cases h
        · rw [hcheck] at h; cases h; exact hc
      dsimp only
      rcases cashoutCommit_cases s env req plan with
        ⟨_, h1⟩ | ⟨_, h1⟩ | ⟨_, h1⟩ | ⟨_, _, _, h1⟩
      · rw [h1]; exact Or.inr ⟨_, _, by decide, rfl, rfl⟩
      · rw [h1]; exact Or.inr ⟨_, _, by decide, rfl, rfl⟩
      · rw [h1]; exact Or.inr ⟨_, _, by decide, rfl, rfl⟩
      · rw [h1]; exact Or.inl ⟨plan, hc, rfl, rfl⟩

/-- A bet in ETH by a player without ETH wallet is answered "Insufficient balance"; a cashout
of an ETH bet by that player raises inside the handler and is answered "Cashout failed". -/
theorem every_request_is_answered_witness :
    placeBet soloStore calmEnv ⟨"solo", some 30, "ETH"⟩
        = (soloStore, betError "Insufficient balance") ∧
      cashout soloEthBetStore typeErrorEnv ⟨"solo"⟩
        = (soloEthBetStore, cashoutFailed typeErrorEnv) ∧
      (unicasts (placeBet soloStore calmEnv ⟨"solo", some 30, "ETH"⟩).2).length = 1 :=
  ⟨by decide!, by decide!,
    ((every_request_is_answered soloStore calmEnv).1 ⟨"solo", some 30, "ETH"⟩).1⟩

/-- C16, failing input: a client sends `cashout` or `place_bet` without an argument (or with
`null`).  The parameter pattern of the listener throws before the `try` block is entered, so
the `catch` block that answers every other exception does not run: nothing is emitted and the
store is unchanged, the request is silent.  The same `place_bet` with an object naming an
unknown player is answered "Player not found". -/
theorem message_without_object_is_silent :
    listen scenarioA calmEnv (Message.cashout Argument.undefined) = (scenarioA, []) ∧
      listen scenarioA calmEnv (Message.cashout Argument.null) = (scenarioA, []) ∧
      listen seedStore calmEnv (Message.place_bet Argument.undefined) = (seedStore, []) ∧
      listen seedStore calmEnv (Message.place_bet Argument.null) = (seedStore, []) ∧
      unicasts (listen scenarioA calmEnv (Message.cashout Argument.undefined)).2 = [] ∧
      unicasts (listen seedStore calmEnv (Message.place_bet Argument.undefined)).2 = [] ∧
      listen seedStore calmEnv (Message.place_bet (Argument.object ⟨"nobody", some 50, "BTC"⟩))
        = (seedStore, betError "Player not found") ∧
      listen scenarioA calmEnv (Message.cashout (Argument.object ⟨"nobody"⟩))
        = (scenarioA, cashoutError "Player not found") := by
  decide!

/-! ## C17: the multiplier of a cashout -/

theorem handle_currentMultiplier (s : Store) (env : Env) (req : Request) :
    (handle s env req).1.currentMultiplier = s.currentMultiplier := by
  cases req with
  | place_bet payload =>
    simp only [handle]
    rcases placeBet_cases s env payload with ⟨msg, err, h⟩ | ⟨plan, _, h⟩
    · rw [h]
    · rw [h]
      rcases placeBetCommit_cases s env payload plan with
        ⟨_, h1⟩ | ⟨_, h1⟩ | ⟨_, h1⟩ | ⟨_, _, _, h1⟩ <;> rw [h1] <;> rfl
  | cashout payload =>
    simp only [handle]
    rcases cashout_cases s env payload with ⟨msg, err, h⟩ | ⟨plan, _, h⟩
    · rw [h]
    · rw [h]
      rcases cashoutCommit_cases s env payload plan with
        ⟨_, h1⟩ | ⟨_, h1⟩ | ⟨_, h1⟩ | ⟨_, _, _, h1⟩ <;> rw [h1] <;> rfl

theorem run_currentMultiplier (steps : List Step) :
    ∀ s : Store, (run s steps).currentMultiplier
      = (lastInstalled steps).getD s.currentMultiplier := by
  induction steps with
  | nil => intro s; rfl
  | cons st steps ih =>
    intro s
    rw [run_cons, ih]
    cases st with
    | multiplier m => rfl
    | request env req =>
      show (lastInstalled steps).getD (handle s env req).1.currentMultiplier = _
      rw [handle_currentMultiplier]
      rfl

/-- C17: a cashout depends on the message only through `username`; the multiplier reported and
used by a committed cashout is the server's `currentMultiplier`; no request changes that
variable; and after any sequence of steps it holds the value of the last `setLiveMultiplier`,
or the value it had before (1 after start-up) when there was none. -/
theorem cashout_multiplier_is_server_side (s : Store) (env : Env) :
    (∀ m1 m2 : CashoutMessage, m1.username = m2.username →
      onCashout s env m1 = onCashout s env m2) ∧
    (∀ (message : CashoutMessage) (u cur : String) (payout usd m : ℚ),
      (onCashout s env message).2 =
        [Emitted.broadcast (Event.player_cashout u cur payout usd m)] →
      m = s.currentMultiplier ∧
        ∃ plan, CashoutChecked s (destructureCashout message) plan ∧
          payout = toFixed 8 (plan.bet.crypto_amount * s.currentMultiplier)) ∧
    (∀ req, (handle s env req).1.currentMultiplier = s.currentMultiplier) ∧
    (∀ steps, (run s steps).currentMultiplier
      = (lastInstalled steps).getD s.currentMultiplier) ∧
    (s.currentMultiplier = initialMultiplier →
      ∀ steps, (run s steps).currentMultiplier = (lastInstalled steps).getD 1) := by
  refine ⟨?_, ?_, handle_currentMultiplier s env, fun steps => run_currentMultiplier steps s,
    ?_⟩
  · intro m1 m2 h
    unfold onCashout destructureCashout
    rw [h]
  · intro message u cur payout usd m h
    unfold onCashout at h
    obtain ⟨plan, hc, hres⟩ := cashout_committed s env _ _ h
    rw [hres] at h
    simp only [cashoutEvents, List.cons.injEq, Emitted.broadcast.injEq,
      Event.player_cashout.injEq, and_true] at h
    obtain ⟨_, _, hpay, _, hm⟩ := h
    exact ⟨hm.symm, plan, hc, hpay.symm⟩
  · intro hinit steps
    rw [run_currentMultiplier steps s, hinit]
    rfl

/-- In Scenario A a message claiming the multiplier 100 is handled exactly as a plain one: the
cashout pays at the server's multiplier 2. -/
theorem cashout_multiplier_is_server_side_witness :
    onCashout scenarioA calmEnv greedyMessage = onCashout scenarioA calmEnv plainMessage ∧
      (onCashout scenarioA calmEnv greedyMessage).2 =
        [Emitted.broadcast (Event.player_cashout "test" "BTC" (2 / 1000) 100 2)] ∧
      (run seedStore scenarioASteps).currentMultiplier = 2 :=
  ⟨(cashout_multiplier_is_server_side scenarioA calmEnv).1 greedyMessage plainMessage rfl,
    by decide!, by decide!⟩

/-! ## C18: two `place_bet` handlers of one player -/

/-- An accepted `place_bet` passed its checks and none of its writes rejected. -/
theorem placeBet_accepted_inv (s : Store) (env : Env) (req : PlaceBetPayload) (u cur : String)
    (usd crypto : ℚ) (rid : Nat)
    (h : Emitted.unicast (Event.bet_placed u usd crypto cur rid) ∈ (placeBet s env req).2) :
    ∃ plan, placeBetCheck s env req = Except.ok plan ∧ BetChecked s env req plan ∧
      env.failure ≠ some Await.savePlayer ∧ env.failure ≠ some Await.saveRound ∧
      env.failure ≠ some Await.createTransaction ∧ crypto = plan.cryptoAmount := by
  unfold placeBet at h
  rcases placeBetCheck_cases s env req with ⟨msg, err, hcheck⟩ | ⟨plan, hcheck, hc⟩
  · rw [hcheck] at h; simp at h
  · rw [hcheck] at h
    dsimp only at h
    rcases placeBetCommit_cases s env req plan with
      ⟨_, h1⟩ | ⟨_, h1⟩ | ⟨_, h1⟩ | ⟨hf1, hf2, hf3, h1⟩
    · rw [h1] at h; simp [betFailed] at h
    · rw [h1] at h; simp [betFailed] at h
    · rw [h1] at h; simp [betFailed] at h
    · rw [h1] at h
      simp only [betPlacedEvents, List.mem_cons, Emitted.unicast.injEq, Event.bet_placed.injEq,
        List.mem_singleton, reduceCtorEq, or_false, List.not_mem_nil] at h
      exact ⟨plan, hcheck, hc, hf1, hf2, hf3, h.2.2.1⟩

theorem placeBetCommit_success (s : Store) (env : Env) (req : PlaceBetPayload) (plan : BetPlan)
    (hf1 : env.failure ≠ some Await.savePlayer) (hf2 : env.failure ≠ some Await.saveRound)
    (hf3 : env.failure ≠ some Await.createTransaction) :
    placeBetCommit s env req plan = (betStage3 s env req plan, betPlacedEvents req plan) := by
  rcases placeBetCommit_cases s env req plan with ⟨hf, _⟩ | ⟨hf, _⟩ | ⟨hf, _⟩ | ⟨_, _, _, h1⟩
  · exact absurd hf hf1
  · exact absurd hf hf2
  · exact absurd hf hf3
  · exact h1

/-- Handled after a committed bet of the same player, a `place_bet` is refused. -/
theorem second_place_bet_rejected (s : Store) (env1 env2 : Env) (req1 req2 : PlaceBetPayload)
    (u cur : String) (usd crypto : ℚ) (rid : Nat)
    (h : Emitted.unicast (Event.bet_placed u usd crypto cur rid) ∈ (placeBet s env1 req1).2)
    (hsame : req1.username = req2.username) :
    (placeBet (placeBet s env1 req1).1 env2 req2).1 = (placeBet s env1 req1).1 ∧
      ∃ msg err, (placeBet (placeBet s env1 req1).1 env2 req2).2 =
        [Emitted.unicast (Event.bet_error msg err)] := by
  obtain ⟨plan, hc, hres⟩ := placeBet_committed s env1 req1 u cur usd crypto rid h
  rw [hres]
  rcases placeBet_cases (betStage3 s env1 req1 plan) env2 req2 with
    ⟨msg, err, h1⟩ | ⟨plan2, hc2, _⟩
  · rw [h1]; exact ⟨rfl, msg, err, rfl⟩
  · exfalso
    have hp := findWithIndex_some _ _ _ _ hc.player_found
    have hr := findWithIndex_some _ _ _ _ hc.round_found
    have hp2 : findOnePlayer (betStage3 s env1 req1 plan).players req2.username =
        some (plan.playerId, debitedPlayer req1 plan) := by
      rw [← hsame]
      exact findWithIndex_set _ _ _ _ _ hc.player_found hp.2
    have hr2 : findActiveRound (betStage3 s env1 req1 plan).rounds =
        some (plan.roundIdx, { plan.round with
          bets := plan.round.bets ++ [newBet req1 plan] }) :=
      findWithIndex_set _ _ _ _ _ hc.round_found hr.2
    have e1 := hc2.player_found
    rw [hp2] at e1
    have e2 := hc2.round_found
    rw [hr2] at e2
    simp only [Option.some.injEq, Prod.mk.injEq] at e1 e2
    have hno := hc2.no_bet_yet
    rw [← e2.2, ← e1.1] at hno
    simp [newBet] at hno

/-- C18 (as amended): when both handlers have read the round before either saves it, each
passes the existing-bet check on its own snapshot, so two requests that would each be accepted
alone are both accepted: both get `bet_placed`, two `bet` transactions are written, and for
requests of one player in one currency the wallet ends debited once only, by the amount of
the handler that saved last.  Exactly one acceptance and one rejection is what happens when
the second request is handled after the first has been committed. -/
theorem interleaved_place_bets (s : Store) (env1 env2 : Env) (req1 req2 : PlaceBetPayload)
    (u1 cur1 u2 cur2 : String) (usd1 crypto1 usd2 crypto2 : ℚ) (rid1 rid2 : Nat)
    (h1 : Emitted.unicast (Event.bet_placed u1 usd1 crypto1 cur1 rid1)
      ∈ (placeBet s env1 req1).2)
    (h2 : Emitted.unicast (Event.bet_placed u2 usd2 crypto2 cur2 rid2)
      ∈ (placeBet s env2 req2).2) :
    (placeBetInterleaved s env1 env2 req1 req2).2.1 = (placeBet s env1 req1).2 ∧
    (placeBetInterleaved s env1 env2 req1 req2).2.2 = (placeBet s env2 req2).2 ∧
    (∃ tx1 tx2, (placeBetInterleaved s env1 env2 req1 req2).1.transactions
        = s.transactions ++ [tx1, tx2] ∧
      tx1.transaction_type = TransactionType.bet ∧ tx1.crypto_amount = crypto1 ∧
      tx2.transaction_type = TransactionType.bet ∧ tx2.crypto_amount = crypto2) ∧
    (req1.username = req2.username → req1.currency = req2.currency →
      ∃ playerId old, balanceOf s playerId req2.currency = some old ∧
        balanceOf (placeBetInterleaved s env1 env2 req1 req2).1 playerId req2.currency
          = some (toFixed 8 (old - crypto2))) ∧
    (req1.username = req2.username →
      (placeBet (placeBet s env1 req1).1 env2 req2).1 = (placeBet s env1 req1).1 ∧
        ∃ msg err, (placeBet (placeBet s env1 req1).1 env2 req2).2 =
          [Emitted.unicast (Event.bet_error msg err)]) := by
  obtain ⟨plan1, hcheck1, hc1, hf11, hf12, hf13, hcr1⟩ :=
    placeBet_accepted_inv s env1 req1 u1 cur1 usd1 crypto1 rid1 h1
  obtain ⟨plan2, hcheck2, hc2, hf21, hf22, hf23, hcr2⟩ :=
    placeBet_accepted_inv s env2 req2 u2 cur2 usd2 crypto2 rid2 h2
  have hA : placeBet s env1 req1 = (betStage3 s env1 req1 plan1, betPlacedEvents req1 plan1) := by
    unfold placeBet
    rw [hcheck1]
    exact placeBetCommit_success s env1 req1 plan1 hf11 hf12 hf13
  have hB : placeBet s env2 req2 = (betStage3 s env2 req2 plan2, betPlacedEvents req2 plan2) := by
    unfold placeBet
    rw [hcheck2]
    exact placeBetCommit_success s env2 req2 plan2 hf21 hf22 hf23
  have hI : placeBetInterleaved s env1 env2 req1 req2 =
      (betStage3 (betStage3 s env1 req1 plan1) env2 req2 plan2,
        betPlacedEvents req1 plan1, betPlacedEvents req2 plan2) := by
    unfold placeBetInterleaved
    rw [hcheck1, hcheck2]
    simp only [placeBetFinish]
    rw [placeBetCommit_success s env1 req1 plan1 hf11 hf12 hf13]
    simp only
    rw [placeBetCommit_success _ env2 req2 plan2 hf21 hf22 hf23]
  rw [hI, hA, hB]
  refine ⟨rfl, rfl, ?_, ?_, ?_⟩
  · refine ⟨betTransaction env1 req1 plan1, betTransaction env2 req2 plan2, ?_, rfl, hcr1.symm,
      rfl, hcr2.symm⟩
    simp [betStage3, betStage2, betStage1, createTransaction, saveRound, savePlayer]
  · intro hu _
    have e := hc1.player_found
    rw [hu, hc2.player_found] at e
    simp only [Option.some.injEq, Prod.mk.injEq] at e
    have hp := (findWithIndex_some _ _ _ _ hc2.player_found).1
    have hpl : (betStage3 (betStage3 s env1 req1 plan1) env2 req2 plan2).players =
        s.players.set plan2.playerId
          { plan2.player with
            wallets := setWalletBalance req2.currency
              (toFixed 8 (plan2.wallet.balance - plan2.cryptoAmount)) plan2.player.wallets } := by
      simp only [betStage3, betStage2, betStage1, createTransaction, saveRound, savePlayer]
      rw [← e.1, List.set_set]
      rfl
    refine ⟨plan2.playerId, plan2.wallet.balance, ?_, ?_⟩
    · rw [balanceOf_of_players s _ _ _ hp, hc2.wallet_found]; rfl
    · rw [balanceOf_after_save s _ _ _ _ _ _ hp hc2.wallet_found hpl, hcr2]
      simp
  · intro hu
    have := second_place_bet_rejected s env1 env2 req1 req2 u1 cur1 usd1 crypto1 rid1 h1 hu
    rw [hA] at this
    exact this

/-- Two bets of Scenario A by `test`, handled one after the other: the second is refused. -/
theorem interleaved_place_bets_witness :
    Emitted.unicast (Event.bet_placed "test" 50 (1 / 1000) "BTC" 1)
        ∈ (placeBet seedStore calmEnv scenarioARequest).2 ∧
      (placeBet (placeBet seedStore calmEnv scenarioARequest).1 calmEnv scenarioARequest).1
        = (placeBet seedStore calmEnv scenarioARequest).1 ∧
      ∃ msg err,
        (placeBet (placeBet seedStore calmEnv scenarioARequest).1 calmEnv scenarioARequest).2
          = [Emitted.unicast (Event.bet_error msg err)] :=
  ⟨by decide!,
    (interleaved_place_bets seedStore calmEnv calmEnv scenarioARequest scenarioARequest
      "test" "BTC" "test" "BTC" 50 (1 / 1000) 50 (1 / 1000) 1 1 (by decide!) (by decide!)).2.2.2.2
      rfl⟩

/-- C18, counterexample: two bets of Scenario A by `test`, both reading the round before
either saves it: both are answered with `bet_placed`, none with `bet_error`, two transactions
are written, and the balance went from 0.1 to 0.099 BTC only. -/
theorem interleaved_bets_both_accepted :
    (placeBetInterleaved seedStore calmEnv calmEnv scenarioARequest scenarioARequest).2.1 =
        [Emitted.unicast (Event.bet_placed "test" 50 (1 / 1000) "BTC" 1),
         Emitted.broadcast (Event.player_bet "test" 50 "BTC" 1)] ∧
      (placeBetInterleaved seedStore calmEnv calmEnv scenarioARequest scenarioARequest).2.2 =
        [Emitted.unicast (Event.bet_placed "test" 50 (1 / 1000) "BTC" 1),
         Emitted.broadcast (Event.player_bet "test" 50 "BTC" 1)] ∧
      (placeBetInterleaved seedStore calmEnv calmEnv scenarioARequest
        scenarioARequest).1.transactions.length = 2 ∧
      balanceOf seedStore 0 "BTC" = some (100 / 1000) ∧
      balanceOf (placeBetInterleaved seedStore calmEnv calmEnv scenarioARequest
        scenarioARequest).1 0 "BTC" = some (99 / 1000) := by
  decide!

/-! ## C19: masking in `verify-env.js` -/

theorem includes_iff (value part : String) :
    includes value part = true ↔ part.data <:+: value.data := by
  unfold includes
  rw [List.any_eq_true, List.infix_iff_prefix_suffix]
  constructor
  · rintro ⟨t, ht, hp⟩
    exact ⟨t, List.isPrefixOf_iff_prefix.mp hp, (List.mem_tails t _).mp ht⟩
  · rintro ⟨t, hp, ht⟩
    exact ⟨t, (List.mem_tails t _).mpr ht, List.isPrefixOf_iff_prefix.mpr hp⟩

/-- A value of at most ten characters is the beginning of its masked form. -/
theorem mask_of_short (value : String) (h : value.length ≤ 10) :
    value.data <+: (mask value).data := by
  have hlen : value.data.length ≤ 10 := h
  have hsub : substring value 0 10 = value := by
    unfold substring
    have hl : (value.length : Int) = (value.data.length : Int) := rfl
    have h1 : min (10 : Int) (value.length : Int) = (value.data.length : Int) := by
      rw [hl]; omega
    have h0 : min (0 : Int) (value.length : Int) = 0 := by
      rw [hl]; omega
    simp only [h1, h0]
    have e1 : max (0 : Int) 0 = 0 := rfl
    have e2 : max (0 : Int) (value.data.length : Int) = (value.data.length : Int) := by omega
    have e3 : min (0 : Int) (value.data.length : Int) = 0 := by omega
    rw [e1, e2, e3, e2]
    show String.mk (List.take value.data.length (value.data.drop 0)) = value
    rw [List.drop_zero, List.take_length]
  unfold mask
  rw [hsub]
  simp only [String.data_append]
  exact ⟨_, (List.append_assoc _ _ _).symm⟩

/-- C19, evaluation at the failing input: with `API_KEY=abc123` every variable passes the
validation (exit code 0) and the line printed for the key is `✅ API_KEY: abc123...c123`,
which contains the complete key. -/
theorem short_secret_is_printed_in_full :
    (validate shortKeyEnv).hasErrors = false ∧ exitCode shortKeyInput = 0 ∧
      shownValue "API_KEY" "abc123" = "abc123...c123" ∧
      "✅ API_KEY: abc123...c123" ∈ (validate shortKeyEnv).output ∧
      includes (shownValue "API_KEY" "abc123") "abc123" = true := by
  decide!

/-! ## C20: when the validation fails -/

theorem verifyVariable_hasErrors (env : ProcessEnv) (report : Report) (varName : String) :
    (verifyVariable env report varName).hasErrors = true ↔
      report.hasErrors = true ∨ Unusable env varName := by
  unfold verifyVariable Unusable
  cases hv : env varName with
  | none => simp
  | some value =>
    by_cases he : value = ""
    · simp [he]
    · by_cases hp : (placeholders.any fun placeholder => includes value placeholder) = true
      · simp only [he, if_false, hp, if_true, true_iff]
        right; right; right
        obtain ⟨p, hpm, hinc⟩ := List.any_eq_true.mp hp
        exact ⟨value, rfl, p, hpm, (includes_iff value p).mp hinc⟩
      · simp only [he, if_false, hp, Bool.false_eq_true]
        constructor
        · intro h; exact Or.inl h
        · rintro (h | h | h | ⟨v, hv1, p, hpm, hinf⟩)
          · exact h
          · simp at h
          · simp only [Option.some.injEq] at h; exact absurd h he
          · exfalso
            simp only [Option.some.injEq] at hv1
            subst hv1
            exact hp (List.any_eq_true.mpr ⟨p, hpm, (includes_iff _ p).mpr hinf⟩)

theorem foldl_verifyVariable_hasErrors (env : ProcessEnv) (names : List String) :
    ∀ report : Report, (names.foldl (verifyVariable env) report).hasErrors = true ↔
      report.hasErrors = true ∨ ∃ varName ∈ names, Unusable env varName := by
  induction names with
  | nil => intro report; simp
  | cons name names ih =>
    intro report
    rw [List.foldl_cons, ih, verifyVariable_hasErrors]
    constructor
    · rintro ((h | h) | ⟨v, hv, hu⟩)
      · exact Or.inl h
      · exact Or.inr ⟨name, List.mem_cons_self _ _, h⟩
      · exact Or.inr ⟨v, List.mem_cons_of_mem _ hv, hu⟩
    · rintro (h | ⟨v, hv, hu⟩)
      · exact Or.inl (Or.inl h)
      · rcases List.mem_cons.mp hv with rfl | hv
        · exact Or.inl (Or.inr hu)
        · exact Or.inr ⟨v, hv, hu⟩

/-- C20: once a configuration is loaded, `hasErrors` is true, and the exit code is 1, exactly
when one of `MONGO_URI`, `API_KEY`, `PORT`, `FRONTEND_URL` is unset, empty, or holds one of the
three placeholder strings as a contiguous piece; otherwise the exit code is 0. -/
theorem validation_fails_iff_unusable (input : ScriptInput) (env : ProcessEnv)
    (h : loadConfiguration input = some env) :
    ((validate env).hasErrors = true ↔ ∃ varName ∈ required, Unusable env varName) ∧
    (exitCode input = 1 ↔ ∃ varName ∈ required, Unusable env varName) ∧
    (exitCode input ≠ 1 → exitCode input = 0) := by
  have hval : (validate env).hasErrors = true ↔ ∃ varName ∈ required, Unusable env varName := by
    unfold validate
    rw [foldl_verifyVariable_hasErrors]
    simp
  refine ⟨hval, ?_, ?_⟩
  · unfold exitCode
    rw [h]
    dsimp only
    rw [← hval]
    by_cases he : (validate env).hasErrors = true
    · simp [he]
    · simp [he]
  · unfold exitCode
    rw [h]
    dsimp only
    by_cases he : (validate env).hasErrors = true
    · simp [he]
    · simp [he]

/-- With `PORT` unset in the `.env` file the script exits with code 1; with the four variables
of `shortKeyEnv` it exits with code 0. -/
theorem validation_fails_iff_unusable_witness :
    exitCode { envFileExists := true, processEnv := fun _ => none, envFile := noPortEnv } = 1 ∧
      (∃ varName ∈ required, Unusable noPortEnv varName) ∧
      exitCode shortKeyInput = 0 :=
  ⟨by decide!,
    (validation_fails_iff_unusable
      { envFileExists := true, processEnv := fun _ => none, envFile := noPortEnv } noPortEnv
      rfl).2.1.mp (by decide!),
    by decide!⟩

/-! ## A bet followed by its cashout -/

theorem findWithIndex_append_last {α : Type} (p : α → Bool) (a : α) (ha : p a = true) :
    ∀ (l : List α), (∀ x ∈ l, p x = false) →
      findWithIndex p (l ++ [a]) = some (l.length, a) := by
  intro l
  induction l with
  | nil => intro _; simp [findWithIndex, ha]
  | cons x l ih =>
    intro h
    have hx : p x = false := h x (List.mem_cons_self x l)
    have hl := ih (fun y hy => h y (List.mem_cons_of_mem x hy))
    simp [findWithIndex, hx, hl]

/-- After an accepted bet, a committed cashout of the same username settles exactly that bet,
on the wallet the bet was debited from. -/
theorem cashout_after_bet (s : Store) (env1 env2 : Env) (req : PlaceBetPayload) (m : ℚ)
    (u cur : String) (usd crypto : ℚ) (rid : Nat) (e : Event)
    (h1 : Emitted.unicast (Event.bet_placed u usd crypto cur rid) ∈ (placeBet s env1 req).2)
    (h2 : (cashout (setLiveMultiplier (placeBet s env1 req).1 m) env2 ⟨req.username⟩).2
      = [Emitted.broadcast e]) :
    ∃ plan1 plan2, BetChecked s env1 req plan1 ∧ crypto = plan1.cryptoAmount ∧
      usd = plan1.cleanUsdAmount ∧
      (placeBet s env1 req).1 = betStage3 s env1 req plan1 ∧
      cashout (setLiveMultiplier (placeBet s env1 req).1 m) env2 ⟨req.username⟩ =
        (cashStage3 (setLiveMultiplier (betStage3 s env1 req plan1) m) env2 plan2,
          cashoutEvents (setLiveMultiplier (betStage3 s env1 req plan1) m) ⟨req.username⟩
            plan2) ∧
      plan2.playerId = plan1.playerId ∧ plan2.player = debitedPlayer req plan1 ∧
      plan2.bet = newBet req plan1 ∧
      plan2.wallet = { plan1.wallet with
        balance := toFixed 8 (plan1.wallet.balance - plan1.cryptoAmount) } := by
  obtain ⟨plan1, _, hc1, _, _, _, hcr⟩ :=
    placeBet_accepted_inv s env1 req u cur usd crypto rid h1
  obtain ⟨plan1b, hc1b, hres1⟩ := placeBet_committed s env1 req u cur usd crypto rid h1
  have hsame : plan1b = plan1 := by
    have e1 := hc1b.player_found
    rw [hc1.player_found] at e1
    have e2 := hc1b.round_found
    rw [hc1.round_found] at e2
    have e3 := hc1b.usd_eq
    rw [hc1.usd_eq] at e3
    have e4 := hc1b.wallet_found
    simp only [Option.some.injEq, Prod.mk.injEq] at e1 e2 e3
    rw [← e1.2, hc1.wallet_found] at e4
    simp only [Option.some.injEq] at e4
    have e5 : plan1b.price = plan1.price := by rw [hc1b.price_eq, hc1.price_eq]
    have e6 : plan1b.cryptoAmount = plan1.cryptoAmount := by
      rw [hc1b.crypto_eq, hc1.crypto_eq, e5, ← e3]
    cases plan1b
    cases plan1
    simp only at e1 e2 e3 e4 e5 e6
    simp [e1.1, e1.2, e2.1, e2.2, e3, e4, e5, e6]
  rw [hsame] at hres1
  have husd : usd = plan1.cleanUsdAmount := by
    rw [hres1] at h1
    simp only [betPlacedEvents, List.mem_cons, Emitted.unicast.injEq, Event.bet_placed.injEq,
      List.mem_singleton, reduceCtorEq, or_false, List.not_mem_nil] at h1
    exact h1.2.1
  have hst : (placeBet s env1 req).1 = betStage3 s env1 req plan1 := by rw [hres1]
  rw [hst] at h2 ⊢
  obtain ⟨plan2, hc2, hres2⟩ := cashout_committed _ env2 _ e h2
  have hp := findWithIndex_some _ _ _ _ hc1.player_found
  have hr := findWithIndex_some _ _ _ _ hc1.round_found
  have hp2 : findOnePlayer (setLiveMultiplier (betStage3 s env1 req plan1) m).players
      req.username = some (plan1.playerId, debitedPlayer req plan1) :=
    findWithIndex_set _ _ _ _ _ hc1.player_found hp.2
  have hr2 : findActiveRound (setLiveMultiplier (betStage3 s env1 req plan1) m).rounds =
      some (plan1.roundIdx, { plan1.round with
        bets := plan1.round.bets ++ [newBet req plan1] }) :=
    findWithIndex_set _ _ _ _ _ hc1.round_found hr.2
  have hb2 : findActiveBet (plan1.round.bets ++ [newBet req plan1]) plan1.playerId =
      some (plan1.round.bets.length, newBet req plan1) := by
    apply findWithIndex_append_last
    · simp [newBet]
    · intro x hx
      have := List.any_eq_false.mp hc1.no_bet_yet x hx
      simp only [beq_iff_eq] at this
      simp [this]
  have hw2 : findWallet (debitedPlayer req plan1).wallets (newBet req plan1).currency =
      some { plan1.wallet with
        balance := toFixed 8 (plan1.wallet.balance - plan1.cryptoAmount) } :=
    findWallet_setWalletBalance_same _ _ _ _ hc1.wallet_found
  have e1 := hc2.player_found
  rw [show (⟨req.username⟩ : CashoutPayload).username = req.username from rfl, hp2] at e1
  have e2 := hc2.round_found
  rw [hr2] at e2
  simp only [Option.some.injEq, Prod.mk.injEq] at e1 e2
  have e3 := hc2.bet_found
  rw [← e2.2, ← e1.1] at e3
  simp only at e3
  rw [hb2] at e3
  simp only [Option.some.injEq, Prod.mk.injEq] at e3
  have e4 := hc2.wallet_found
  rw [← e1.2, ← e3.2, hw2] at e4
  simp only [Option.some.injEq] at e4
  exact ⟨plan1, plan2, hc1, hcr, husd, rfl, hres2, e1.1.symm, e1.2.symm, e3.2.symm, e4.symm⟩

/-! ## C21: the denominator of the price reconstruction -/

/-- C21: a bet that `place_bet` stores has `usd_amount > 0` and a `crypto_amount` that is
`toFixed 8 (usd_amount / price)` and not zero (a conversion that rounds to 0 is refused and
changes nothing), so the division `usd_amount / crypto_amount` of its cashout has a non-zero
denominator; with the price of the currency being positive, as a market price is, the
`crypto_amount` is positive and the reconstructed price written by the cashout is positive. -/
theorem inserted_bets_have_nonzero_amount (s : Store) (env : Env) (req : PlaceBetPayload) :
    (∀ (k : Nat) (r : GameRound), s.rounds[k]? = some r →
      (placeBet s env req).1.rounds[k]? = some r ∨
      ∃ b : Bet,
        (placeBet s env req).1.rounds[k]? = some { r with bets := r.bets ++ [b] } ∧
        0 < b.usd_amount ∧ b.crypto_amount ≠ 0 ∧
        b.crypto_amount = toFixed 8 (b.usd_amount / priceFor env req.currency) ∧
        (0 < priceFor env req.currency →
          0 < b.crypto_amount ∧ 0 < b.usd_amount / b.crypto_amount)) ∧
    (∀ usd, req.usd_amount = some usd → toFixed 8 (usd / priceFor env req.currency) = 0 →
      (placeBet s env req).1 = s ∧
        ∃ msg err, (placeBet s env req).2 = [Emitted.unicast (Event.bet_error msg err)]) ∧
    (∀ (env2 : Env) (m : ℚ) (u cur : String) (usd crypto : ℚ) (rid : Nat) (e : Event),
      Emitted.unicast (Event.bet_placed u usd crypto cur rid) ∈ (placeBet s env req).2 →
      (cashout (setLiveMultiplier (placeBet s env req).1 m) env2 ⟨req.username⟩).2
        = [Emitted.broadcast e] →
      ∃ tx,
        (cashout (setLiveMultiplier (placeBet s env req).1 m) env2
            ⟨req.username⟩).1.transactions
          = (placeBet s env req).1.transactions ++ [tx] ∧
        crypto ≠ 0 ∧ tx.price_at_time = usd / crypto ∧
        (0 < priceFor env req.currency → 0 < tx.price_at_time)) := by
  have hpos : ∀ plan : BetPlan, BetChecked s env req plan → 0 < priceFor env req.currency →
      0 < plan.cryptoAmount ∧ 0 < plan.cleanUsdAmount / plan.cryptoAmount := by
    intro plan hc hprice
    have h0 : 0 ≤ plan.cryptoAmount := by
      rw [hc.crypto_eq, hc.price_eq]
      exact toFixed_nonneg _ _ (le_of_lt (div_pos hc.usd_pos hprice))
    have h1 : 0 < plan.cryptoAmount := lt_of_le_of_ne h0 (Ne.symm hc.crypto_ne)
    exact ⟨h1, div_pos hc.usd_pos h1⟩
  refine ⟨?_, ?_, ?_⟩
  · intro k r hk
    rcases placeBet_round_at s env req k r hk with h1 | ⟨plan, hc, _, _, h1⟩
    · exact Or.inl h1
    · refine Or.inr ⟨newBet req plan, h1, hc.usd_pos, hc.crypto_ne, ?_, hpos plan hc⟩
      simp only [newBet]
      rw [hc.crypto_eq, hc.price_eq]
  · intro usd husd hzero
    rcases placeBet_cases s env req with ⟨msg, err, h⟩ | ⟨plan, hc, _⟩
    · rw [h]; exact ⟨rfl, msg, err, rfl⟩
    · exfalso
      have e1 := hc.usd_eq
      rw [husd] at e1
      simp only [Option.some.injEq] at e1
      have e2 := hc.crypto_eq
      rw [hc.price_eq, ← e1, hzero] at e2
      exact hc.crypto_ne e2
  · intro env2 m u cur usd crypto rid e h1 h2
    obtain ⟨plan1, plan2, hc1, hcr, husd, hst, hres, _, _, hbet, _⟩ :=
      cashout_after_bet s env env2 req m u cur usd crypto rid e h1 h2
    have hprice : priceAtTime plan2 = usd / crypto := by
      unfold priceAtTime
      rw [hbet, husd, hcr]
      rfl
    refine ⟨cashoutTransaction (setLiveMultiplier (betStage3 s env req plan1) m) env2 plan2,
      ?_, ?_, hprice, ?_⟩
    · rw [hres, hst]; rfl
    · rw [hcr]; exact hc1.crypto_ne
    · intro hp
      show 0 < priceAtTime plan2
      rw [hprice, husd, hcr]
      exact (hpos plan1 hc1 hp).2

/-- Scenario A: the stored bet has `crypto_amount = 0.001`, the cashout transaction carries
the price `50 / 0.001 = 50000`. -/
theorem inserted_bets_have_nonzero_amount_witness :
    (0 : ℚ) < priceFor calmEnv "BTC" ∧
      ∃ tx,
        (cashout (setLiveMultiplier (placeBet seedStore calmEnv scenarioARequest).1 2) calmEnv
            ⟨"test"⟩).1.transactions
          = (placeBet seedStore calmEnv scenarioARequest).1.transactions ++ [tx] ∧
        (1 / 1000 : ℚ) ≠ 0 ∧ tx.price_at_time = 50 / (1 / 1000) ∧
        ((0 : ℚ) < priceFor calmEnv "BTC" → 0 < tx.price_at_time) :=
  ⟨by decide!,
    (inserted_bets_have_nonzero_amount seedStore calmEnv scenarioARequest).2.2 calmEnv 2
      "test" "BTC" 50 (1 / 1000) 1 (Event.player_cashout "test" "BTC" (2 / 1000) 100 2)
      (by decide!) (by decide!)⟩

/-! ## C22: a bet and its cashout as a round trip on the wallet -/

/-- C22, failing input: the seeded player `test` (0.1 BTC, a number with eight decimals) bets
100 USD at 30,000 USD per BTC and cashes out while the multiplier is 1; no operation rejects
and both requests are committed.  The bet is 0.00333333 BTC, the debit of line 66 stores
0.09666667, the payout is the bet, 0.00333333 BTC.  The credit of line 145 adds it without
rounding, and the binary64 sum of 0.09666667 and 0.00333333 is the binary64 value below 0.1
(printed 0.09999999999999999): the balance after the cashout is not the balance before the
bet, and it is smaller.  Rounded as the debit is, the sum would be 0.1. -/
theorem round_trip_at_1x_loses_balance :
    FixedBalancesDouble seedStoreDouble ∧
      balanceOf seedStoreDouble 0 "BTC" = some (7205759403792794 / 2 ^ 56) ∧
      roundDouble (1 / 10) = 7205759403792794 / 2 ^ 56 ∧
      (handleWith doubleArithmetic seedStoreDouble thirtyEnv
          (Request.place_bet ⟨"test", some 100, "BTC"⟩)).2 =
        [Emitted.unicast (Event.bet_placed "test" 100 (roundDouble (333333 / 10 ^ 8)) "BTC" 1),
         Emitted.broadcast (Event.player_bet "test" 100 "BTC" 1)] ∧
      balanceOf roundTripBetStore 0 "BTC" = some (roundDouble (9666667 / 10 ^ 8)) ∧
      roundTripBetStore.currentMultiplier = 1 ∧
      (handleWith doubleArithmetic roundTripBetStore thirtyEnv (Request.cashout ⟨"test"⟩)).2 =
        [Emitted.broadcast (Event.player_cashout "test" "BTC" (roundDouble (333333 / 10 ^ 8))
          100 1)] ∧
      balanceOf roundTripStore 0 "BTC" = some (7205759403792793 / 2 ^ 56) ∧
      balanceOf roundTripStore 0 "BTC" ≠ balanceOf seedStoreDouble 0 "BTC" ∧
      (7205759403792793 / 2 ^ 56 : ℚ) < 7205759403792794 / 2 ^ 56 ∧
      toFixedDouble 8 (7205759403792793 / 2 ^ 56) = roundDouble (1 / 10) := by
  decide!

/-! ## C23: what a request leaves untouched -/

theorem cashoutChecked_bet_unique (s : Store) (req : CashoutPayload) (plan plan1 : CashoutPlan)
    (h : CashoutChecked s req plan) (h1 : CashoutChecked s req plan1) :
    plan1.playerId = plan.playerId ∧ plan1.bet = plan.bet := by
  have e1 := h1.player_found
  rw [h.player_found] at e1
  have e2 := h1.round_found
  rw [h.round_found] at e2
  simp only [Option.some.injEq, Prod.mk.injEq] at e1 e2
  have e3 := h1.bet_found
  rw [← e2.2, ← e1.1, h.bet_found] at e3
  simp only [Option.some.injEq, Prod.mk.injEq] at e3
  exact ⟨e1.1.symm, e3.2.symm⟩

theorem handle_lengths (s : Store) (env : Env) (req : Request) :
    (handle s env req).1.players.length = s.players.length ∧
      (handle s env req).1.rounds.length = s.rounds.length := by
  cases req with
  | place_bet payload =>
    simp only [handle]
    rcases placeBet_cases s env payload with ⟨msg, err, h⟩ | ⟨plan, _, h⟩
    · rw [h]; exact ⟨rfl, rfl⟩
    · rw [h]
      rcases placeBetCommit_cases s env payload plan with
        ⟨_, h1⟩ | ⟨_, h1⟩ | ⟨_, h1⟩ | ⟨_, _, _, h1⟩ <;> rw [h1] <;>
        simp [betStage3, betStage2, betStage1, createTransaction, saveRound, savePlayer]
  | cashout payload =>
    simp only [handle]
    rcases cashout_cases s env payload with ⟨msg, err, h⟩ | ⟨plan, _, h⟩
    · rw [h]; exact ⟨rfl, rfl⟩
    · rw [h]
      rcases cashoutCommit_cases s env payload plan with
        ⟨_, h1⟩ | ⟨_, h1⟩ | ⟨_, h1⟩ | ⟨_, _, _, h1⟩ <;> rw [h1] <;>
        simp [cashStage3, cashStage2, cashStage1, createTransaction, saveRound, savePlayer]

/-- The player documents other than the requester's are left as they are. -/
theorem handle_other_players (s : Store) (env : Env) (req : Request) (i : Nat)
    (hi : requester s req ≠ some i) :
    (handle s env req).1.players[i]? = s.players[i]? := by
  cases req with
  | place_bet payload =>
    simp only [handle]
    rcases placeBet_players s env payload with h | ⟨plan, hc, h⟩
    · rw [h]
    · rw [h]
      have hne : plan.playerId ≠ i := by
        intro heq
        apply hi
        simp [requester, hc.player_found, heq]
      exact List.getElem?_set_ne hne
  | cashout payload =>
    simp only [handle]
    rcases cashout_players s env payload with h | ⟨plan, hc, h⟩
    · rw [h]
    · rw [h]
      have hne : plan.playerId ≠ i := by
        intro heq
        apply hi
        simp [requester, hc.player_found, heq]
      exact List.getElem?_set_ne hne

/-- The balances in every currency other than the one a request works on are left as they
are. -/
theorem handle_other_currency (s : Store) (env : Env) (req : Request) :
    ∃ cur : String,
      (∀ payload, req = Request.place_bet payload → cur = payload.currency) ∧
      (∀ payload plan, req = Request.cashout payload → CashoutChecked s payload plan →
        cur = plan.bet.currency) ∧
      ∀ (i : Nat) (c : String), c ≠ cur →
        balanceOf (handle s env req).1 i c = balanceOf s i c := by
  cases req with
  | place_bet payload =>
    refine ⟨payload.currency, ?_, ?_, ?_⟩
    · intro p hp; cases hp; rfl
    · intro p plan hp; cases hp
    · intro i c hc
      simp only [handle]
      rcases placeBet_players s env payload with h | ⟨plan, hchk, h⟩
      · unfold balanceOf; rw [h]
      · have hp := (findWithIndex_some _ _ _ _ hchk.player_found).1
        rw [balanceOf_after_save s _ _ _ _ _ _ hp hchk.wallet_found h i c]
        rw [if_neg (fun hh => hc hh.2)]
  | cashout payload =>
    by_cases hex : ∃ plan, CashoutChecked s payload plan
    · obtain ⟨plan0, h0⟩ := hex
      refine ⟨plan0.bet.currency, ?_, ?_, ?_⟩
      · intro p hp; cases hp
      · intro p plan hp hchk
        cases hp
        rw [(cashoutChecked_bet_unique s payload plan plan0 hchk h0).2]
      · intro i c hc
        simp only [handle]
        rcases cashout_players s env payload with h | ⟨plan, hchk, h⟩
        · unfold balanceOf; rw [h]
        · have hp := (findWithIndex_some _ _ _ _ hchk.player_found).1
          have hb := (cashoutChecked_bet_unique s payload plan plan0 hchk h0).2
          rw [balanceOf_after_save s _ _ _ _ _ _ hp hchk.wallet_found h i c]
          rw [if_neg (fun hh => hc (by rw [hh.2, hb]))]
    · refine ⟨"", ?_, ?_, ?_⟩
      · intro p hp; cases hp
      · intro p plan hp hchk
        cases hp
        exact absurd ⟨plan, hchk⟩ hex
      · intro i c _
        simp only [handle]
        rcases cashout_players s env payload with h | ⟨plan, hchk, _⟩
        · unfold balanceOf; rw [h]
        · exact absurd ⟨plan, hchk⟩ hex

/-- A round after a request: the fields other than `bets` and the bets of the other players
are as before; the list of bets keeps its length, or `place_bet` has put one active bet of
the requester at its end. -/
theorem handle_round_frame (s : Store) (env : Env) (req : Request) (k : Nat) (r : GameRound)
    (hk : s.rounds[k]? = some r) :
    ∃ r1 : GameRound, (handle s env req).1.rounds[k]? = some r1 ∧
      r1.round_id = r.round_id ∧ r1.is_active = r.is_active ∧
      r1.crash_point = r.crash_point ∧ r1.phase = r.phase ∧
      (∀ (j : Nat) (b : Bet), r.bets[j]? = some b → requester s req ≠ some b.player →
        r1.bets[j]? = some b) ∧
      (r1.bets.length = r.bets.length ∨
        ∃ payload b, req = Request.place_bet payload ∧ r1.bets = r.bets ++ [b] ∧
          b.status = BetStatus.active ∧ requester s req = some b.player) := by
  cases req with
  | place_bet payload =>
    simp only [handle]
    rcases placeBet_round_at s env payload k r hk with h1 | ⟨plan, hc, _, _, h1⟩
    · exact ⟨r, h1, rfl, rfl, rfl, rfl, fun j b hj _ => hj, Or.inl rfl⟩
    · refine ⟨_, h1, rfl, rfl, rfl, rfl, ?_, Or.inr ⟨payload, newBet payload plan, rfl, rfl,
        rfl, ?_⟩⟩
      · intro j b hj _
        simp only
        rw [List.getElem?_append_left (lt_length_of_getElem? _ _ _ hj)]
        exact hj
      · simp [requester, hc.player_found, newBet]
  | cashout payload =>
    simp only [handle]
    rcases cashout_round_at s env payload k r hk with h1 | ⟨plan, hc, _, hpr, h1⟩
    · exact ⟨r, h1, rfl, rfl, rfl, rfl, fun j b hj _ => hj, Or.inl rfl⟩
    · refine ⟨_, h1, rfl, rfl, rfl, rfl, ?_, Or.inl (by simp)⟩
      intro j b hj hother
      have hfound := findWithIndex_some _ _ _ _ hc.bet_found
      rw [hpr] at hfound
      have hne : plan.betIdx ≠ j := by
        intro heq
        apply hother
        have hb : plan.bet = b := by
          have := hfound.1
          rw [heq, hj] at this
          exact (Option.some.inj this).symm
        have hpl := hfound.2
        simp only [Bool.and_eq_true, beq_iff_eq] at hpl
        simp [requester, hc.player_found, ← hb, hpl.1]
      simp only
      rw [List.getElem?_set_ne hne]
      exact hj

/-- C23: a request leaves the documents of every player other than the requester, and every
balance in a currency other than the one it works on (the currency of the `place_bet`, the
currency of the bet a `cashout` settles), as they are; in every round the fields `round_id`,
`is_active`, `crash_point` and the phase, and the bets of the other players at their
positions, are as before; the list of bets keeps its length or, for `place_bet`, has one
active bet of the requester added at its end; no player or round is added or removed. -/
theorem requests_touch_own_records (s : Store) (env : Env) (req : Request) :
    (∀ i : Nat, requester s req ≠ some i →
      (handle s env req).1.players[i]? = s.players[i]?) ∧
    (∃ cur : String,
      (∀ payload, req = Request.place_bet payload → cur = payload.currency) ∧
      (∀ payload plan, req = Request.cashout payload → CashoutChecked s payload plan →
        cur = plan.bet.currency) ∧
      ∀ (i : Nat) (c : String), c ≠ cur →
        balanceOf (handle s env req).1 i c = balanceOf s i c) ∧
    (∀ (k : Nat) (r : GameRound), s.rounds[k]? = some r →
      ∃ r1 : GameRound, (handle s env req).1.rounds[k]? = some r1 ∧
        r1.round_id = r.round_id ∧ r1.is_active = r.is_active ∧
        r1.crash_point = r.crash_point ∧ r1.phase = r.phase ∧
        (∀ (j : Nat) (b : Bet), r.bets[j]? = some b → requester s req ≠ some b.player →
          r1.bets[j]? = some b) ∧
        (r1.bets.length = r.bets.length ∨
          ∃ payload b, req = Request.place_bet payload ∧ r1.bets = r.bets ++ [b] ∧
            b.status = BetStatus.active ∧ requester s req = some b.player)) ∧
    (handle s env req).1.players.length = s.players.length ∧
    (handle s env req).1.rounds.length = s.rounds.length :=
  ⟨handle_other_players s env req, handle_other_currency s env req,
    handle_round_frame s env req, (handle_lengths s env req).1, (handle_lengths s env req).2⟩

/-- A bet of `test` in BTC next to the ETH bet of `vikas`: the document of `vikas`, the ETH
balance of `test` and the bet of `vikas` are as before, and the new bet is second in the
round. -/
theorem requests_touch_own_records_witness :
    requester twoPlayerStore (Request.place_bet scenarioARequest) = some 0 ∧
      (handle twoPlayerStore calmEnv (Request.place_bet scenarioARequest)).1.players[1]?
        = twoPlayerStore.players[1]? ∧
      balanceOf (handle twoPlayerStore calmEnv (Request.place_bet scenarioARequest)).1 0 "ETH"
        = some 5 ∧
      betAt (handle twoPlayerStore calmEnv (Request.place_bet scenarioARequest)).1 0 0
        = betAt twoPlayerStore 0 0 ∧
      betAt (handle twoPlayerStore calmEnv (Request.place_bet scenarioARequest)).1 0 1
        = some scenarioABet :=
  ⟨by decide!,
    (requests_touch_own_records twoPlayerStore calmEnv
      (Request.place_bet scenarioARequest)).1 1 (by decide!),
    by decide!, by decide!, by decide!⟩

end CrashGame
